import Mathlib

/-! CommandHandler of the SyncML engine.

A shallow embedding of `src/src/CommandHandler.cpp`: the status interpreter
(`getStatusType`, `handleError`, `handleRedirection`, `handleStatus`) and the
batch handler (`handleSync`) with its collaborators (storage handler, sync
target, response generator) modelled as a state machine over an arbitrary
world type, every call being recorded in a trace.
-/

namespace DataSync

/-! ## Protocol data -/

/-- Status codes travel as plain integers (`ResponseStatusCode` is a C++
enumeration that holds any integer read from the wire). -/
abbrev ResponseStatusCode := Int

/-- Modelled from the spec: the numeric values of the `ResponseStatusCode`
enumerators named in `CommandHandler.cpp`. The enumeration is declared in a
header that is not part of the sources, so the values are a parameter of every
definition that uses one. -/
structure StatusCodes where
  SUCCESS : ResponseStatusCode
  ITEM_ADDED : ResponseStatusCode
  RESOLVED_CLIENT_WINNING : ResponseStatusCode
  RESOLVED_WITH_SERVER_DATA : ResponseStatusCode
  ITEM_NOT_DELETED : ResponseStatusCode
  CHUNKED_ITEM_ACCEPTED : ResponseStatusCode
  COMMAND_NOT_ALLOWED : ResponseStatusCode
  NOT_SUPPORTED : ResponseStatusCode
  SIZE_REQUIRED : ResponseStatusCode
  UNSUPPORTED_FORMAT : ResponseStatusCode
  REQUEST_SIZE_TOO_BIG : ResponseStatusCode
  ALREADY_EXISTS : ResponseStatusCode
  DEVICE_FULL : ResponseStatusCode
  COMMAND_FAILED : ResponseStatusCode
  NOT_IMPLEMENTED : ResponseStatusCode
  REFRESH_REQUIRED : ResponseStatusCode
  deriving DecidableEq, Repr

/-- The code table of the SyncML representation protocol, used to evaluate the
definitions on concrete inputs. -/
def syncmlCodes : StatusCodes where
  SUCCESS := 200
  ITEM_ADDED := 201
  RESOLVED_CLIENT_WINNING := 208
  RESOLVED_WITH_SERVER_DATA := 419
  ITEM_NOT_DELETED := 211
  CHUNKED_ITEM_ACCEPTED := 213
  COMMAND_NOT_ALLOWED := 405
  NOT_SUPPORTED := 406
  SIZE_REQUIRED := 411
  UNSUPPORTED_FORMAT := 415
  REQUEST_SIZE_TOO_BIG := 416
  ALREADY_EXISTS := 418
  DEVICE_FULL := 420
  COMMAND_FAILED := 500
  NOT_IMPLEMENTED := 501
  REFRESH_REQUIRED := 508

/-- Classes of status codes (`StatusCodeType`). -/
inductive StatusCodeType where
  | UNKNOWN
  | INFORMATIONAL
  | SUCCESSFUL
  | REDIRECTION
  | ORIGINATOR_EXCEPTION
  | RECIPIENT_EXCEPTION
  deriving DecidableEq, Repr

/-- Modelled from the spec: the element names `SYNCML_ELEMENT_ADD`,
`SYNCML_ELEMENT_REPLACE`, `SYNCML_ELEMENT_DELETE` and `SYNCML_ELEMENT_MAP`,
string constants of a header that is not part of the sources. -/
structure ElementNames where
  SYNCML_ELEMENT_ADD : String
  SYNCML_ELEMENT_REPLACE : String
  SYNCML_ELEMENT_DELETE : String
  SYNCML_ELEMENT_MAP : String
  deriving DecidableEq, Repr

/-- The element names of the SyncML representation protocol. -/
def syncmlElements : ElementNames where
  SYNCML_ELEMENT_ADD := "Add"
  SYNCML_ELEMENT_REPLACE := "Replace"
  SYNCML_ELEMENT_DELETE := "Delete"
  SYNCML_ELEMENT_MAP := "Map"

/-- The fields of `StatusParams` read by `handleStatus`. -/
structure StatusParams where
  data : ResponseStatusCode
  cmd : String
  msgRef : Int
  cmdRef : Int
  sourceRef : String
  deriving DecidableEq, Repr

/-- What `handleStatus` does, in order: the internal handlers it invokes (with
the value they return), the log line of the default branch, and the signals it
emits to the session layer. -/
inductive StatusEffect where
  | redirectionHandled (code : ResponseStatusCode) (ret : ResponseStatusCode)
  | unknownLogged (code : ResponseStatusCode)
  | abortSync (code : ResponseStatusCode)
  | itemAcknowledged (msgRef : Int) (cmdRef : Int) (sourceRef : String)
  | mappingAcknowledged (msgRef : Int) (cmdRef : Int)
  deriving DecidableEq, Repr

/-! ## Status interpreter -/

/-- `CommandHandler::getStatusType` (lines 590-627): the five bounds pairs and
the comparisons `aStatus >= low && aStatus < high` exactly as written. -/
def getStatusType (aStatus : ResponseStatusCode) : StatusCodeType :=
  let informationalLowBound : Int := 100
  let informationalHighBound : Int := 199
  let succesfullLowBound : Int := 200
  let successfullHighBound : Int := 299
  let redirectionLowBound : Int := 300
  let redirectionHighBound : Int := 399
  let originatorExceptionLowBound : Int := 400
  let originatorExceptionHighBound : Int := 499
  let recipientExceptionLowBound : Int := 500
  let recipientExceptionHighBound : Int := 599
  if aStatus ≥ informationalLowBound ∧ aStatus < informationalHighBound then
    StatusCodeType.INFORMATIONAL
  else if aStatus ≥ succesfullLowBound ∧ aStatus < successfullHighBound then
    StatusCodeType.SUCCESSFUL
  else if aStatus ≥ redirectionLowBound ∧ aStatus < redirectionHighBound then
    StatusCodeType.REDIRECTION
  else if aStatus ≥ originatorExceptionLowBound ∧ aStatus < originatorExceptionHighBound then
    StatusCodeType.ORIGINATOR_EXCEPTION
  else if aStatus ≥ recipientExceptionLowBound ∧ aStatus < recipientExceptionHighBound then
    StatusCodeType.RECIPIENT_EXCEPTION
  else
    StatusCodeType.UNKNOWN

/-- `CommandHandler::handleRedirection` (lines 667-672). -/
def handleRedirection (k : StatusCodes) (_aRedirectionCode : ResponseStatusCode) :
    ResponseStatusCode :=
  k.NOT_IMPLEMENTED

/-- `CommandHandler::handleError` (lines 556-588): the signals emitted. -/
def handleError (k : StatusCodes) (aErrorCode : ResponseStatusCode) : List StatusEffect :=
  let statusType := getStatusType aErrorCode
  if statusType = StatusCodeType.ORIGINATOR_EXCEPTION then
    if aErrorCode = k.ALREADY_EXISTS then
      []
    else
      [StatusEffect.abortSync aErrorCode]
  else if statusType = StatusCodeType.RECIPIENT_EXCEPTION then
    if aErrorCode = k.REFRESH_REQUIRED then
      []
    else
      [StatusEffect.abortSync aErrorCode]
  else
    []

/-- `CommandHandler::handleStatus` (lines 503-554): the reaction to the class of
the code, then the acknowledgement chosen by the command name. -/
def handleStatus (k : StatusCodes) (e : ElementNames) (aStatusParams : StatusParams) :
    List StatusEffect :=
  let statusCode := aStatusParams.data
  let statusType := getStatusType statusCode
  let reaction : List StatusEffect :=
    match statusType with
    | StatusCodeType.INFORMATIONAL => []
    | StatusCodeType.SUCCESSFUL => []
    | StatusCodeType.REDIRECTION =>
        [StatusEffect.redirectionHandled statusCode (handleRedirection k statusCode)]
    | StatusCodeType.ORIGINATOR_EXCEPTION => handleError k statusCode
    | StatusCodeType.RECIPIENT_EXCEPTION => handleError k statusCode
    | StatusCodeType.UNKNOWN => [StatusEffect.unknownLogged statusCode]
  let acknowledgement : List StatusEffect :=
    if aStatusParams.cmd = e.SYNCML_ELEMENT_ADD ∨
        aStatusParams.cmd = e.SYNCML_ELEMENT_REPLACE ∨
        aStatusParams.cmd = e.SYNCML_ELEMENT_DELETE then
      [StatusEffect.itemAcknowledged aStatusParams.msgRef aStatusParams.cmdRef
        aStatusParams.sourceRef]
    else if aStatusParams.cmd = e.SYNCML_ELEMENT_MAP then
      [StatusEffect.mappingAcknowledged aStatusParams.msgRef aStatusParams.cmdRef]
    else
      []
  reaction ++ acknowledgement

/-- The codes carried by the abort-sync signals of a run of `handleStatus`. -/
def abortCodes : List StatusEffect → List ResponseStatusCode
  | [] => []
  | StatusEffect.abortSync c :: rest => c :: abortCodes rest
  | _ :: rest => abortCodes rest

/-- The redirection-handler invocations of a run: code handed in, code returned. -/
def redirections : List StatusEffect → List (ResponseStatusCode × ResponseStatusCode)
  | [] => []
  | StatusEffect.redirectionHandled c r :: rest => (c, r) :: redirections rest
  | _ :: rest => redirections rest

/-! ## Batch data -/

/-- `Role` of the handler (`iRole`). -/
inductive Role where
  | ROLE_CLIENT
  | ROLE_SERVER
  deriving DecidableEq, Repr

/-- Modelled from the spec: the kind of a sync action. `CommandHandler.cpp`
names `SYNCML_ADD`, `SYNCML_REPLACE` and `SYNCML_DELETE`; every other
enumerator of the absent header is `SYNCML_OTHER`. -/
inductive SyncMLCommand where
  | SYNCML_ADD
  | SYNCML_REPLACE
  | SYNCML_DELETE
  | SYNCML_OTHER (tag : Nat)
  deriving DecidableEq, Repr

/-- Identity of an item inside a batch (`ItemId`). -/
structure ItemId where
  iCmdId : Int
  iItemIndex : Int
  deriving DecidableEq, Repr

/-- The meta fields read by `handleSync` (`meta.type`, `meta.format`, `meta.size`). -/
structure MetaParams where
  type : String
  format : String
  size : Int
  deriving DecidableEq, Repr

/-- The fields of `ItemParams` read by `handleSync`. -/
structure ItemParams where
  source : String
  target : String
  sourceParent : String
  targetParent : String
  meta : MetaParams
  Data : String
  moreData : Bool
  deriving DecidableEq, Repr

/-- The fields of `SyncActionData` read by `handleSync` and `rejectSync`. -/
structure SyncActionData where
  action : SyncMLCommand
  cmdID : Int
  noResp : Bool
  meta : MetaParams
  items : List ItemParams
  deriving DecidableEq, Repr

/-- The fields of `SyncParams` read by `handleSync` and `rejectSync`. -/
structure SyncParams where
  cmdID : Int
  noResp : Bool
  actionList : List SyncActionData
  deriving DecidableEq, Repr

/-- Modelled from the spec: the commit status of a `CommitResult`. The eight
enumerators tested by `handleSync` are named; every other enumerator of the
absent header is `COMMIT_OTHER`. -/
inductive CommitStatus where
  | COMMIT_ADDED
  | COMMIT_REPLACED
  | COMMIT_DELETED
  | COMMIT_DUPLICATE
  | COMMIT_NOT_DELETED
  | COMMIT_UNSUPPORTED_FORMAT
  | COMMIT_ITEM_TOO_BIG
  | COMMIT_NOT_ENOUGH_SPACE
  | COMMIT_OTHER (tag : Nat)
  deriving DecidableEq, Repr

/-- Modelled from the spec: the conflict field of a `CommitResult`, one of
none, local side wins, remote side wins. -/
inductive ConflictStatus where
  | CONFLICT_NO_CONFLICT
  | CONFLICT_LOCAL_WIN
  | CONFLICT_REMOTE_WIN
  deriving DecidableEq, Repr

/-- Outcome of a commit for one item (`CommitResult`). -/
structure CommitResult where
  iItemKey : String
  iStatus : CommitStatus
  iConflict : ConflictStatus
  deriving DecidableEq, Repr

/-- A remote key with the local key it stands for (`UIDMapping`). -/
structure UIDMapping where
  iRemoteUID : String
  iLocalUID : String
  deriving DecidableEq, Repr

/-- The alert codes `handleSync` sends. -/
inductive AlertType where
  | NEXT_MESSAGE
  | NO_END_OF_DATA
  deriving DecidableEq, Repr

/-- An `AlertPackage`: alert code, source database, target database. -/
structure AlertPackage where
  alert : AlertType
  sourceDatabase : String
  targetDatabase : String
  deriving DecidableEq, Repr

/-- Identity of the `ConflictResolver` object handed to `handleSync`. -/
structure ConflictResolver where
  handle : Nat
  deriving DecidableEq, Repr

/-! ## `QMap` -/

/-- A `QMap` as seen through `contains` and `value`, the only two queries
`handleSync` makes: the entry found for each key, if any. -/
abbrev QMap (κ : Type) (ν : Type) := κ → Option ν

/-- The empty map. -/
def QMap.empty {κ ν : Type} : QMap κ ν := fun _ => none

/-- `QMap::insert`: the value found for the key is replaced. -/
def QMap.insert {κ ν : Type} [DecidableEq κ] (m : QMap κ ν) (key : κ) (v : ν) : QMap κ ν :=
  fun j => if j = key then some v else m j

/-- `QMap::contains`. -/
def QMap.contains {κ ν : Type} (m : QMap κ ν) (key : κ) : Bool := (m key).isSome

/-- `QMap::value`: the value found for the key, or a default-constructed one. -/
def QMap.value {κ ν : Type} [Inhabited ν] (m : QMap κ ν) (key : κ) : ν := (m key).getD default

/-- `QMap::unite`: every entry of `other` is inserted with `insertMulti`, so a
key present in both maps is kept twice and `value` and `contains` answer with
the entry inserted last, the one of `other`. -/
def QMap.unite {κ ν : Type} (m other : QMap κ ν) : QMap κ ν :=
  fun j => match other j with
    | some v => some v
    | none => m j

/-- A default-constructed `CommitResult` (never read: `value` is called only
after `contains`). -/
instance : Inhabited CommitResult :=
  ⟨⟨"", CommitStatus.COMMIT_OTHER 0, ConflictStatus.CONFLICT_NO_CONFLICT⟩⟩

/-! ## Collaborators -/

/-- One call made by the handler on a collaborator, with its arguments and,
where the call returns something, the value returned. -/
inductive Call where
  | mapToLocalUID (remote : String) (ret : String)
  | buildingLargeObject (ret : Bool)
  | startLargeObjectAdd (key parent type format : String) (size : Int) (ret : Bool)
  | startLargeObjectReplace (key parent type format : String) (size : Int) (ret : Bool)
  | appendLargeObjectData (data : String) (ret : Bool)
  | matchesLargeObject (key : String) (ret : Bool)
  | finishLargeObject (id : ItemId) (ret : Bool)
  | addItem (id : ItemId) (parent type format data : String) (ret : Bool)
  | replaceItem (id : ItemId) (key parent type format data : String) (ret : Bool)
  | deleteItem (id : ItemId) (key : String) (ret : Bool)
  | commitAddedItems
  | commitReplacedItems (resolver : Option ConflictResolver)
  | commitDeletedItems (resolver : Option ConflictResolver)
  | addUIDMapping (mapping : UIDMapping)
  | removeUIDMapping (localUID : String)
  | addStatusSync (cmdID : Int) (code : ResponseStatusCode)
  | addStatusAction (cmdID : Int) (code : ResponseStatusCode)
  | addStatusItem (cmdID : Int) (item : ItemParams) (code : ResponseStatusCode)
  | addPackage (alert : AlertPackage)
  deriving DecidableEq, Repr

/-- The storage handler and the sync target as a state machine over a world
`W`: every call takes the world and returns its answer with the next world.
Nothing is assumed about the answers. The response generator only receives
data, so its calls are recorded in the trace and need no entry here.

`toUtf8` is what `appendLargeObjectData` is handed at line 258, where the
argument is written `item.Data.toUtf8()` and not `item.Data` as at lines 160,
184 and 281: the conversion of the payload to a UTF-8 byte array, read back
at the parameter type of the call. The conversions belong to the Qt library
and the parameter type to a header outside the sources, so the function is a
parameter; nothing is assumed about it. -/
structure Collaborators (W : Type) where
  toUtf8 : String → String
  mapToLocalUID : W → String → String × W
  getSourceDatabase : W → String
  getTargetDatabase : W → String
  addUIDMapping : W → UIDMapping → W
  removeUIDMapping : W → String → W
  buildingLargeObject : W → Bool × W
  startLargeObjectAdd : W → String → String → String → String → Int → Bool × W
  startLargeObjectReplace : W → String → String → String → String → Int → Bool × W
  appendLargeObjectData : W → String → Bool × W
  matchesLargeObject : W → String → Bool × W
  finishLargeObject : W → ItemId → Bool × W
  addItem : W → ItemId → String → String → String → String → Bool × W
  replaceItem : W → ItemId → String → String → String → String → String → Bool × W
  deleteItem : W → ItemId → String → Bool × W
  commitAddedItems : W → QMap ItemId CommitResult × W
  commitReplacedItems : W → Option ConflictResolver → QMap ItemId CommitResult × W
  commitDeletedItems : W → Option ConflictResolver → QMap ItemId CommitResult × W

/-- The state threaded through `handleSync`: the collaborators' world, the
local accumulator `responses`, and the calls made so far by the piece of code
that returns it. -/
structure Staged (W : Type) where
  world : W
  responses : QMap ItemId ResponseStatusCode
  trace : List Call

/-- A resolved key with the world and the calls after resolving it. -/
structure Resolved (W : Type) where
  key : String
  world : W
  trace : List Call

/-- The answer of the commit calls: the world, the merged `results`, the calls. -/
structure Committed (W : Type) where
  world : W
  results : QMap ItemId CommitResult
  trace : List Call

/-- The status chosen for one commit result, with the world and the calls after
the mapping-table update that goes with it. -/
structure Mapped (W : Type) where
  statusCode : ResponseStatusCode
  world : W
  trace : List Call

/-! ## `handleSync`: staging (lines 74-323) -/

section Handler

variable {W : Type}

/-- Parent key of an ADD item (lines 114-134). -/
def addParentKey (C : Collaborators W) (iRole : Role) (item : ItemParams) (w : W) :
    Resolved W :=
  if iRole = Role.ROLE_CLIENT then
    if item.sourceParent ≠ "" then
      let r := C.mapToLocalUID w item.sourceParent
      { key := r.1, world := r.2, trace := [Call.mapToLocalUID item.sourceParent r.1] }
    else
      { key := item.targetParent, world := w, trace := [] }
  else if iRole = Role.ROLE_SERVER ∧ item.sourceParent ≠ "" then
    let r := C.mapToLocalUID w item.sourceParent
    { key := r.1, world := r.2, trace := [Call.mapToLocalUID item.sourceParent r.1] }
  else
    { key := "", world := w, trace := [] }

/-- Local key of a REPLACE or DELETE item (lines 202-210 and 301-309). -/
def localKeyOf (C : Collaborators W) (iRole : Role) (item : ItemParams) (w : W) :
    Resolved W :=
  if iRole = Role.ROLE_CLIENT then
    { key := item.target, world := w, trace := [] }
  else
    let r := C.mapToLocalUID w item.source
    { key := r.1, world := r.2, trace := [Call.mapToLocalUID item.source r.1] }

/-- Parent key of a REPLACE item (lines 212-232). -/
def replaceParentKey (C : Collaborators W) (iRole : Role) (item : ItemParams) (w : W) :
    Resolved W :=
  if iRole = Role.ROLE_CLIENT then
    if item.sourceParent ≠ "" then
      let r := C.mapToLocalUID w item.sourceParent
      { key := r.1, world := r.2, trace := [Call.mapToLocalUID item.sourceParent r.1] }
    else
      { key := item.targetParent, world := w, trace := [] }
  else if iRole = Role.ROLE_SERVER then
    let r := C.mapToLocalUID w item.sourceParent
    { key := r.1, world := r.2, trace := [Call.mapToLocalUID item.sourceParent r.1] }
  else
    { key := "", world := w, trace := [] }

/-- The alert package sent by `handleSync`, addressed with the databases of the
target. -/
def alertPackage (C : Collaborators W) (alert : AlertType) (w : W) : AlertPackage :=
  { alert := alert, sourceDatabase := C.getSourceDatabase w,
    targetDatabase := C.getTargetDatabase w }

/-- The ADD branch after the keys are resolved (lines 138-198). -/
def stageAddBody (C : Collaborators W) (k : StatusCodes) (id : ItemId)
    (remoteKey parentKey type format : String) (item : ItemParams) (w : W)
    (responses : QMap ItemId ResponseStatusCode) : Staged W :=
  if item.moreData then
    -- first chunk of large object
    let b1 := C.buildingLargeObject w
    let first : Staged W :=
      if !b1.1 then
        if item.meta.size = 0 then
          { world := b1.2, responses := responses.insert id k.SIZE_REQUIRED,
            trace := [Call.buildingLargeObject b1.1] }
        else
          let st := C.startLargeObjectAdd b1.2 remoteKey parentKey type format item.meta.size
          if !st.1 then
            { world := st.2, responses := responses.insert id k.COMMAND_FAILED,
              trace := [Call.buildingLargeObject b1.1,
                Call.startLargeObjectAdd remoteKey parentKey type format item.meta.size st.1] }
          else
            { world := st.2, responses := responses,
              trace := [Call.buildingLargeObject b1.1,
                Call.startLargeObjectAdd remoteKey parentKey type format item.meta.size st.1] }
      else
        { world := b1.2, responses := responses, trace := [Call.buildingLargeObject b1.1] }
    let b2 := C.buildingLargeObject first.world
    if b2.1 then
      let ap := C.appendLargeObjectData b2.2 item.Data
      if ap.1 then
        { world := ap.2, responses := first.responses.insert id k.CHUNKED_ITEM_ACCEPTED,
          trace := first.trace ++ [Call.buildingLargeObject b2.1,
            Call.appendLargeObjectData item.Data ap.1,
            Call.addPackage (alertPackage C AlertType.NEXT_MESSAGE ap.2)] }
      else
        { world := ap.2, responses := first.responses.insert id k.COMMAND_FAILED,
          trace := first.trace ++ [Call.buildingLargeObject b2.1,
            Call.appendLargeObjectData item.Data ap.1] }
    else
      { world := b2.2, responses := first.responses,
        trace := first.trace ++ [Call.buildingLargeObject b2.1] }
  else
    let b := C.buildingLargeObject w
    if b.1 then
      -- last chunk of large object
      let m := C.matchesLargeObject b.2 remoteKey
      if !m.1 then
        { world := m.2, responses := responses.insert id k.COMMAND_NOT_ALLOWED,
          trace := [Call.buildingLargeObject b.1, Call.matchesLargeObject remoteKey m.1,
            Call.addPackage (alertPackage C AlertType.NO_END_OF_DATA m.2)] }
      else
        let ap := C.appendLargeObjectData m.2 item.Data
        if ap.1 then
          let f := C.finishLargeObject ap.2 id
          if !f.1 then
            { world := f.2, responses := responses.insert id k.COMMAND_FAILED,
              trace := [Call.buildingLargeObject b.1, Call.matchesLargeObject remoteKey m.1,
                Call.appendLargeObjectData item.Data ap.1, Call.finishLargeObject id f.1] }
          else
            { world := f.2, responses := responses,
              trace := [Call.buildingLargeObject b.1, Call.matchesLargeObject remoteKey m.1,
                Call.appendLargeObjectData item.Data ap.1, Call.finishLargeObject id f.1] }
        else
          { world := ap.2, responses := responses.insert id k.COMMAND_FAILED,
            trace := [Call.buildingLargeObject b.1, Call.matchesLargeObject remoteKey m.1,
              Call.appendLargeObjectData item.Data ap.1] }
    else
      -- normal object
      let ad := C.addItem b.2 id parentKey type format item.Data
      if !ad.1 then
        { world := ad.2, responses := responses.insert id k.COMMAND_FAILED,
          trace := [Call.buildingLargeObject b.1,
            Call.addItem id parentKey type format item.Data ad.1] }
      else
        { world := ad.2, responses := responses,
          trace := [Call.buildingLargeObject b.1,
            Call.addItem id parentKey type format item.Data ad.1] }

/-- The REPLACE branch after the keys are resolved (lines 236-295). -/
def stageReplaceBody (C : Collaborators W) (k : StatusCodes) (id : ItemId)
    (localKey parentKey type format : String) (item : ItemParams) (w : W)
    (responses : QMap ItemId ResponseStatusCode) : Staged W :=
  if item.moreData then
    -- first chunk of large object
    let b1 := C.buildingLargeObject w
    let first : Staged W :=
      if !b1.1 then
        if item.meta.size = 0 then
          { world := b1.2, responses := responses.insert id k.SIZE_REQUIRED,
            trace := [Call.buildingLargeObject b1.1] }
        else
          let st := C.startLargeObjectReplace b1.2 localKey parentKey type format item.meta.size
          if !st.1 then
            { world := st.2, responses := responses.insert id k.COMMAND_FAILED,
              trace := [Call.buildingLargeObject b1.1,
                Call.startLargeObjectReplace localKey parentKey type format item.meta.size st.1] }
          else
            { world := st.2, responses := responses,
              trace := [Call.buildingLargeObject b1.1,
                Call.startLargeObjectReplace localKey parentKey type format item.meta.size st.1] }
      else
        { world := b1.2, responses := responses, trace := [Call.buildingLargeObject b1.1] }
    let b2 := C.buildingLargeObject first.world
    if b2.1 then
      -- line 258: the argument is item.Data.toUtf8()
      let ap := C.appendLargeObjectData b2.2 (C.toUtf8 item.Data)
      if ap.1 then
        { world := ap.2, responses := first.responses.insert id k.CHUNKED_ITEM_ACCEPTED,
          trace := first.trace ++ [Call.buildingLargeObject b2.1,
            Call.appendLargeObjectData (C.toUtf8 item.Data) ap.1,
            Call.addPackage (alertPackage C AlertType.NEXT_MESSAGE ap.2)] }
      else
        { world := ap.2, responses := first.responses.insert id k.COMMAND_FAILED,
          trace := first.trace ++ [Call.buildingLargeObject b2.1,
            Call.appendLargeObjectData (C.toUtf8 item.Data) ap.1] }
    else
      { world := b2.2, responses := first.responses,
        trace := first.trace ++ [Call.buildingLargeObject b2.1] }
  else
    let b := C.buildingLargeObject w
    if b.1 then
      -- last chunk of large object
      let m := C.matchesLargeObject b.2 localKey
      if !m.1 then
        { world := m.2, responses := responses.insert id k.COMMAND_NOT_ALLOWED,
          trace := [Call.buildingLargeObject b.1, Call.matchesLargeObject localKey m.1,
            Call.addPackage (alertPackage C AlertType.NO_END_OF_DATA m.2)] }
      else
        let ap := C.appendLargeObjectData m.2 item.Data
        if ap.1 then
          let f := C.finishLargeObject ap.2 id
          if !f.1 then
            { world := f.2, responses := responses.insert id k.COMMAND_FAILED,
              trace := [Call.buildingLargeObject b.1, Call.matchesLargeObject localKey m.1,
                Call.appendLargeObjectData item.Data ap.1, Call.finishLargeObject id f.1] }
          else
            { world := f.2, responses := responses,
              trace := [Call.buildingLargeObject b.1, Call.matchesLargeObject localKey m.1,
                Call.appendLargeObjectData item.Data ap.1, Call.finishLargeObject id f.1] }
        else
          { world := ap.2, responses := responses.insert id k.COMMAND_FAILED,
            trace := [Call.buildingLargeObject b.1, Call.matchesLargeObject localKey m.1,
              Call.appendLargeObjectData item.Data ap.1] }
    else
      -- normal object
      let rp := C.replaceItem b.2 id localKey parentKey type format item.Data
      if !rp.1 then
        { world := rp.2, responses := responses.insert id k.COMMAND_FAILED,
          trace := [Call.buildingLargeObject b.1,
            Call.replaceItem id localKey parentKey type format item.Data rp.1] }
      else
        { world := rp.2, responses := responses,
          trace := [Call.buildingLargeObject b.1,
            Call.replaceItem id localKey parentKey type format item.Data rp.1] }

/-- The body of the inner staging loop for one item (lines 84-319). -/
def stageItem (C : Collaborators W) (k : StatusCodes) (iRole : Role) (data : SyncActionData)
    (a : Nat) (item : ItemParams) (w : W) (responses : QMap ItemId ResponseStatusCode) :
    Staged W :=
  let defaultType := data.meta.type
  let defaultFormat := data.meta.format
  let id : ItemId := { iCmdId := data.cmdID, iItemIndex := (a : Int) }
  let type := if item.meta.type ≠ "" then item.meta.type else defaultType
  let format := if item.meta.format ≠ "" then item.meta.format else defaultFormat
  if data.action = SyncMLCommand.SYNCML_ADD then
    let remoteKey := item.source
    let p := addParentKey C iRole item w
    let s := stageAddBody C k id remoteKey p.key type format item p.world responses
    { world := s.world, responses := s.responses, trace := p.trace ++ s.trace }
  else if data.action = SyncMLCommand.SYNCML_REPLACE then
    let l := localKeyOf C iRole item w
    let p := replaceParentKey C iRole item l.world
    let s := stageReplaceBody C k id l.key p.key type format item p.world responses
    { world := s.world, responses := s.responses, trace := l.trace ++ p.trace ++ s.trace }
  else if data.action = SyncMLCommand.SYNCML_DELETE then
    let l := localKeyOf C iRole item w
    let d := C.deleteItem l.world id l.key
    if !d.1 then
      { world := d.2, responses := responses.insert id k.COMMAND_FAILED,
        trace := l.trace ++ [Call.deleteItem id l.key d.1] }
    else
      { world := d.2, responses := responses,
        trace := l.trace ++ [Call.deleteItem id l.key d.1] }
  else
    { world := w, responses := responses.insert id k.NOT_SUPPORTED, trace := [] }

/-- The inner staging loop over the items of one action, from index `a` on
(lines 82-321). -/
def stageItems (C : Collaborators W) (k : StatusCodes) (iRole : Role) (data : SyncActionData) :
    Nat → List ItemParams → W → QMap ItemId ResponseStatusCode → Staged W
  | _, [], w, responses => { world := w, responses := responses, trace := [] }
  | a, item :: rest, w, responses =>
    let s := stageItem C k iRole data a item w responses
    let t := stageItems C k iRole data (a + 1) rest s.world s.responses
    { world := t.world, responses := t.responses, trace := s.trace ++ t.trace }

/-- The outer staging loop over the actions of the batch (lines 74-323). -/
def stageActions (C : Collaborators W) (k : StatusCodes) (iRole : Role) :
    List SyncActionData → W → QMap ItemId ResponseStatusCode → Staged W
  | [], w, responses => { world := w, responses := responses, trace := [] }
  | data :: rest, w, responses =>
    let s := stageItems C k iRole data 0 data.items w responses
    let t := stageActions C k iRole rest s.world s.responses
    { world := t.world, responses := t.responses, trace := s.trace ++ t.trace }

/-! ## `handleSync`: commit (lines 325-341) -/

/-- `CommandHandler::resolveConflicts` (lines 629-646). -/
def resolveConflicts (iRole : Role) : Bool :=
  if iRole = Role.ROLE_CLIENT then false else true

/-- The three commit calls and the merge of their answers (lines 327-341). -/
def commitBatches (C : Collaborators W) (iRole : Role) (aConflictResolver : ConflictResolver)
    (w : W) : Committed W :=
  let results : QMap ItemId CommitResult := QMap.empty
  let ca := C.commitAddedItems w
  let results := results.unite ca.1
  let resolver : Option ConflictResolver :=
    if resolveConflicts iRole then some aConflictResolver else none
  let cr := C.commitReplacedItems ca.2 resolver
  let results := results.unite cr.1
  let cd := C.commitDeletedItems cr.2 resolver
  let results := results.unite cd.1
  { world := cd.2, results := results,
    trace := [Call.commitAddedItems, Call.commitReplacedItems resolver,
      Call.commitDeletedItems resolver] }

/-! ## `handleSync`: result mapping (lines 343-454) -/

/-- `CommandHandler::addUIDMapping` (lines 648-657). -/
def addUIDMapping (C : Collaborators W) (w : W) (aRemoteUID aLocalUID : String) :
    W × List Call :=
  let mapping : UIDMapping := { iRemoteUID := aRemoteUID, iLocalUID := aLocalUID }
  (C.addUIDMapping w mapping, [Call.addUIDMapping mapping])

/-- `CommandHandler::removeUIDMapping` (lines 659-665). -/
def removeUIDMapping (C : Collaborators W) (w : W) (aLocalUID : String) : W × List Call :=
  (C.removeUIDMapping w aLocalUID, [Call.removeUIDMapping aLocalUID])

/-- The translation of one commit result (lines 362-442). -/
def mapResult (C : Collaborators W) (k : StatusCodes) (iRole : Role) (item : ItemParams)
    (result : CommitResult) (w : W) : Mapped W :=
  if result.iStatus = CommitStatus.COMMIT_ADDED then
    let u := addUIDMapping C w item.source result.iItemKey
    { statusCode := k.ITEM_ADDED, world := u.1, trace := u.2 }
  else if result.iStatus = CommitStatus.COMMIT_REPLACED then
    if result.iConflict = ConflictStatus.CONFLICT_LOCAL_WIN then
      if iRole = Role.ROLE_CLIENT then
        { statusCode := k.RESOLVED_CLIENT_WINNING, world := w, trace := [] }
      else
        { statusCode := k.RESOLVED_WITH_SERVER_DATA, world := w, trace := [] }
    else if result.iConflict = ConflictStatus.CONFLICT_REMOTE_WIN then
      if iRole = Role.ROLE_CLIENT then
        { statusCode := k.RESOLVED_WITH_SERVER_DATA, world := w, trace := [] }
      else
        { statusCode := k.RESOLVED_CLIENT_WINNING, world := w, trace := [] }
    else
      { statusCode := k.SUCCESS, world := w, trace := [] }
  else if result.iStatus = CommitStatus.COMMIT_DELETED then
    if result.iConflict = ConflictStatus.CONFLICT_LOCAL_WIN then
      if iRole = Role.ROLE_CLIENT then
        { statusCode := k.RESOLVED_CLIENT_WINNING, world := w, trace := [] }
      else
        { statusCode := k.RESOLVED_WITH_SERVER_DATA, world := w, trace := [] }
    else if result.iConflict = ConflictStatus.CONFLICT_REMOTE_WIN then
      let u := removeUIDMapping C w result.iItemKey
      if iRole = Role.ROLE_CLIENT then
        { statusCode := k.RESOLVED_WITH_SERVER_DATA, world := u.1, trace := u.2 }
      else
        { statusCode := k.RESOLVED_CLIENT_WINNING, world := u.1, trace := u.2 }
    else
      let u := removeUIDMapping C w result.iItemKey
      { statusCode := k.SUCCESS, world := u.1, trace := u.2 }
  else if result.iStatus = CommitStatus.COMMIT_DUPLICATE then
    { statusCode := k.ALREADY_EXISTS, world := w, trace := [] }
  else if result.iStatus = CommitStatus.COMMIT_NOT_DELETED then
    let u := removeUIDMapping C w result.iItemKey
    { statusCode := k.ITEM_NOT_DELETED, world := u.1, trace := u.2 }
  else if result.iStatus = CommitStatus.COMMIT_UNSUPPORTED_FORMAT then
    { statusCode := k.UNSUPPORTED_FORMAT, world := w, trace := [] }
  else if result.iStatus = CommitStatus.COMMIT_ITEM_TOO_BIG then
    { statusCode := k.REQUEST_SIZE_TOO_BIG, world := w, trace := [] }
  else if result.iStatus = CommitStatus.COMMIT_NOT_ENOUGH_SPACE then
    { statusCode := k.DEVICE_FULL, world := w, trace := [] }
  else
    { statusCode := k.COMMAND_FAILED, world := w, trace := [] }

/-- The body of the inner result-mapping loop for one item (lines 352-451). -/
def mapItem (C : Collaborators W) (k : StatusCodes) (iRole : Role)
    (results : QMap ItemId CommitResult) (data : SyncActionData) (a : Nat) (item : ItemParams)
    (w : W) (responses : QMap ItemId ResponseStatusCode) : Staged W :=
  let id : ItemId := { iCmdId := data.cmdID, iItemIndex := (a : Int) }
  if !responses.contains id then
    if results.contains id then
      let m := mapResult C k iRole item (results.value id) w
      { world := m.world, responses := responses.insert id m.statusCode, trace := m.trace }
    else
      { world := w, responses := responses.insert id k.COMMAND_FAILED, trace := [] }
  else
    { world := w, responses := responses, trace := [] }

/-- The inner result-mapping loop over the items of one action (lines 350-452). -/
def mapItems (C : Collaborators W) (k : StatusCodes) (iRole : Role)
    (results : QMap ItemId CommitResult) (data : SyncActionData) :
    Nat → List ItemParams → W → QMap ItemId ResponseStatusCode → Staged W
  | _, [], w, responses => { world := w, responses := responses, trace := [] }
  | a, item :: rest, w, responses =>
    let s := mapItem C k iRole results data a item w responses
    let t := mapItems C k iRole results data (a + 1) rest s.world s.responses
    { world := t.world, responses := t.responses, trace := s.trace ++ t.trace }

/-- The outer result-mapping loop over the actions (lines 345-454). -/
def mapActions (C : Collaborators W) (k : StatusCodes) (iRole : Role)
    (results : QMap ItemId CommitResult) :
    List SyncActionData → W → QMap ItemId ResponseStatusCode → Staged W
  | [], w, responses => { world := w, responses := responses, trace := [] }
  | data :: rest, w, responses =>
    let s := mapItems C k iRole results data 0 data.items w responses
    let t := mapActions C k iRole results rest s.world s.responses
    { world := t.world, responses := t.responses, trace := s.trace ++ t.trace }

/-! ## `handleSync`: status elements (lines 456-480) -/

/-- The inner writing loop over the items of one action (lines 463-478). -/
def writeItems (responses : QMap ItemId ResponseStatusCode) (data : SyncActionData) :
    Nat → List ItemParams → List Call
  | _, [] => []
  | a, item :: rest =>
    let id : ItemId := { iCmdId := data.cmdID, iItemIndex := (a : Int) }
    let response := responses.value id
    (if !data.noResp then [Call.addStatusItem data.cmdID item response] else []) ++
      writeItems responses data (a + 1) rest

/-- The outer writing loop over the actions (lines 458-480). -/
def writeActions (responses : QMap ItemId ResponseStatusCode) : List SyncActionData → List Call
  | [] => []
  | data :: rest => writeItems responses data 0 data.items ++ writeActions responses rest

/-! ## The entry points -/

/-- The staging phase of `handleSync` on a batch, from an empty accumulator. -/
def stagingPhase (C : Collaborators W) (k : StatusCodes) (iRole : Role)
    (aSyncParams : SyncParams) (w : W) : Staged W :=
  stageActions C k iRole aSyncParams.actionList w QMap.empty

/-- The commit phase of `handleSync`, run on the world the staging phase leaves. -/
def commitPhase (C : Collaborators W) (k : StatusCodes) (iRole : Role)
    (aSyncParams : SyncParams) (aConflictResolver : ConflictResolver) (w : W) : Committed W :=
  commitBatches C iRole aConflictResolver (stagingPhase C k iRole aSyncParams w).world

/-- The result-mapping phase of `handleSync`, run on what the two phases before
it leave. -/
def mappingPhase (C : Collaborators W) (k : StatusCodes) (iRole : Role)
    (aSyncParams : SyncParams) (aConflictResolver : ConflictResolver) (w : W) : Staged W :=
  let c := commitPhase C k iRole aSyncParams aConflictResolver w
  mapActions C k iRole c.results aSyncParams.actionList c.world
    (stagingPhase C k iRole aSyncParams w).responses

/-- `CommandHandler::handleSync` (lines 58-482): the world it leaves, the final
content of `responses`, and every collaborator call in order. -/
def handleSync (C : Collaborators W) (k : StatusCodes) (iRole : Role) (aSyncParams : SyncParams)
    (aConflictResolver : ConflictResolver) (w : W) : Staged W :=
  let head : List Call :=
    if !aSyncParams.noResp then [Call.addStatusSync aSyncParams.cmdID k.SUCCESS] else []
  let s := stagingPhase C k iRole aSyncParams w
  let c := commitPhase C k iRole aSyncParams aConflictResolver w
  let m := mappingPhase C k iRole aSyncParams aConflictResolver w
  { world := m.world, responses := m.responses,
    trace := head ++ s.trace ++ c.trace ++ m.trace ++
      writeActions m.responses aSyncParams.actionList }

/-- `CommandHandler::rejectSync` (lines 484-501): the calls made on the response
generator. -/
def rejectSync (aSyncParams : SyncParams) (aResponseCode : ResponseStatusCode) : List Call :=
  (if !aSyncParams.noResp then [Call.addStatusSync aSyncParams.cmdID aResponseCode] else []) ++
    (aSyncParams.actionList.filter (fun actionData => !actionData.noResp)).map
      (fun actionData => Call.addStatusAction actionData.cmdID aResponseCode)

/-- One item of a MAP command. -/
structure MapItem where
  source : String
  target : String
  deriving DecidableEq, Repr

/-- The field of `MapParams` read by `handleMap`. -/
structure MapParams where
  mapItemList : List MapItem
  deriving DecidableEq, Repr

/-- The loop of `handleMap` (lines 50-52). -/
def handleMapItems (C : Collaborators W) : List MapItem → W → W × List Call
  | [], w => (w, [])
  | mapItem :: rest, w =>
    let u := addUIDMapping C w mapItem.source mapItem.target
    let t := handleMapItems C rest u.1
    (t.1, u.2 ++ t.2)

/-- `CommandHandler::handleMap` (lines 46-55): the code returned, the world and
the calls. -/
def handleMap (C : Collaborators W) (k : StatusCodes) (aMapParams : MapParams) (w : W) :
    ResponseStatusCode × W × List Call :=
  let r := handleMapItems C aMapParams.mapItemList w
  (k.SUCCESS, r.1, r.2)

end Handler

/-! ## Observations on a run -/

/-- The ItemIds the loops of `handleSync` give to the items of one action,
from index `a` on. -/
def itemIdsFrom (cmdID : Int) : Nat → List ItemParams → List ItemId
  | _, [] => []
  | a, _ :: rest => { iCmdId := cmdID, iItemIndex := (a : Int) } :: itemIdsFrom cmdID (a + 1) rest

/-- The ItemIds of a batch, in action order then item order. -/
def itemIds : List SyncActionData → List ItemId
  | [] => []
  | data :: rest => itemIdsFrom data.cmdID 0 data.items ++ itemIds rest

/-- The item status element a call writes, if it writes one: command id, item,
code. -/
def Call.asItemStatus : Call → Option (Int × ItemParams × ResponseStatusCode)
  | Call.addStatusItem cmdID item code => some (cmdID, item, code)
  | _ => none

/-- The item status elements written in a trace, in order. -/
def itemStatuses (trace : List Call) : List (Int × ItemParams × ResponseStatusCode) :=
  trace.filterMap Call.asItemStatus

/-- The item status elements one action is due, its items being numbered from
`a` on: none when the action suppresses responses, else one per item, in item
order, carrying the code found in `responses` for the item's ItemId. -/
def dueItemStatuses (responses : QMap ItemId ResponseStatusCode) (data : SyncActionData)
    (a : Nat) (items : List ItemParams) : List (Int × ItemParams × ResponseStatusCode) :=
  if data.noResp then []
  else (items.enumFrom a).map fun p =>
    (data.cmdID, p.2, responses.value { iCmdId := data.cmdID, iItemIndex := (p.1 : Int) })

/-- The item status elements a batch is due, in action order then item order. -/
def dueStatuses (responses : QMap ItemId ResponseStatusCode) (actions : List SyncActionData) :
    List (Int × ItemParams × ResponseStatusCode) :=
  actions.flatMap fun data => dueItemStatuses responses data 0 data.items

/-- The alert a call queues, if it queues one. -/
def Call.asAlert : Call → Option AlertType
  | Call.addPackage p => some p.alert
  | _ => none

/-- The alerts queued in a trace, in order. -/
def alerts (trace : List Call) : List AlertType :=
  trace.filterMap Call.asAlert

/-- Whether a call is an update of the mapping table. -/
def Call.isMappingUpdate : Call → Bool
  | Call.addUIDMapping _ => true
  | Call.removeUIDMapping _ => true
  | _ => false

/-- Whether a call appends to, finishes, or bypasses the large object: one of
`appendLargeObjectData`, `finishLargeObject`, `addItem`, `replaceItem`. -/
def Call.isPayloadCall : Call → Bool
  | Call.appendLargeObjectData _ _ => true
  | Call.finishLargeObject _ _ => true
  | Call.addItem _ _ _ _ _ _ => true
  | Call.replaceItem _ _ _ _ _ _ _ => true
  | _ => false

/-- The status code the result mapper chooses for a commit result: the code of
`mapResult` without the mapping-table update that goes with it. -/
def resultCode (k : StatusCodes) (iRole : Role) (result : CommitResult) : ResponseStatusCode :=
  match result.iStatus, result.iConflict, iRole with
  | CommitStatus.COMMIT_ADDED, _, _ => k.ITEM_ADDED
  | CommitStatus.COMMIT_REPLACED, ConflictStatus.CONFLICT_LOCAL_WIN, Role.ROLE_CLIENT =>
      k.RESOLVED_CLIENT_WINNING
  | CommitStatus.COMMIT_REPLACED, ConflictStatus.CONFLICT_LOCAL_WIN, Role.ROLE_SERVER =>
      k.RESOLVED_WITH_SERVER_DATA
  | CommitStatus.COMMIT_REPLACED, ConflictStatus.CONFLICT_REMOTE_WIN, Role.ROLE_CLIENT =>
      k.RESOLVED_WITH_SERVER_DATA
  | CommitStatus.COMMIT_REPLACED, ConflictStatus.CONFLICT_REMOTE_WIN, Role.ROLE_SERVER =>
      k.RESOLVED_CLIENT_WINNING
  | CommitStatus.COMMIT_REPLACED, ConflictStatus.CONFLICT_NO_CONFLICT, _ => k.SUCCESS
  | CommitStatus.COMMIT_DELETED, ConflictStatus.CONFLICT_LOCAL_WIN, Role.ROLE_CLIENT =>
      k.RESOLVED_CLIENT_WINNING
  | CommitStatus.COMMIT_DELETED, ConflictStatus.CONFLICT_LOCAL_WIN, Role.ROLE_SERVER =>
      k.RESOLVED_WITH_SERVER_DATA
  | CommitStatus.COMMIT_DELETED, ConflictStatus.CONFLICT_REMOTE_WIN, Role.ROLE_CLIENT =>
      k.RESOLVED_WITH_SERVER_DATA
  | CommitStatus.COMMIT_DELETED, ConflictStatus.CONFLICT_REMOTE_WIN, Role.ROLE_SERVER =>
      k.RESOLVED_CLIENT_WINNING
  | CommitStatus.COMMIT_DELETED, ConflictStatus.CONFLICT_NO_CONFLICT, _ => k.SUCCESS
  | CommitStatus.COMMIT_DUPLICATE, _, _ => k.ALREADY_EXISTS
  | CommitStatus.COMMIT_NOT_DELETED, _, _ => k.ITEM_NOT_DELETED
  | CommitStatus.COMMIT_UNSUPPORTED_FORMAT, _, _ => k.UNSUPPORTED_FORMAT
  | CommitStatus.COMMIT_ITEM_TOO_BIG, _, _ => k.REQUEST_SIZE_TOO_BIG
  | CommitStatus.COMMIT_NOT_ENOUGH_SPACE, _, _ => k.DEVICE_FULL
  | CommitStatus.COMMIT_OTHER _, _, _ => k.COMMAND_FAILED

/-- The status code the result mapper gives an ItemId that staging left without
one: the code of its commit result, or `COMMAND_FAILED` when it has none. -/
def mappedCode (k : StatusCodes) (iRole : Role) (results : QMap ItemId CommitResult)
    (id : ItemId) : ResponseStatusCode :=
  match results id with
  | some result => resultCode k iRole result
  | none => k.COMMAND_FAILED

/-- The state in which the staging loop reaches the item that follows the items
`ipre` of the action `data`, in a batch whose actions before `data` are `pre`. -/
def stagedBefore {W : Type} (C : Collaborators W) (k : StatusCodes) (iRole : Role)
    (pre : List SyncActionData) (data : SyncActionData) (ipre : List ItemParams) (w : W) :
    Staged W :=
  let s := stageActions C k iRole pre w QMap.empty
  let t := stageItems C k iRole data 0 ipre s.world s.responses
  { world := t.world, responses := t.responses, trace := s.trace ++ t.trace }

/-- The staging of the item that follows `ipre` in `data`, run in the state in
which the loop reaches it. -/
def stagedItem {W : Type} (C : Collaborators W) (k : StatusCodes) (iRole : Role)
    (pre : List SyncActionData) (data : SyncActionData) (ipre : List ItemParams)
    (item : ItemParams) (w : W) : Staged W :=
  stageItem C k iRole data ipre.length item (stagedBefore C k iRole pre data ipre w).world
    (stagedBefore C k iRole pre data ipre w).responses

/-- The state in which the result mapper reaches that same item, started in the
world `w` with the accumulator `responses`. -/
def mappedBefore {W : Type} (C : Collaborators W) (k : StatusCodes) (iRole : Role)
    (results : QMap ItemId CommitResult) (pre : List SyncActionData) (data : SyncActionData)
    (ipre : List ItemParams) (w : W) (responses : QMap ItemId ResponseStatusCode) : Staged W :=
  let s := mapActions C k iRole results pre w responses
  let t := mapItems C k iRole results data 0 ipre s.world s.responses
  { world := t.world, responses := t.responses, trace := s.trace ++ t.trace }

/-- The key an ADD or REPLACE item is compared with the large object by, with
the world and the calls after the keys of the item are resolved: `item.source`
for ADD (lines 112-134), the local key for REPLACE (lines 202-232). -/
def resolveKeys {W : Type} (C : Collaborators W) (iRole : Role) (action : SyncMLCommand)
    (item : ItemParams) (w : W) : Resolved W :=
  if action = SyncMLCommand.SYNCML_ADD then
    let p := addParentKey C iRole item w
    { key := item.source, world := p.world, trace := p.trace }
  else
    let l := localKeyOf C iRole item w
    let p := replaceParentKey C iRole item l.world
    { key := l.key, world := p.world, trace := l.trace ++ p.trace }

/-- Whether a call is one the staging loop makes: a key lookup, a large-object
call, a direct add, replace or delete, or an alert. -/
def Call.isStagingCall : Call → Bool
  | Call.mapToLocalUID _ _ => true
  | Call.buildingLargeObject _ => true
  | Call.startLargeObjectAdd _ _ _ _ _ _ => true
  | Call.startLargeObjectReplace _ _ _ _ _ _ => true
  | Call.appendLargeObjectData _ _ => true
  | Call.matchesLargeObject _ _ => true
  | Call.finishLargeObject _ _ => true
  | Call.addItem _ _ _ _ _ _ => true
  | Call.replaceItem _ _ _ _ _ _ _ => true
  | Call.deleteItem _ _ _ => true
  | Call.addPackage _ => true
  | _ => false

/-- Whether an effect of `handleStatus` is an acknowledgement signal. -/
def StatusEffect.isAcknowledgement : StatusEffect → Bool
  | StatusEffect.itemAcknowledged _ _ _ => true
  | StatusEffect.mappingAcknowledged _ _ => true
  | _ => false

/-- Whether a call is one of the three commit calls. -/
def Call.isCommitCall : Call → Bool
  | Call.commitAddedItems => true
  | Call.commitReplacedItems _ => true
  | Call.commitDeletedItems _ => true
  | _ => false

/-- Whether a call writes the status of the Sync package itself. -/
def Call.isSyncStatus : Call → Bool
  | Call.addStatusSync _ _ => true
  | _ => false

/-- Whether a call writes the status of one item. -/
def Call.isItemStatus : Call → Bool
  | Call.addStatusItem _ _ _ => true
  | _ => false

/-- The parent key a call hands to the storage, for the calls that take one. -/
def Call.parentArg : Call → Option String
  | Call.startLargeObjectAdd _ parent _ _ _ _ => some parent
  | Call.startLargeObjectReplace _ parent _ _ _ _ => some parent
  | Call.addItem _ parent _ _ _ _ => some parent
  | Call.replaceItem _ _ parent _ _ _ _ => some parent
  | _ => none

/-- The type handed to the storage for an item: its own when not empty, else the
default of its action (lines 92-98). -/
def itemType (data : SyncActionData) (item : ItemParams) : String :=
  if item.meta.type ≠ "" then item.meta.type else data.meta.type

/-- The format handed to the storage for an item: its own when not empty, else
the default of its action (lines 101-107). -/
def itemFormat (data : SyncActionData) (item : ItemParams) : String :=
  if item.meta.format ≠ "" then item.meta.format else data.meta.format

/-- The parent key of an ADD or REPLACE item as `handleSync` resolves it, in the
world `w` in which the item is reached (lines 114-134 and 212-232). -/
def resolveParent {W : Type} (C : Collaborators W) (iRole : Role) (action : SyncMLCommand)
    (item : ItemParams) (w : W) : String :=
  if action = SyncMLCommand.SYNCML_ADD then (addParentKey C iRole item w).key
  else (replaceParentKey C iRole item (localKeyOf C iRole item w).world).key

/-- The start call of a large object for an ADD or REPLACE item:
`startLargeObjectAdd` for ADD (line 150), `startLargeObjectReplace` otherwise
(line 248). -/
def startLargeObject {W : Type} (C : Collaborators W) (action : SyncMLCommand) (w : W)
    (key parent type format : String) (size : Int) : Bool × W :=
  if action = SyncMLCommand.SYNCML_ADD then C.startLargeObjectAdd w key parent type format size
  else C.startLargeObjectReplace w key parent type format size

/-- The trace entry of that start call. -/
def startCall (action : SyncMLCommand) (key parent type format : String) (size : Int)
    (ret : Bool) : Call :=
  if action = SyncMLCommand.SYNCML_ADD then
    Call.startLargeObjectAdd key parent type format size ret
  else Call.startLargeObjectReplace key parent type format size ret

/-- The branch of `handleSync` an ADD or REPLACE item runs through after its
keys are resolved. -/
def stageBody {W : Type} (C : Collaborators W) (k : StatusCodes) (action : SyncMLCommand)
    (id : ItemId) (key parentKey type format : String) (item : ItemParams) (w : W)
    (responses : QMap ItemId ResponseStatusCode) : Staged W :=
  if action = SyncMLCommand.SYNCML_ADD then
    stageAddBody C k id key parentKey type format item w responses
  else stageReplaceBody C k id key parentKey type format item w responses

/-- The argument `appendLargeObjectData` is handed for a chunk that is not the
last: `item.Data` in the ADD branch (line 160), `item.Data.toUtf8()` in the
REPLACE branch (line 258). -/
def chunkPayload {W : Type} (C : Collaborators W) (action : SyncMLCommand)
    (item : ItemParams) : String :=
  if action = SyncMLCommand.SYNCML_ADD then item.Data else C.toUtf8 item.Data

/-- Whether a call is `finishLargeObject`. -/
def Call.isFinishCall : Call → Bool
  | Call.finishLargeObject _ _ => true
  | _ => false

/-- The item key a call hands to the storage, for the calls that take one. -/
def Call.keyArg : Call → Option String
  | Call.startLargeObjectAdd key _ _ _ _ _ => some key
  | Call.startLargeObjectReplace key _ _ _ _ _ => some key
  | Call.matchesLargeObject key _ => some key
  | Call.replaceItem _ key _ _ _ _ _ => some key
  | Call.deleteItem _ key _ => some key
  | _ => none

/-- The type and format a call hands to the storage, for the calls that take
them. -/
def Call.typeFormatArg : Call → Option (String × String)
  | Call.startLargeObjectAdd _ _ type format _ _ => some (type, format)
  | Call.startLargeObjectReplace _ _ type format _ _ => some (type, format)
  | Call.addItem _ _ type format _ _ => some (type, format)
  | Call.replaceItem _ _ _ type format _ _ => some (type, format)
  | _ => none

/-- Whether a call starts a large object, asks whether a key matches it, or
finishes it. -/
def Call.isStartMatchFinish : Call → Bool
  | Call.startLargeObjectAdd _ _ _ _ _ _ => true
  | Call.startLargeObjectReplace _ _ _ _ _ _ => true
  | Call.matchesLargeObject _ _ => true
  | Call.finishLargeObject _ _ => true
  | _ => false

/-- Whether a call starts a large object, appends to it or finishes it. -/
def Call.isStartAppendFinish : Call → Bool
  | Call.startLargeObjectAdd _ _ _ _ _ _ => true
  | Call.startLargeObjectReplace _ _ _ _ _ _ => true
  | Call.appendLargeObjectData _ _ => true
  | Call.finishLargeObject _ _ => true
  | _ => false

/-! ## Staging without large-object chunks -/

/-- The world a call leaves when it is made in the world `w`. The calls on the
response generator leave the world as it is. -/
def applyCall {W : Type} (C : Collaborators W) (w : W) : Call → W
  | Call.mapToLocalUID remote _ => (C.mapToLocalUID w remote).2
  | Call.buildingLargeObject _ => (C.buildingLargeObject w).2
  | Call.startLargeObjectAdd key parent type format size _ =>
    (C.startLargeObjectAdd w key parent type format size).2
  | Call.startLargeObjectReplace key parent type format size _ =>
    (C.startLargeObjectReplace w key parent type format size).2
  | Call.appendLargeObjectData data _ => (C.appendLargeObjectData w data).2
  | Call.matchesLargeObject key _ => (C.matchesLargeObject w key).2
  | Call.finishLargeObject id _ => (C.finishLargeObject w id).2
  | Call.addItem id parent type format data _ => (C.addItem w id parent type format data).2
  | Call.replaceItem id key parent type format data _ =>
    (C.replaceItem w id key parent type format data).2
  | Call.deleteItem id key _ => (C.deleteItem w id key).2
  | Call.commitAddedItems => (C.commitAddedItems w).2
  | Call.commitReplacedItems resolver => (C.commitReplacedItems w resolver).2
  | Call.commitDeletedItems resolver => (C.commitDeletedItems w resolver).2
  | Call.addUIDMapping mapping => C.addUIDMapping w mapping
  | Call.removeUIDMapping localUID => C.removeUIDMapping w localUID
  | Call.addStatusSync _ _ => w
  | Call.addStatusAction _ _ => w
  | Call.addStatusItem _ _ _ => w
  | Call.addPackage _ => w

/-- The world after the calls of a trace are made in order from the world `w`. -/
def replay {W : Type} (C : Collaborators W) (trace : List Call) (w : W) : W :=
  trace.foldl (applyCall C) w

/-- Whether a call is one of those the staging loop makes for an item that is
no chunk while no large object is building: a key lookup, the query
`buildingLargeObject`, a direct add, replace or delete. -/
def Call.isPlainStaging : Call → Bool
  | Call.mapToLocalUID _ _ => true
  | Call.buildingLargeObject _ => true
  | Call.addItem _ _ _ _ _ _ => true
  | Call.replaceItem _ _ _ _ _ _ _ => true
  | Call.deleteItem _ _ _ => true
  | _ => false

/-- Whether no item of the batch announces more data, that is, no item is a
chunk of a large object other than a last one. -/
def noChunks (actions : List SyncActionData) : Bool :=
  actions.all fun data => data.items.all fun item => !item.moreData

/-- Collaborators that behave the same in whatever order plain items are
staged, on a region `I` of worlds and up to a relation `E` between worlds:

* in `I` no large object is building, and the answers of `mapToLocalUID`,
  `addItem`, `replaceItem` and `deleteItem` are the same in every world of `I`
  (they depend on the arguments of the call);
* the plain staging calls keep the world in `I`, send worlds related by `E` to
  worlds related by `E`, and two of them made in either order leave worlds
  related by `E`;
* each commit reports the same results in two worlds of `I` related by `E`,
  and leaves worlds of `I` related by `E`.

`E` is reflexive and transitive. Nothing is asked of the large-object calls. -/
structure PlainStaging {W : Type} (C : Collaborators W) (I : W → Prop) (E : W → W → Prop) :
    Prop where
  refl : ∀ w, E w w
  trans : ∀ u v w, E u v → E v w → E u w
  idle : ∀ w, I w → (C.buildingLargeObject w).1 = false
  mapToLocalUID : ∀ w w' remote, I w → I w' →
    (C.mapToLocalUID w remote).1 = (C.mapToLocalUID w' remote).1
  addItem : ∀ w w' id parent type format data, I w → I w' →
    (C.addItem w id parent type format data).1 = (C.addItem w' id parent type format data).1
  replaceItem : ∀ w w' id key parent type format data, I w → I w' →
    (C.replaceItem w id key parent type format data).1 =
      (C.replaceItem w' id key parent type format data).1
  deleteItem : ∀ w w' id key, I w → I w' →
    (C.deleteItem w id key).1 = (C.deleteItem w' id key).1
  closed : ∀ w c, c.isPlainStaging = true → I w → I (applyCall C w c)
  cong : ∀ w w' c, c.isPlainStaging = true → I w → I w' → E w w' →
    E (applyCall C w c) (applyCall C w' c)
  comm : ∀ w c d, c.isPlainStaging = true → d.isPlainStaging = true → I w →
    E (applyCall C (applyCall C w c) d) (applyCall C (applyCall C w d) c)
  commitAddedItems : ∀ w w', I w → I w' → E w w' →
    (∀ id, (C.commitAddedItems w).1 id = (C.commitAddedItems w').1 id) ∧
    I (C.commitAddedItems w).2 ∧ I (C.commitAddedItems w').2 ∧
    E (C.commitAddedItems w).2 (C.commitAddedItems w').2
  commitReplacedItems : ∀ w w' resolver, I w → I w' → E w w' →
    (∀ id, (C.commitReplacedItems w resolver).1 id = (C.commitReplacedItems w' resolver).1 id) ∧
    I (C.commitReplacedItems w resolver).2 ∧ I (C.commitReplacedItems w' resolver).2 ∧
    E (C.commitReplacedItems w resolver).2 (C.commitReplacedItems w' resolver).2
  commitDeletedItems : ∀ w w' resolver, I w → I w' → E w w' →
    ∀ id, (C.commitDeletedItems w resolver).1 id = (C.commitDeletedItems w' resolver).1 id

/-- The string a `QString` built from `s.toUtf8()` holds in Qt 4: the bytes of
the UTF-8 encoding of `s`, each read back as one character (`QString` reads a
byte array with `fromAscii`, Latin-1 unless a codec is set). A string of
characters below 128 comes back as it is. -/
def utf8AsLatin1 (s : String) : String :=
  String.mk (s.data.flatMap fun c =>
    (String.utf8EncodeChar c).map fun b => Char.ofNat b.toNat)

/-! ## A reference storage -/

/-- A small in-memory storage and target: the key of the large object being
built, the ItemIds staged for each commit, the mapping table, and the conflict
outcome the commits report. -/
structure Store where
  largeObject : Option String
  added : List ItemId
  replaced : List ItemId
  deleted : List ItemId
  mappings : List UIDMapping
  conflict : ConflictStatus
  deriving DecidableEq, Repr

/-- The local key the reference target finds for a remote key (empty when the
table has none). -/
def Store.localOf (w : Store) (remote : String) : String :=
  match w.mappings.find? (fun m => m.iRemoteUID = remote) with
  | some m => m.iLocalUID
  | none => ""

/-- The reference collaborators: one large-object slot that is started when
idle, appended to while occupied and released on finish; staging always
accepted; each commit reports every staged ItemId. -/
def refStore : Collaborators Store where
  toUtf8 := utf8AsLatin1
  mapToLocalUID := fun w remote => (w.localOf remote, w)
  getSourceDatabase := fun _ => "./contacts"
  getTargetDatabase := fun _ => "./remote"
  addUIDMapping := fun w m => { w with mappings := m :: w.mappings }
  removeUIDMapping := fun w l => { w with mappings := w.mappings.filter (fun m => m.iLocalUID ≠ l) }
  buildingLargeObject := fun w => (w.largeObject.isSome, w)
  startLargeObjectAdd := fun w key _ _ _ _ =>
    if w.largeObject.isSome then (false, w) else (true, { w with largeObject := some key })
  startLargeObjectReplace := fun w key _ _ _ _ =>
    if w.largeObject.isSome then (false, w) else (true, { w with largeObject := some key })
  appendLargeObjectData := fun w _ => (w.largeObject.isSome, w)
  matchesLargeObject := fun w key => (w.largeObject = some key, w)
  finishLargeObject := fun w id =>
    if w.largeObject.isSome then (true, { w with largeObject := none, added := w.added ++ [id] })
    else (false, w)
  addItem := fun w id _ _ _ _ => (true, { w with added := w.added ++ [id] })
  replaceItem := fun w id _ _ _ _ _ => (true, { w with replaced := w.replaced ++ [id] })
  deleteItem := fun w id _ => (true, { w with deleted := w.deleted ++ [id] })
  commitAddedItems := fun w =>
    (fun id => if id ∈ w.added then
        some ⟨"local", CommitStatus.COMMIT_ADDED, ConflictStatus.CONFLICT_NO_CONFLICT⟩
      else none,
    { w with added := [] })
  commitReplacedItems := fun w _ =>
    (fun id => if id ∈ w.replaced then some ⟨"local", CommitStatus.COMMIT_REPLACED, w.conflict⟩
      else none,
    { w with replaced := [] })
  commitDeletedItems := fun w _ =>
    (fun id => if id ∈ w.deleted then some ⟨"local", CommitStatus.COMMIT_DELETED, w.conflict⟩
      else none,
    { w with deleted := [] })

/-- Answers to the staging calls given as functions of the arguments of the
call alone. -/
structure StagingAnswers where
  mapToLocalUID : String → String
  buildingLargeObject : Bool
  startLargeObjectAdd : String → String → String → String → Int → Bool
  startLargeObjectReplace : String → String → String → String → Int → Bool
  appendLargeObjectData : String → Bool
  matchesLargeObject : String → Bool
  finishLargeObject : ItemId → Bool
  addItem : ItemId → String → String → String → String → Bool
  replaceItem : ItemId → String → String → String → String → String → Bool
  deleteItem : ItemId → String → Bool

/-- Collaborators without a state of their own: staging calls are answered by
the table `A` and each commit returns a fixed map. -/
def answering (A : StagingAnswers) (added replaced deleted : QMap ItemId CommitResult) :
    Collaborators Unit where
  toUtf8 := utf8AsLatin1
  mapToLocalUID := fun w r => (A.mapToLocalUID r, w)
  getSourceDatabase := fun _ => "./contacts"
  getTargetDatabase := fun _ => "./remote"
  addUIDMapping := fun w _ => w
  removeUIDMapping := fun w _ => w
  buildingLargeObject := fun w => (A.buildingLargeObject, w)
  startLargeObjectAdd := fun w key parent type format size =>
    (A.startLargeObjectAdd key parent type format size, w)
  startLargeObjectReplace := fun w key parent type format size =>
    (A.startLargeObjectReplace key parent type format size, w)
  appendLargeObjectData := fun w data => (A.appendLargeObjectData data, w)
  matchesLargeObject := fun w key => (A.matchesLargeObject key, w)
  finishLargeObject := fun w id => (A.finishLargeObject id, w)
  addItem := fun w id parent type format data => (A.addItem id parent type format data, w)
  replaceItem := fun w id key parent type format data =>
    (A.replaceItem id key parent type format data, w)
  deleteItem := fun w id key => (A.deleteItem id key, w)
  commitAddedItems := fun w => (added, w)
  commitReplacedItems := fun w _ => (replaced, w)
  commitDeletedItems := fun w _ => (deleted, w)

/-- Answers of a storage with no large object in progress that accepts every
item. -/
def acceptAll : StagingAnswers where
  mapToLocalUID := fun r => r
  buildingLargeObject := false
  startLargeObjectAdd := fun _ _ _ _ _ => true
  startLargeObjectReplace := fun _ _ _ _ _ => true
  appendLargeObjectData := fun _ => false
  matchesLargeObject := fun _ => false
  finishLargeObject := fun _ => false
  addItem := fun _ _ _ _ _ => true
  replaceItem := fun _ _ _ _ _ _ => true
  deleteItem := fun _ _ => true

/-- Answers of a storage that accepts every item but refuses every delete. -/
def refuseDelete : StagingAnswers :=
  { acceptAll with deleteItem := fun _ _ => false }

/-- An idle reference storage reporting the given conflict outcome. -/
def idleStore (conflict : ConflictStatus) : Store :=
  { largeObject := none, added := [], replaced := [], deleted := [], mappings := [],
    conflict := conflict }

/-- The worlds of the reference storage with no large object in progress and
the mapping table `mappings`. -/
def refRegion (mappings : List UIDMapping) (w : Store) : Prop :=
  w.largeObject = none ∧ w.mappings = mappings

/-- Two worlds of the reference storage that differ at most in the order in
which the ItemIds were staged. -/
def refEquiv (w w' : Store) : Prop :=
  w.largeObject = w'.largeObject ∧ w.mappings = w'.mappings ∧ w.conflict = w'.conflict ∧
  List.Perm w.added w'.added ∧ List.Perm w.replaced w'.replaced ∧
  List.Perm w.deleted w'.deleted

/-- An item with the given remote and local key, payload and chunk flag, and
the given declared size. -/
def mkItem (source target data : String) (size : Int) (moreData : Bool) : ItemParams :=
  { source := source, target := target, sourceParent := "", targetParent := "",
    meta := { type := "", format := "", size := size }, Data := data, moreData := moreData }

/-- An action of the given kind and command id that does not suppress
responses. -/
def mkAction (action : SyncMLCommand) (cmdID : Int) (items : List ItemParams) : SyncActionData :=
  { action := action, cmdID := cmdID, noResp := false,
    meta := { type := "text/x-vcard", format := "", size := 0 }, items := items }

end DataSync

open DataSync

/-! ## Status interpreter: theorems -/

/-- The class of a code as `getStatusType` computes it, in closed form: the
upper comparison is strict against 199, 299, 399, 499 and 599. -/
theorem getStatusType_eq (c : ResponseStatusCode) :
    getStatusType c =
      if 100 ≤ c ∧ c < 199 then StatusCodeType.INFORMATIONAL
      else if 200 ≤ c ∧ c < 299 then StatusCodeType.SUCCESSFUL
      else if 300 ≤ c ∧ c < 399 then StatusCodeType.REDIRECTION
      else if 400 ≤ c ∧ c < 499 then StatusCodeType.ORIGINATOR_EXCEPTION
      else if 500 ≤ c ∧ c < 599 then StatusCodeType.RECIPIENT_EXCEPTION
      else StatusCodeType.UNKNOWN := by
  simp only [getStatusType, ge_iff_le]

/-- C1: at the last code of each hundred, 199, 299, 399, 499 and 599,
`getStatusType` answers Unknown, where the claim asks for Informational,
Successful, Redirection, OriginatorException and RecipientException. -/
theorem getStatusType_last_of_range_unknown :
    getStatusType 199 = StatusCodeType.UNKNOWN ∧
    getStatusType 299 = StatusCodeType.UNKNOWN ∧
    getStatusType 399 = StatusCodeType.UNKNOWN ∧
    getStatusType 499 = StatusCodeType.UNKNOWN ∧
    getStatusType 599 = StatusCodeType.UNKNOWN := by
  decide

/-- C9: for the inbound codes 499 and 599 `handleStatus` emits no abort-sync
signal, whatever the values of `ALREADY_EXISTS` and `REFRESH_REQUIRED` and
whatever command the status concerns. -/
theorem handleStatus_499_599_no_abort (k : StatusCodes) (e : ElementNames) (cmd : String)
    (msgRef cmdRef : Int) (sourceRef : String) :
    abortCodes (handleStatus k e ⟨499, cmd, msgRef, cmdRef, sourceRef⟩) = [] ∧
    abortCodes (handleStatus k e ⟨599, cmd, msgRef, cmdRef, sourceRef⟩) = [] := by
  constructor <;>
  · simp only [handleStatus, getStatusType]
    split_ifs <;> simp [abortCodes]

/-- The abort-sync signals of a run are those of its reaction: acknowledgements
carry none. -/
theorem abortCodes_append (xs ys : List StatusEffect) :
    abortCodes (xs ++ ys) = abortCodes xs ++ abortCodes ys := by
  induction xs with
  | nil => rfl
  | cons x rest ih => cases x <;> simp [abortCodes, ih]

/-- The redirection-handler invocations of two runs in sequence. -/
theorem redirections_append (xs ys : List StatusEffect) :
    redirections (xs ++ ys) = redirections xs ++ redirections ys := by
  induction xs with
  | nil => rfl
  | cons x rest ih => cases x <;> simp [redirections, ih]

/-- C10: `handleStatus` emits no abort-sync signal for a code that
`getStatusType` classifies Informational, Successful, Redirection or Unknown
(in particular for every code below 400 or from 600 on), nor for the code
`ALREADY_EXISTS`, nor for the code `REFRESH_REQUIRED`, as long as the code table
does not place `ALREADY_EXISTS` among the recipient exceptions or
`REFRESH_REQUIRED` among the originator exceptions; for a code classified
Redirection the redirection handler is invoked once, with that code, and it
returns `NOT_IMPLEMENTED` on every input. -/
theorem handleStatus_no_abort (k : StatusCodes) (e : ElementNames) (p : StatusParams)
    (hAE : getStatusType k.ALREADY_EXISTS ≠ StatusCodeType.RECIPIENT_EXCEPTION)
    (hRR : getStatusType k.REFRESH_REQUIRED ≠ StatusCodeType.ORIGINATOR_EXCEPTION) :
    ((getStatusType p.data = StatusCodeType.INFORMATIONAL ∨
        getStatusType p.data = StatusCodeType.SUCCESSFUL ∨
        getStatusType p.data = StatusCodeType.REDIRECTION ∨
        getStatusType p.data = StatusCodeType.UNKNOWN ∨
        p.data < 400 ∨ 600 ≤ p.data ∨
        p.data = k.ALREADY_EXISTS ∨ p.data = k.REFRESH_REQUIRED) →
      abortCodes (handleStatus k e p) = []) ∧
    (getStatusType p.data = StatusCodeType.REDIRECTION →
      redirections (handleStatus k e p) = [(p.data, k.NOT_IMPLEMENTED)]) ∧
    (∀ c : ResponseStatusCode, handleRedirection k c = k.NOT_IMPLEMENTED) := by
  have hack : ∀ q : StatusParams,
      abortCodes (if q.cmd = e.SYNCML_ELEMENT_ADD ∨ q.cmd = e.SYNCML_ELEMENT_REPLACE ∨
          q.cmd = e.SYNCML_ELEMENT_DELETE then
        [StatusEffect.itemAcknowledged q.msgRef q.cmdRef q.sourceRef]
      else if q.cmd = e.SYNCML_ELEMENT_MAP then
        [StatusEffect.mappingAcknowledged q.msgRef q.cmdRef]
      else []) = [] := by
    intro q
    split_ifs <;> rfl
  have hred : ∀ q : StatusParams,
      redirections (if q.cmd = e.SYNCML_ELEMENT_ADD ∨ q.cmd = e.SYNCML_ELEMENT_REPLACE ∨
          q.cmd = e.SYNCML_ELEMENT_DELETE then
        [StatusEffect.itemAcknowledged q.msgRef q.cmdRef q.sourceRef]
      else if q.cmd = e.SYNCML_ELEMENT_MAP then
        [StatusEffect.mappingAcknowledged q.msgRef q.cmdRef]
      else []) = [] := by
    intro q
    split_ifs <;> rfl
  refine ⟨?_, ?_, fun _ => rfl⟩
  · intro h
    simp only [handleStatus, abortCodes_append, hack, List.append_nil]
    cases hc : getStatusType p.data
    case UNKNOWN => rfl
    case INFORMATIONAL => rfl
    case SUCCESSFUL => rfl
    case REDIRECTION => rfl
    case ORIGINATOR_EXCEPTION =>
      simp only [handleError, hc]
      have hlo : 400 ≤ p.data ∧ p.data < 499 := by
        rw [getStatusType_eq] at hc
        split_ifs at hc with h1 h2 h3 h4 h5
        exact h4
      rcases h with h | h | h | h | h | h | h | h
      · simp [hc] at h
      · simp [hc] at h
      · simp [hc] at h
      · simp [hc] at h
      · exact absurd h (not_lt.mpr hlo.1)
      · exact absurd (lt_of_le_of_lt h hlo.2) (by decide)
      · simp [h, abortCodes]
      · exact absurd (h ▸ hc) hRR
    case RECIPIENT_EXCEPTION =>
      simp only [handleError, hc]
      have hlo : 500 ≤ p.data ∧ p.data < 599 := by
        rw [getStatusType_eq] at hc
        split_ifs at hc with h1 h2 h3 h4 h5
        exact h5
      rcases h with h | h | h | h | h | h | h | h
      · simp [hc] at h
      · simp [hc] at h
      · simp [hc] at h
      · simp [hc] at h
      · exact absurd h (not_lt.mpr (le_trans (by decide) hlo.1))
      · exact absurd (lt_of_le_of_lt h hlo.2) (by decide)
      · exact absurd (h ▸ hc) hAE
      · simp [h, abortCodes]
  · intro h
    simp only [handleStatus, redirections_append, hred, List.append_nil, h, handleRedirection]
    rfl

/-- C10, witness: the protocol's code table and the inbound code 418
(`ALREADY_EXISTS`) on an Add command. -/
theorem handleStatus_no_abort_witness :
    abortCodes (handleStatus syncmlCodes syncmlElements ⟨418, "Add", 1, 2, "a"⟩) = [] :=
  (handleStatus_no_abort syncmlCodes syncmlElements ⟨418, "Add", 1, 2, "a"⟩
    (by decide) (by decide)).1 (Or.inr (Or.inr (Or.inr (Or.inr (Or.inr (Or.inr (Or.inl rfl)))))))

/-! ## Result mapping: what the loops leave in `responses` -/

section MappingLemmas

variable {W : Type}

/-- The code of `mapResult` depends on the commit result and the role only. -/
theorem mapResult_statusCode (C : Collaborators W) (k : StatusCodes) (iRole : Role)
    (item : ItemParams) (result : CommitResult) (w : W) :
    (mapResult C k iRole item result w).statusCode = resultCode k iRole result := by
  obtain ⟨key, status, conflict⟩ := result
  cases status <;> cases conflict <;> cases iRole <;> simp [mapResult, resultCode]

/-- One step of the result mapper: an ItemId that has a code keeps it, the
item's own ItemId gets its mapped code, nothing else changes. -/
theorem mapItem_responses (C : Collaborators W) (k : StatusCodes) (iRole : Role)
    (results : QMap ItemId CommitResult) (data : SyncActionData) (a : Nat) (item : ItemParams)
    (w : W) (responses : QMap ItemId ResponseStatusCode) (j : ItemId) :
    (mapItem C k iRole results data a item w responses).responses j =
      match responses j with
      | some c => some c
      | none =>
        if j = { iCmdId := data.cmdID, iItemIndex := (a : Int) } then
          some (mappedCode k iRole results j)
        else none := by
  by_cases hj : j = { iCmdId := data.cmdID, iItemIndex := (a : Int) }
  · subst hj
    cases hr : responses { iCmdId := data.cmdID, iItemIndex := (a : Int) } with
    | some c => simp [mapItem, QMap.contains, hr]
    | none =>
      cases hq : results { iCmdId := data.cmdID, iItemIndex := (a : Int) } with
      | none => simp [mapItem, QMap.contains, QMap.insert, hr, hq, mappedCode]
      | some r =>
        simp [mapItem, QMap.contains, QMap.insert, QMap.value, hr, hq, mappedCode,
          mapResult_statusCode]
  · cases hr : responses j with
    | some c =>
      simp only [mapItem]
      split_ifs <;> simp [QMap.insert, hj, hr]
    | none =>
      simp only [mapItem]
      split_ifs <;> simp [QMap.insert, hj, hr]

/-- The inner loop of the result mapper. -/
theorem mapItems_responses (C : Collaborators W) (k : StatusCodes) (iRole : Role)
    (results : QMap ItemId CommitResult) (data : SyncActionData) (items : List ItemParams) :
    ∀ (a : Nat) (w : W) (responses : QMap ItemId ResponseStatusCode) (j : ItemId),
      (mapItems C k iRole results data a items w responses).responses j =
        match responses j with
        | some c => some c
        | none =>
          if j ∈ itemIdsFrom data.cmdID a items then some (mappedCode k iRole results j)
          else none := by
  induction items with
  | nil =>
    intro a w responses j
    cases hr : responses j <;> simp [mapItems, itemIdsFrom, hr]
  | cons item rest ih =>
    intro a w responses j
    simp only [mapItems, itemIdsFrom, ih, mapItem_responses, List.mem_cons]
    cases hr : responses j with
    | some c => simp
    | none =>
      by_cases hj : j = { iCmdId := data.cmdID, iItemIndex := (a : Int) }
      · simp [hj]
      · simp [hj]

/-- The result mapper over a batch: an ItemId that staging gave a code keeps
it; an ItemId of the batch without one gets its mapped code; no other ItemId
gets a code. -/
theorem mapActions_responses (C : Collaborators W) (k : StatusCodes) (iRole : Role)
    (results : QMap ItemId CommitResult) (actions : List SyncActionData) :
    ∀ (w : W) (responses : QMap ItemId ResponseStatusCode) (j : ItemId),
      (mapActions C k iRole results actions w responses).responses j =
        match responses j with
        | some c => some c
        | none =>
          if j ∈ itemIds actions then some (mappedCode k iRole results j) else none := by
  induction actions with
  | nil =>
    intro w responses j
    cases hr : responses j <;> simp [mapActions, itemIds, hr]
  | cons data rest ih =>
    intro w responses j
    simp only [mapActions, itemIds, ih, mapItems_responses, List.mem_append]
    cases hr : responses j with
    | some c => simp
    | none =>
      by_cases hj : j ∈ itemIdsFrom data.cmdID 0 data.items
      · simp [hj]
      · simp [hj]

/-- The final content of `responses` after `handleSync`, for every ItemId. -/
theorem handleSync_responses (C : Collaborators W) (k : StatusCodes) (iRole : Role)
    (aSyncParams : SyncParams) (aConflictResolver : ConflictResolver) (w : W) (j : ItemId) :
    (handleSync C k iRole aSyncParams aConflictResolver w).responses j =
      match (stagingPhase C k iRole aSyncParams w).responses j with
      | some c => some c
      | none =>
        if j ∈ itemIds aSyncParams.actionList then
          some (mappedCode k iRole
            (commitPhase C k iRole aSyncParams aConflictResolver w).results j)
        else none := by
  simp only [handleSync, mappingPhase, mapActions_responses]

end MappingLemmas

/-! ## Result mapping: the translation table -/

/-- C2: an item of the batch that staging left without a status and whose
ItemId has a commit result with status Replaced or Deleted ends with
`RESOLVED_CLIENT_WINNING` (client) or `RESOLVED_WITH_SERVER_DATA` (server) when
the conflict is LocalWin, with `RESOLVED_WITH_SERVER_DATA` (client) or
`RESOLVED_CLIENT_WINNING` (server) when the conflict is RemoteWin, and with
`SUCCESS` under both roles when there is no conflict. -/
theorem handleSync_replaced_deleted_code {W : Type} (C : Collaborators W) (k : StatusCodes)
    (iRole : Role) (aSyncParams : SyncParams) (aConflictResolver : ConflictResolver) (w : W)
    (id : ItemId) (result : CommitResult)
    (hmem : id ∈ itemIds aSyncParams.actionList)
    (hstaged : (stagingPhase C k iRole aSyncParams w).responses id = none)
    (hresult : (commitPhase C k iRole aSyncParams aConflictResolver w).results id = some result)
    (hstatus : result.iStatus = CommitStatus.COMMIT_REPLACED ∨
      result.iStatus = CommitStatus.COMMIT_DELETED) :
    (result.iConflict = ConflictStatus.CONFLICT_LOCAL_WIN → iRole = Role.ROLE_CLIENT →
      (handleSync C k iRole aSyncParams aConflictResolver w).responses.value id =
        k.RESOLVED_CLIENT_WINNING) ∧
    (result.iConflict = ConflictStatus.CONFLICT_LOCAL_WIN → iRole = Role.ROLE_SERVER →
      (handleSync C k iRole aSyncParams aConflictResolver w).responses.value id =
        k.RESOLVED_WITH_SERVER_DATA) ∧
    (result.iConflict = ConflictStatus.CONFLICT_REMOTE_WIN → iRole = Role.ROLE_CLIENT →
      (handleSync C k iRole aSyncParams aConflictResolver w).responses.value id =
        k.RESOLVED_WITH_SERVER_DATA) ∧
    (result.iConflict = ConflictStatus.CONFLICT_REMOTE_WIN → iRole = Role.ROLE_SERVER →
      (handleSync C k iRole aSyncParams aConflictResolver w).responses.value id =
        k.RESOLVED_CLIENT_WINNING) ∧
    (result.iConflict = ConflictStatus.CONFLICT_NO_CONFLICT →
      (handleSync C k iRole aSyncParams aConflictResolver w).responses.value id =
        k.SUCCESS) := by
  have hfinal : (handleSync C k iRole aSyncParams aConflictResolver w).responses.value id =
      resultCode k iRole result := by
    simp [QMap.value, handleSync_responses, hstaged, hmem, mappedCode, hresult]
  rw [hfinal]
  obtain ⟨key, status, conflict⟩ := result
  rcases hstatus with h | h <;> simp only at h <;> subst h <;>
    refine ⟨?_, ?_, ?_, ?_, ?_⟩ <;> intro h1 <;> simp only at h1 <;> subst h1 <;>
    first
      | rfl
      | (intro h2; subst h2; rfl)

/-- C2, witness: one REPLACE item under Server role, committed as Replaced with
conflict RemoteWin, ends with `RESOLVED_CLIENT_WINNING` (208). -/
theorem handleSync_replaced_deleted_code_witness :
    (handleSync refStore syncmlCodes Role.ROLE_SERVER
      ⟨1, false, [mkAction SyncMLCommand.SYNCML_REPLACE 2 [mkItem "r1" "" "data" 0 false]]⟩
      ⟨0⟩ (idleStore ConflictStatus.CONFLICT_REMOTE_WIN)).responses.value ⟨2, 0⟩ = 208 :=
  (handleSync_replaced_deleted_code refStore syncmlCodes Role.ROLE_SERVER
    ⟨1, false, [mkAction SyncMLCommand.SYNCML_REPLACE 2 [mkItem "r1" "" "data" 0 false]]⟩
    ⟨0⟩ (idleStore ConflictStatus.CONFLICT_REMOTE_WIN) ⟨2, 0⟩
    ⟨"local", CommitStatus.COMMIT_REPLACED, ConflictStatus.CONFLICT_REMOTE_WIN⟩
    (by decide) (by decide) (by decide) (Or.inl rfl)).2.2.2.1 rfl rfl

/-- C3: an item of the batch that staging left without a status and whose
ItemId has a commit result ends, whatever the role and the conflict field, with
`ITEM_ADDED` for Added, `ALREADY_EXISTS` for Duplicate, `ITEM_NOT_DELETED` for
NotDeleted, `UNSUPPORTED_FORMAT` for UnsupportedFormat, `REQUEST_SIZE_TOO_BIG`
for ItemTooBig, `DEVICE_FULL` for NotEnoughSpace, and `COMMAND_FAILED` for every
commit status outside the eight enumerated ones. -/
theorem handleSync_commit_status_code {W : Type} (C : Collaborators W) (k : StatusCodes)
    (iRole : Role) (aSyncParams : SyncParams) (aConflictResolver : ConflictResolver) (w : W)
    (id : ItemId) (result : CommitResult)
    (hmem : id ∈ itemIds aSyncParams.actionList)
    (hstaged : (stagingPhase C k iRole aSyncParams w).responses id = none)
    (hresult : (commitPhase C k iRole aSyncParams aConflictResolver w).results id =
      some result) :
    (result.iStatus = CommitStatus.COMMIT_ADDED →
      (handleSync C k iRole aSyncParams aConflictResolver w).responses.value id =
        k.ITEM_ADDED) ∧
    (result.iStatus = CommitStatus.COMMIT_DUPLICATE →
      (handleSync C k iRole aSyncParams aConflictResolver w).responses.value id =
        k.ALREADY_EXISTS) ∧
    (result.iStatus = CommitStatus.COMMIT_NOT_DELETED →
      (handleSync C k iRole aSyncParams aConflictResolver w).responses.value id =
        k.ITEM_NOT_DELETED) ∧
    (result.iStatus = CommitStatus.COMMIT_UNSUPPORTED_FORMAT →
      (handleSync C k iRole aSyncParams aConflictResolver w).responses.value id =
        k.UNSUPPORTED_FORMAT) ∧
    (result.iStatus = CommitStatus.COMMIT_ITEM_TOO_BIG →
      (handleSync C k iRole aSyncParams aConflictResolver w).responses.value id =
        k.REQUEST_SIZE_TOO_BIG) ∧
    (result.iStatus = CommitStatus.COMMIT_NOT_ENOUGH_SPACE →
      (handleSync C k iRole aSyncParams aConflictResolver w).responses.value id =
        k.DEVICE_FULL) ∧
    (∀ tag : Nat, result.iStatus = CommitStatus.COMMIT_OTHER tag →
      (handleSync C k iRole aSyncParams aConflictResolver w).responses.value id =
        k.COMMAND_FAILED) := by
  have hfinal : (handleSync C k iRole aSyncParams aConflictResolver w).responses.value id =
      resultCode k iRole result := by
    simp [QMap.value, handleSync_responses, hstaged, hmem, mappedCode, hresult]
  rw [hfinal]
  obtain ⟨key, status, conflict⟩ := result
  refine ⟨?_, ?_, ?_, ?_, ?_, ?_, ?_⟩
  all_goals first
    | (intro h; simp only at h; subst h; cases conflict <;> cases iRole <;> rfl)
    | (intro tag h; simp only at h; subst h; cases conflict <;> cases iRole <;> rfl)

/-- C3, witness: one ADD item under Client role, committed as Added, ends with
`ITEM_ADDED` (201). -/
theorem handleSync_commit_status_code_witness :
    (handleSync refStore syncmlCodes Role.ROLE_CLIENT
      ⟨1, false, [mkAction SyncMLCommand.SYNCML_ADD 2 [mkItem "r1" "" "data" 0 false]]⟩
      ⟨0⟩ (idleStore ConflictStatus.CONFLICT_LOCAL_WIN)).responses.value ⟨2, 0⟩ = 201 :=
  (handleSync_commit_status_code refStore syncmlCodes Role.ROLE_CLIENT
    ⟨1, false, [mkAction SyncMLCommand.SYNCML_ADD 2 [mkItem "r1" "" "data" 0 false]]⟩
    ⟨0⟩ (idleStore ConflictStatus.CONFLICT_LOCAL_WIN) ⟨2, 0⟩
    ⟨"local", CommitStatus.COMMIT_ADDED, ConflictStatus.CONFLICT_NO_CONFLICT⟩
    (by decide) (by decide) (by decide)).1 rfl

/-- C4, counterexample: a commit result with status Added and conflict LocalWin
is given `ITEM_ADDED` (201) under Client role and under Server role alike, not
the pair `RESOLVED_CLIENT_WINNING` (208) and `RESOLVED_WITH_SERVER_DATA` (419). -/
theorem mapItem_added_local_win_not_swapped :
    (mapItem refStore syncmlCodes Role.ROLE_CLIENT
      (fun _ => some ⟨"local", CommitStatus.COMMIT_ADDED, ConflictStatus.CONFLICT_LOCAL_WIN⟩)
      (mkAction SyncMLCommand.SYNCML_ADD 2 [mkItem "r1" "" "data" 0 false]) 0
      (mkItem "r1" "" "data" 0 false) (idleStore ConflictStatus.CONFLICT_LOCAL_WIN)
      QMap.empty).responses.value ⟨2, 0⟩ ≠ syncmlCodes.RESOLVED_CLIENT_WINNING ∧
    (mapItem refStore syncmlCodes Role.ROLE_SERVER
      (fun _ => some ⟨"local", CommitStatus.COMMIT_ADDED, ConflictStatus.CONFLICT_LOCAL_WIN⟩)
      (mkAction SyncMLCommand.SYNCML_ADD 2 [mkItem "r1" "" "data" 0 false]) 0
      (mkItem "r1" "" "data" 0 false) (idleStore ConflictStatus.CONFLICT_LOCAL_WIN)
      QMap.empty).responses.value ⟨2, 0⟩ ≠ syncmlCodes.RESOLVED_WITH_SERVER_DATA := by
  decide

/-- C4, amended: for an item the result mapper reaches without a status and
whose commit result has status Replaced or Deleted, a LocalWin conflict gives
`RESOLVED_CLIENT_WINNING` under Client role and `RESOLVED_WITH_SERVER_DATA`
under Server role, and a RemoteWin conflict gives the same two codes with the
roles exchanged. -/
theorem mapItem_role_symmetry {W : Type} (C : Collaborators W) (k : StatusCodes)
    (results : QMap ItemId CommitResult) (data : SyncActionData) (a : Nat) (item : ItemParams)
    (w : W) (responses : QMap ItemId ResponseStatusCode) (result : CommitResult)
    (hstaged : responses { iCmdId := data.cmdID, iItemIndex := (a : Int) } = none)
    (hresult : results { iCmdId := data.cmdID, iItemIndex := (a : Int) } = some result)
    (hstatus : result.iStatus = CommitStatus.COMMIT_REPLACED ∨
      result.iStatus = CommitStatus.COMMIT_DELETED) :
    (result.iConflict = ConflictStatus.CONFLICT_LOCAL_WIN →
      (mapItem C k Role.ROLE_CLIENT results data a item w responses).responses.value
          { iCmdId := data.cmdID, iItemIndex := (a : Int) } = k.RESOLVED_CLIENT_WINNING ∧
      (mapItem C k Role.ROLE_SERVER results data a item w responses).responses.value
          { iCmdId := data.cmdID, iItemIndex := (a : Int) } = k.RESOLVED_WITH_SERVER_DATA) ∧
    (result.iConflict = ConflictStatus.CONFLICT_REMOTE_WIN →
      (mapItem C k Role.ROLE_CLIENT results data a item w responses).responses.value
          { iCmdId := data.cmdID, iItemIndex := (a : Int) } = k.RESOLVED_WITH_SERVER_DATA ∧
      (mapItem C k Role.ROLE_SERVER results data a item w responses).responses.value
          { iCmdId := data.cmdID, iItemIndex := (a : Int) } = k.RESOLVED_CLIENT_WINNING) := by
  have hfinal : ∀ iRole : Role,
      (mapItem C k iRole results data a item w responses).responses.value
        { iCmdId := data.cmdID, iItemIndex := (a : Int) } = resultCode k iRole result := by
    intro iRole
    simp [QMap.value, mapItem_responses, hstaged, mappedCode, hresult]
  rw [hfinal, hfinal]
  obtain ⟨key, status, conflict⟩ := result
  rcases hstatus with h | h <;> simp only at h <;> subst h <;>
    refine ⟨?_, ?_⟩ <;> intro h1 <;> simp only at h1 <;> subst h1 <;> exact ⟨rfl, rfl⟩

/-- C4, witness of the amended claim: a Replaced result with conflict LocalWin
for the first item of command 2. -/
theorem mapItem_role_symmetry_witness :
    (mapItem refStore syncmlCodes Role.ROLE_CLIENT
      (fun _ => some ⟨"local", CommitStatus.COMMIT_REPLACED, ConflictStatus.CONFLICT_LOCAL_WIN⟩)
      (mkAction SyncMLCommand.SYNCML_REPLACE 2 [mkItem "r1" "" "data" 0 false]) 0
      (mkItem "r1" "" "data" 0 false) (idleStore ConflictStatus.CONFLICT_LOCAL_WIN)
      QMap.empty).responses.value ⟨2, 0⟩ = 208 ∧
    (mapItem refStore syncmlCodes Role.ROLE_SERVER
      (fun _ => some ⟨"local", CommitStatus.COMMIT_REPLACED, ConflictStatus.CONFLICT_LOCAL_WIN⟩)
      (mkAction SyncMLCommand.SYNCML_REPLACE 2 [mkItem "r1" "" "data" 0 false]) 0
      (mkItem "r1" "" "data" 0 false) (idleStore ConflictStatus.CONFLICT_LOCAL_WIN)
      QMap.empty).responses.value ⟨2, 0⟩ = 419 :=
  (mapItem_role_symmetry refStore syncmlCodes
    (fun _ => some ⟨"local", CommitStatus.COMMIT_REPLACED, ConflictStatus.CONFLICT_LOCAL_WIN⟩)
    (mkAction SyncMLCommand.SYNCML_REPLACE 2 [mkItem "r1" "" "data" 0 false]) 0
    (mkItem "r1" "" "data" 0 false) (idleStore ConflictStatus.CONFLICT_LOCAL_WIN)
    QMap.empty ⟨"local", CommitStatus.COMMIT_REPLACED, ConflictStatus.CONFLICT_LOCAL_WIN⟩
    rfl rfl (Or.inl rfl)).1 rfl

/-- The calls the result mapper makes for one item, given the accumulator it
finds: none when the accumulator has an entry for the item or the ItemId has no
commit result; one `addUIDMapping` for Added; one `removeUIDMapping` for
Deleted with conflict None or RemoteWin and for NotDeleted; none otherwise. -/
theorem mapItem_trace_eq {W : Type} (C : Collaborators W) (k : StatusCodes) (iRole : Role)
    (results : QMap ItemId CommitResult) (data : SyncActionData) (a : Nat) (item : ItemParams)
    (w : W) (responses : QMap ItemId ResponseStatusCode) :
    (mapItem C k iRole results data a item w responses).trace =
      if responses.contains { iCmdId := data.cmdID, iItemIndex := (a : Int) } = true then []
      else
        match results { iCmdId := data.cmdID, iItemIndex := (a : Int) } with
        | none => []
        | some result =>
          if result.iStatus = CommitStatus.COMMIT_ADDED then
            [Call.addUIDMapping { iRemoteUID := item.source, iLocalUID := result.iItemKey }]
          else if result.iStatus = CommitStatus.COMMIT_DELETED ∧
              (result.iConflict = ConflictStatus.CONFLICT_NO_CONFLICT ∨
                result.iConflict = ConflictStatus.CONFLICT_REMOTE_WIN) then
            [Call.removeUIDMapping result.iItemKey]
          else if result.iStatus = CommitStatus.COMMIT_NOT_DELETED then
            [Call.removeUIDMapping result.iItemKey]
          else [] := by
  cases hr : responses { iCmdId := data.cmdID, iItemIndex := (a : Int) } with
  | some c => simp [mapItem, QMap.contains, hr]
  | none =>
    cases hq : results { iCmdId := data.cmdID, iItemIndex := (a : Int) } with
    | none => simp [mapItem, QMap.contains, hr, hq]
    | some result =>
      obtain ⟨key, status, conflict⟩ := result
      cases status <;> cases conflict <;> cases iRole <;>
        simp [mapItem, QMap.contains, QMap.value, hr, hq, mapResult, addUIDMapping,
          removeUIDMapping]

/-! ## The loops, cut at one item -/

section LoopLemmas

variable {W : Type}

/-- The inner staging loop over two lists in a row. -/
theorem stageItems_append (C : Collaborators W) (k : StatusCodes) (iRole : Role)
    (data : SyncActionData) (l1 l2 : List ItemParams) :
    ∀ (a : Nat) (w : W) (responses : QMap ItemId ResponseStatusCode),
      stageItems C k iRole data a (l1 ++ l2) w responses =
        { world := (stageItems C k iRole data (a + l1.length) l2
            (stageItems C k iRole data a l1 w responses).world
            (stageItems C k iRole data a l1 w responses).responses).world,
          responses := (stageItems C k iRole data (a + l1.length) l2
            (stageItems C k iRole data a l1 w responses).world
            (stageItems C k iRole data a l1 w responses).responses).responses,
          trace := (stageItems C k iRole data a l1 w responses).trace ++
            (stageItems C k iRole data (a + l1.length) l2
              (stageItems C k iRole data a l1 w responses).world
              (stageItems C k iRole data a l1 w responses).responses).trace } := by
  induction l1 with
  | nil =>
    intro a w responses
    simp [stageItems]
  | cons item rest ih =>
    intro a w responses
    have h : a + (rest.length + 1) = a + 1 + rest.length := by omega
    rw [List.cons_append]
    simp only [stageItems, ih, List.length_cons, List.append_assoc, h]

/-- The outer staging loop over two lists in a row. -/
theorem stageActions_append (C : Collaborators W) (k : StatusCodes) (iRole : Role)
    (l1 l2 : List SyncActionData) :
    ∀ (w : W) (responses : QMap ItemId ResponseStatusCode),
      stageActions C k iRole (l1 ++ l2) w responses =
        { world := (stageActions C k iRole l2
            (stageActions C k iRole l1 w responses).world
            (stageActions C k iRole l1 w responses).responses).world,
          responses := (stageActions C k iRole l2
            (stageActions C k iRole l1 w responses).world
            (stageActions C k iRole l1 w responses).responses).responses,
          trace := (stageActions C k iRole l1 w responses).trace ++
            (stageActions C k iRole l2
              (stageActions C k iRole l1 w responses).world
              (stageActions C k iRole l1 w responses).responses).trace } := by
  induction l1 with
  | nil =>
    intro w responses
    simp [stageActions]
  | cons data rest ih =>
    intro w responses
    rw [List.cons_append]
    simp only [stageActions, ih, List.append_assoc]

/-- The inner result-mapping loop over two lists in a row. -/
theorem mapItems_append (C : Collaborators W) (k : StatusCodes) (iRole : Role)
    (results : QMap ItemId CommitResult) (data : SyncActionData) (l1 l2 : List ItemParams) :
    ∀ (a : Nat) (w : W) (responses : QMap ItemId ResponseStatusCode),
      mapItems C k iRole results data a (l1 ++ l2) w responses =
        { world := (mapItems C k iRole results data (a + l1.length) l2
            (mapItems C k iRole results data a l1 w responses).world
            (mapItems C k iRole results data a l1 w responses).responses).world,
          responses := (mapItems C k iRole results data (a + l1.length) l2
            (mapItems C k iRole results data a l1 w responses).world
            (mapItems C k iRole results data a l1 w responses).responses).responses,
          trace := (mapItems C k iRole results data a l1 w responses).trace ++
            (mapItems C k iRole results data (a + l1.length) l2
              (mapItems C k iRole results data a l1 w responses).world
              (mapItems C k iRole results data a l1 w responses).responses).trace } := by
  induction l1 with
  | nil =>
    intro a w responses
    simp [mapItems]
  | cons item rest ih =>
    intro a w responses
    have h : a + (rest.length + 1) = a + 1 + rest.length := by omega
    rw [List.cons_append]
    simp only [mapItems, ih, List.length_cons, List.append_assoc, h]

/-- The outer result-mapping loop over two lists in a row. -/
theorem mapActions_append (C : Collaborators W) (k : StatusCodes) (iRole : Role)
    (results : QMap ItemId CommitResult) (l1 l2 : List SyncActionData) :
    ∀ (w : W) (responses : QMap ItemId ResponseStatusCode),
      mapActions C k iRole results (l1 ++ l2) w responses =
        { world := (mapActions C k iRole results l2
            (mapActions C k iRole results l1 w responses).world
            (mapActions C k iRole results l1 w responses).responses).world,
          responses := (mapActions C k iRole results l2
            (mapActions C k iRole results l1 w responses).world
            (mapActions C k iRole results l1 w responses).responses).responses,
          trace := (mapActions C k iRole results l1 w responses).trace ++
            (mapActions C k iRole results l2
              (mapActions C k iRole results l1 w responses).world
              (mapActions C k iRole results l1 w responses).responses).trace } := by
  induction l1 with
  | nil =>
    intro w responses
    simp [mapActions]
  | cons data rest ih =>
    intro w responses
    rw [List.cons_append]
    simp only [mapActions, ih, List.append_assoc]

end LoopLemmas

/-! ## Staging: which calls it makes and which entries it touches -/

section StagingLemmas

variable {W : Type}

/-- The parent key of an ADD item is resolved with key lookups only. -/
theorem addParentKey_trace (C : Collaborators W) (iRole : Role) (item : ItemParams) (w : W) :
    (addParentKey C iRole item w).trace.all Call.isStagingCall = true := by
  simp only [addParentKey]
  split_ifs <;> rfl

/-- The local key of an item is resolved with key lookups only. -/
theorem localKeyOf_trace (C : Collaborators W) (iRole : Role) (item : ItemParams) (w : W) :
    (localKeyOf C iRole item w).trace.all Call.isStagingCall = true := by
  simp only [localKeyOf]
  split_ifs <;> rfl

/-- The parent key of a REPLACE item is resolved with key lookups only. -/
theorem replaceParentKey_trace (C : Collaborators W) (iRole : Role) (item : ItemParams)
    (w : W) : (replaceParentKey C iRole item w).trace.all Call.isStagingCall = true := by
  simp only [replaceParentKey]
  split_ifs <;> rfl

/-- The ADD branch makes staging calls only. -/
theorem stageAddBody_trace (C : Collaborators W) (k : StatusCodes) (id : ItemId)
    (remoteKey parentKey type format : String) (item : ItemParams) (w : W)
    (responses : QMap ItemId ResponseStatusCode) :
    (stageAddBody C k id remoteKey parentKey type format item w responses).trace.all
      Call.isStagingCall = true := by
  simp only [stageAddBody]
  split_ifs <;> rfl

/-- The REPLACE branch makes staging calls only. -/
theorem stageReplaceBody_trace (C : Collaborators W) (k : StatusCodes) (id : ItemId)
    (localKey parentKey type format : String) (item : ItemParams) (w : W)
    (responses : QMap ItemId ResponseStatusCode) :
    (stageReplaceBody C k id localKey parentKey type format item w responses).trace.all
      Call.isStagingCall = true := by
  simp only [stageReplaceBody]
  split_ifs <;> rfl

/-- Staging one item makes staging calls only. -/
theorem stageItem_trace (C : Collaborators W) (k : StatusCodes) (iRole : Role)
    (data : SyncActionData) (a : Nat) (item : ItemParams) (w : W)
    (responses : QMap ItemId ResponseStatusCode) :
    (stageItem C k iRole data a item w responses).trace.all Call.isStagingCall = true := by
  simp only [stageItem]
  split_ifs <;>
    simp [List.all_append, addParentKey_trace, localKeyOf_trace, replaceParentKey_trace,
      stageAddBody_trace, stageReplaceBody_trace, Call.isStagingCall]

/-- The inner staging loop makes staging calls only. -/
theorem stageItems_trace (C : Collaborators W) (k : StatusCodes) (iRole : Role)
    (data : SyncActionData) (items : List ItemParams) :
    ∀ (a : Nat) (w : W) (responses : QMap ItemId ResponseStatusCode),
      (stageItems C k iRole data a items w responses).trace.all Call.isStagingCall = true := by
  induction items with
  | nil => intro a w responses; rfl
  | cons item rest ih =>
    intro a w responses
    simp only [stageItems, List.all_append, stageItem_trace, ih, Bool.and_self]

/-- The staging loop makes staging calls only. -/
theorem stageActions_trace (C : Collaborators W) (k : StatusCodes) (iRole : Role)
    (actions : List SyncActionData) :
    ∀ (w : W) (responses : QMap ItemId ResponseStatusCode),
      (stageActions C k iRole actions w responses).trace.all Call.isStagingCall = true := by
  induction actions with
  | nil => intro w responses; rfl
  | cons data rest ih =>
    intro w responses
    simp only [stageActions, List.all_append, stageItems_trace, ih, Bool.and_self]

/-- The ADD branch touches no entry of `responses` but the item's own. -/
theorem stageAddBody_responses_other (C : Collaborators W) (k : StatusCodes) (id : ItemId)
    (remoteKey parentKey type format : String) (item : ItemParams) (w : W)
    (responses : QMap ItemId ResponseStatusCode) (j : ItemId) (hj : j ≠ id) :
    (stageAddBody C k id remoteKey parentKey type format item w responses).responses j =
      responses j := by
  simp only [stageAddBody]
  split_ifs <;> simp [QMap.insert, hj]

/-- The REPLACE branch touches no entry of `responses` but the item's own. -/
theorem stageReplaceBody_responses_other (C : Collaborators W) (k : StatusCodes) (id : ItemId)
    (localKey parentKey type format : String) (item : ItemParams) (w : W)
    (responses : QMap ItemId ResponseStatusCode) (j : ItemId) (hj : j ≠ id) :
    (stageReplaceBody C k id localKey parentKey type format item w responses).responses j =
      responses j := by
  simp only [stageReplaceBody]
  split_ifs <;> simp [QMap.insert, hj]

/-- Staging one item touches no entry of `responses` but the item's own. -/
theorem stageItem_responses_other (C : Collaborators W) (k : StatusCodes) (iRole : Role)
    (data : SyncActionData) (a : Nat) (item : ItemParams) (w : W)
    (responses : QMap ItemId ResponseStatusCode) (j : ItemId)
    (hj : j ≠ { iCmdId := data.cmdID, iItemIndex := (a : Int) }) :
    (stageItem C k iRole data a item w responses).responses j = responses j := by
  simp only [stageItem]
  split_ifs <;>
    simp [QMap.insert, hj, stageAddBody_responses_other, stageReplaceBody_responses_other]

/-- The inner staging loop touches the entries of its own items only. -/
theorem stageItems_responses_other (C : Collaborators W) (k : StatusCodes) (iRole : Role)
    (data : SyncActionData) (items : List ItemParams) :
    ∀ (a : Nat) (w : W) (responses : QMap ItemId ResponseStatusCode) (j : ItemId),
      j ∉ itemIdsFrom data.cmdID a items →
      (stageItems C k iRole data a items w responses).responses j = responses j := by
  induction items with
  | nil => intro a w responses j _; rfl
  | cons item rest ih =>
    intro a w responses j hj
    simp only [itemIdsFrom, List.mem_cons, not_or] at hj
    simp only [stageItems]
    rw [ih _ _ _ _ hj.2, stageItem_responses_other _ _ _ _ _ _ _ _ _ hj.1]

/-- The staging loop touches the entries of the batch's items only. -/
theorem stageActions_responses_other (C : Collaborators W) (k : StatusCodes) (iRole : Role)
    (actions : List SyncActionData) :
    ∀ (w : W) (responses : QMap ItemId ResponseStatusCode) (j : ItemId),
      j ∉ itemIds actions →
      (stageActions C k iRole actions w responses).responses j = responses j := by
  induction actions with
  | nil => intro w responses j _; rfl
  | cons data rest ih =>
    intro w responses j hj
    simp only [itemIds, List.mem_append, not_or] at hj
    simp only [stageActions]
    rw [ih _ _ _ hj.2, stageItems_responses_other _ _ _ _ _ _ _ _ _ hj.1]

/-- The ItemIds of the items of one action from index `a` on carry the action's
command id and an index from `a` on. -/
theorem mem_itemIdsFrom (cmdID : Int) (items : List ItemParams) :
    ∀ (a : Nat) (j : ItemId), j ∈ itemIdsFrom cmdID a items →
      j.iCmdId = cmdID ∧ (a : Int) ≤ j.iItemIndex := by
  induction items with
  | nil => intro a j hj; simp [itemIdsFrom] at hj
  | cons item rest ih =>
    intro a j hj
    simp only [itemIdsFrom, List.mem_cons] at hj
    rcases hj with hj | hj
    · subst hj
      exact ⟨rfl, le_refl _⟩
    · have h := ih (a + 1) j hj
      refine ⟨h.1, ?_⟩
      have h2 := h.2
      push_cast at h2
      omega

/-- The ItemIds of a batch carry the command id of one of its actions. -/
theorem mem_itemIds (actions : List SyncActionData) (j : ItemId) (hj : j ∈ itemIds actions) :
    ∃ data ∈ actions, j.iCmdId = data.cmdID := by
  induction actions with
  | nil => simp [itemIds] at hj
  | cons data rest ih =>
    simp only [itemIds, List.mem_append] at hj
    rcases hj with hj | hj
    · exact ⟨data, List.mem_cons_self _ _, (mem_itemIdsFrom _ _ _ _ hj).1⟩
    · obtain ⟨d, hd, h⟩ := ih hj
      exact ⟨d, List.mem_cons_of_mem _ hd, h⟩

/-- The item after `ipre` in an action has the ItemId with index `ipre.length`. -/
theorem mem_itemIdsFrom_append (cmdID : Int) (ipre : List ItemParams) (item : ItemParams)
    (ipost : List ItemParams) :
    ∀ a : Nat, ({ iCmdId := cmdID, iItemIndex := ((a + ipre.length : Nat) : Int) } : ItemId) ∈
      itemIdsFrom cmdID a (ipre ++ item :: ipost) := by
  induction ipre with
  | nil => intro a; simp [itemIdsFrom]
  | cons x rest ih =>
    intro a
    rw [List.cons_append]
    simp only [itemIdsFrom, List.mem_cons, List.length_cons]
    right
    have h := ih (a + 1)
    have e : a + 1 + rest.length = a + (rest.length + 1) := by omega
    rw [e] at h
    exact h

end StagingLemmas

/-! ## One item inside a run -/

section ItemInRun

variable {W : Type}

/-- The staging phase, cut at the item after `ipre` in `data`: the state in
which the item is reached, then the item, then the rest of its action, then
the actions after it. -/
theorem stagingPhase_split (C : Collaborators W) (k : StatusCodes) (iRole : Role)
    (aSyncParams : SyncParams) (w : W) (pre post : List SyncActionData) (data : SyncActionData)
    (ipre ipost : List ItemParams) (item : ItemParams)
    (hactions : aSyncParams.actionList = pre ++ data :: post)
    (hitems : data.items = ipre ++ item :: ipost) :
    stagingPhase C k iRole aSyncParams w =
      let b := stagedBefore C k iRole pre data ipre w
      let s := stagedItem C k iRole pre data ipre item w
      let t := stageItems C k iRole data (ipre.length + 1) ipost s.world s.responses
      let u := stageActions C k iRole post t.world t.responses
      { world := u.world, responses := u.responses,
        trace := b.trace ++ (s.trace ++ (t.trace ++ u.trace)) } := by
  simp only [stagingPhase, hactions, stageActions_append, stageActions, hitems,
    stageItems_append, stageItems, stagedBefore, stagedItem, Nat.zero_add, List.append_assoc]

/-- The calls of the staging phase are those made before the item, then the
item's own, then the later ones. -/
theorem stagingPhase_trace_split (C : Collaborators W) (k : StatusCodes) (iRole : Role)
    (aSyncParams : SyncParams) (w : W) (pre post : List SyncActionData) (data : SyncActionData)
    (ipre ipost : List ItemParams) (item : ItemParams)
    (hactions : aSyncParams.actionList = pre ++ data :: post)
    (hitems : data.items = ipre ++ item :: ipost) :
    ∃ later : List Call,
      (stagingPhase C k iRole aSyncParams w).trace =
        (stagedBefore C k iRole pre data ipre w).trace ++
          (stagedItem C k iRole pre data ipre item w).trace ++ later := by
  rw [stagingPhase_split C k iRole aSyncParams w pre post data ipre ipost item hactions hitems]
  refine ⟨(stageItems C k iRole data (ipre.length + 1) ipost
      (stagedItem C k iRole pre data ipre item w).world
      (stagedItem C k iRole pre data ipre item w).responses).trace ++
    (stageActions C k iRole post
      (stageItems C k iRole data (ipre.length + 1) ipost
        (stagedItem C k iRole pre data ipre item w).world
        (stagedItem C k iRole pre data ipre item w).responses).world
      (stageItems C k iRole data (ipre.length + 1) ipost
        (stagedItem C k iRole pre data ipre item w).world
        (stagedItem C k iRole pre data ipre item w).responses).responses).trace, ?_⟩
  simp only [List.append_assoc]

/-- When no later action repeats the command id of `data`, the staging phase
leaves for the item the entry its own staging left. -/
theorem stagingPhase_responses_at (C : Collaborators W) (k : StatusCodes) (iRole : Role)
    (aSyncParams : SyncParams) (w : W) (pre post : List SyncActionData) (data : SyncActionData)
    (ipre ipost : List ItemParams) (item : ItemParams)
    (hactions : aSyncParams.actionList = pre ++ data :: post)
    (hitems : data.items = ipre ++ item :: ipost)
    (hunique : ∀ d ∈ post, d.cmdID ≠ data.cmdID) :
    (stagingPhase C k iRole aSyncParams w).responses
        { iCmdId := data.cmdID, iItemIndex := (ipre.length : Int) } =
      (stagedItem C k iRole pre data ipre item w).responses
        { iCmdId := data.cmdID, iItemIndex := (ipre.length : Int) } := by
  rw [stagingPhase_split C k iRole aSyncParams w pre post data ipre ipost item hactions hitems]
  simp only
  rw [stageActions_responses_other, stageItems_responses_other]
  · intro hmem
    have h := (mem_itemIdsFrom _ _ _ _ hmem).2
    simp only at h
    push_cast at h
    omega
  · intro hmem
    obtain ⟨d, hd, h⟩ := mem_itemIds _ _ hmem
    exact hunique d hd h.symm

/-- The item after `ipre` in `data` is an item of the batch. -/
theorem mem_itemIds_at (pre post : List SyncActionData) (data : SyncActionData)
    (ipre ipost : List ItemParams) (item : ItemParams)
    (hitems : data.items = ipre ++ item :: ipost) :
    ({ iCmdId := data.cmdID, iItemIndex := (ipre.length : Int) } : ItemId) ∈
      itemIds (pre ++ data :: post) := by
  induction pre with
  | nil =>
    simp only [List.nil_append, itemIds, List.mem_append]
    left
    rw [hitems]
    have h := mem_itemIdsFrom_append data.cmdID ipre item ipost 0
    simpa using h
  | cons d rest ih =>
    rw [List.cons_append]
    simp only [itemIds, List.mem_append]
    right
    simpa [List.mem_append] using ih

/-- A status given to an item by its staging is the item's final status, when
no later action repeats the command id of its action. -/
theorem handleSync_value_of_staged (C : Collaborators W) (k : StatusCodes) (iRole : Role)
    (aSyncParams : SyncParams) (aConflictResolver : ConflictResolver) (w : W)
    (pre post : List SyncActionData) (data : SyncActionData)
    (ipre ipost : List ItemParams) (item : ItemParams) (c : ResponseStatusCode)
    (hactions : aSyncParams.actionList = pre ++ data :: post)
    (hitems : data.items = ipre ++ item :: ipost)
    (hunique : ∀ d ∈ post, d.cmdID ≠ data.cmdID)
    (hstaged : (stagedItem C k iRole pre data ipre item w).responses
      { iCmdId := data.cmdID, iItemIndex := (ipre.length : Int) } = some c) :
    (handleSync C k iRole aSyncParams aConflictResolver w).responses.value
      { iCmdId := data.cmdID, iItemIndex := (ipre.length : Int) } = c := by
  have h := stagingPhase_responses_at C k iRole aSyncParams w pre post data ipre ipost item
    hactions hitems hunique
  rw [hstaged] at h
  simp [QMap.value, handleSync_responses, h]

end ItemInRun

/-! ## Large objects: a last chunk with the wrong key -/

section FinalChunk

variable {W : Type}

/-- The ADD branch on a last chunk whose key does not match the large object. -/
theorem stageAddBody_mismatch (C : Collaborators W) (k : StatusCodes) (id : ItemId)
    (remoteKey parentKey type format : String) (item : ItemParams) (w : W)
    (responses : QMap ItemId ResponseStatusCode)
    (hmore : item.moreData = false)
    (hbuilding : (C.buildingLargeObject w).1 = true)
    (hmismatch : (C.matchesLargeObject (C.buildingLargeObject w).2 remoteKey).1 = false) :
    stageAddBody C k id remoteKey parentKey type format item w responses =
      { world := (C.matchesLargeObject (C.buildingLargeObject w).2 remoteKey).2,
        responses := responses.insert id k.COMMAND_NOT_ALLOWED,
        trace := [Call.buildingLargeObject true, Call.matchesLargeObject remoteKey false,
          Call.addPackage (alertPackage C AlertType.NO_END_OF_DATA
            (C.matchesLargeObject (C.buildingLargeObject w).2 remoteKey).2)] } := by
  simp [stageAddBody, hmore, hbuilding, hmismatch]

/-- The REPLACE branch on a last chunk whose key does not match the large
object. -/
theorem stageReplaceBody_mismatch (C : Collaborators W) (k : StatusCodes) (id : ItemId)
    (localKey parentKey type format : String) (item : ItemParams) (w : W)
    (responses : QMap ItemId ResponseStatusCode)
    (hmore : item.moreData = false)
    (hbuilding : (C.buildingLargeObject w).1 = true)
    (hmismatch : (C.matchesLargeObject (C.buildingLargeObject w).2 localKey).1 = false) :
    stageReplaceBody C k id localKey parentKey type format item w responses =
      { world := (C.matchesLargeObject (C.buildingLargeObject w).2 localKey).2,
        responses := responses.insert id k.COMMAND_NOT_ALLOWED,
        trace := [Call.buildingLargeObject true, Call.matchesLargeObject localKey false,
          Call.addPackage (alertPackage C AlertType.NO_END_OF_DATA
            (C.matchesLargeObject (C.buildingLargeObject w).2 localKey).2)] } := by
  simp [stageReplaceBody, hmore, hbuilding, hmismatch]

/-- Resolving the keys of an item queues no alert and makes no payload call. -/
theorem resolveKeys_trace (C : Collaborators W) (iRole : Role) (action : SyncMLCommand)
    (item : ItemParams) (w : W) :
    alerts (resolveKeys C iRole action item w).trace = [] ∧
    (resolveKeys C iRole action item w).trace.all (fun c => !c.isPayloadCall) = true := by
  simp only [resolveKeys, addParentKey, localKeyOf, replaceParentKey]
  split_ifs <;> exact ⟨rfl, rfl⟩

/-- Staging an ADD or REPLACE item, in terms of its resolved keys: a last chunk
whose key does not match the large object. -/
theorem stageItem_mismatch (C : Collaborators W) (k : StatusCodes) (iRole : Role)
    (data : SyncActionData) (a : Nat) (item : ItemParams) (w : W)
    (responses : QMap ItemId ResponseStatusCode)
    (hkind : data.action = SyncMLCommand.SYNCML_ADD ∨
      data.action = SyncMLCommand.SYNCML_REPLACE)
    (hmore : item.moreData = false)
    (hbuilding : (C.buildingLargeObject (resolveKeys C iRole data.action item w).world).1 = true)
    (hmismatch : (C.matchesLargeObject
      (C.buildingLargeObject (resolveKeys C iRole data.action item w).world).2
      (resolveKeys C iRole data.action item w).key).1 = false) :
    stageItem C k iRole data a item w responses =
      { world := (C.matchesLargeObject
          (C.buildingLargeObject (resolveKeys C iRole data.action item w).world).2
          (resolveKeys C iRole data.action item w).key).2,
        responses := responses.insert { iCmdId := data.cmdID, iItemIndex := (a : Int) }
          k.COMMAND_NOT_ALLOWED,
        trace := (resolveKeys C iRole data.action item w).trace ++
          [Call.buildingLargeObject true,
            Call.matchesLargeObject (resolveKeys C iRole data.action item w).key false,
            Call.addPackage (alertPackage C AlertType.NO_END_OF_DATA
              (C.matchesLargeObject
                (C.buildingLargeObject (resolveKeys C iRole data.action item w).world).2
                (resolveKeys C iRole data.action item w).key).2)] } := by
  rcases hkind with h | h
  · simp only [resolveKeys, h, if_true] at hbuilding hmismatch ⊢
    simp only [stageItem, h, if_true]
    rw [stageAddBody_mismatch C k _ _ _ _ _ item _ responses hmore hbuilding hmismatch]
  · have hne : SyncMLCommand.SYNCML_REPLACE ≠ SyncMLCommand.SYNCML_ADD := by decide
    simp only [resolveKeys, h, hne, if_false] at hbuilding hmismatch ⊢
    simp only [stageItem, h, hne, if_false, if_true]
    rw [stageReplaceBody_mismatch C k _ _ _ _ _ item _ responses hmore hbuilding hmismatch]

end FinalChunk

/-- C8: an ADD or REPLACE item with `moreData = false`, reached while the
storage is building a large object that does not match the item's resolved key
(`item.source` for ADD; for REPLACE `item.target` under Client role and
`mapToLocalUID(item.source)` under Server role): the calls made for the item
are its key lookups, then `buildingLargeObject`, `matchesLargeObject` and one
`NO_END_OF_DATA` alert, so no append, finish, add or replace; the staging
records `COMMAND_NOT_ALLOWED`, which is the item's final status when no later
action of the batch repeats the command id. -/
theorem handleSync_final_chunk_mismatch {W : Type} (C : Collaborators W) (k : StatusCodes)
    (iRole : Role) (aSyncParams : SyncParams) (aConflictResolver : ConflictResolver) (w : W)
    (pre post : List SyncActionData) (data : SyncActionData)
    (ipre ipost : List ItemParams) (item : ItemParams)
    (hactions : aSyncParams.actionList = pre ++ data :: post)
    (hitems : data.items = ipre ++ item :: ipost)
    (hunique : ∀ d ∈ post, d.cmdID ≠ data.cmdID)
    (hkind : data.action = SyncMLCommand.SYNCML_ADD ∨
      data.action = SyncMLCommand.SYNCML_REPLACE)
    (hmore : item.moreData = false)
    (hbuilding : (C.buildingLargeObject (resolveKeys C iRole data.action item
      (stagedBefore C k iRole pre data ipre w).world).world).1 = true)
    (hmismatch : (C.matchesLargeObject
      (C.buildingLargeObject (resolveKeys C iRole data.action item
        (stagedBefore C k iRole pre data ipre w).world).world).2
      (resolveKeys C iRole data.action item
        (stagedBefore C k iRole pre data ipre w).world).key).1 = false) :
    ((data.action = SyncMLCommand.SYNCML_ADD →
        (resolveKeys C iRole data.action item
          (stagedBefore C k iRole pre data ipre w).world).key = item.source) ∧
      (data.action = SyncMLCommand.SYNCML_REPLACE → iRole = Role.ROLE_CLIENT →
        (resolveKeys C iRole data.action item
          (stagedBefore C k iRole pre data ipre w).world).key = item.target) ∧
      (data.action = SyncMLCommand.SYNCML_REPLACE → iRole = Role.ROLE_SERVER →
        (resolveKeys C iRole data.action item
          (stagedBefore C k iRole pre data ipre w).world).key =
        (C.mapToLocalUID (stagedBefore C k iRole pre data ipre w).world item.source).1)) ∧
    (stagedItem C k iRole pre data ipre item w).trace =
      (resolveKeys C iRole data.action item
        (stagedBefore C k iRole pre data ipre w).world).trace ++
      [Call.buildingLargeObject true,
        Call.matchesLargeObject (resolveKeys C iRole data.action item
          (stagedBefore C k iRole pre data ipre w).world).key false,
        Call.addPackage (alertPackage C AlertType.NO_END_OF_DATA
          (C.matchesLargeObject
            (C.buildingLargeObject (resolveKeys C iRole data.action item
              (stagedBefore C k iRole pre data ipre w).world).world).2
            (resolveKeys C iRole data.action item
              (stagedBefore C k iRole pre data ipre w).world).key).2)] ∧
    alerts (stagedItem C k iRole pre data ipre item w).trace = [AlertType.NO_END_OF_DATA] ∧
    (stagedItem C k iRole pre data ipre item w).trace.all (fun c => !c.isPayloadCall) = true ∧
    (∃ later : List Call, (stagingPhase C k iRole aSyncParams w).trace =
      (stagedBefore C k iRole pre data ipre w).trace ++
        (stagedItem C k iRole pre data ipre item w).trace ++ later) ∧
    (handleSync C k iRole aSyncParams aConflictResolver w).responses.value
      { iCmdId := data.cmdID, iItemIndex := (ipre.length : Int) } = k.COMMAND_NOT_ALLOWED := by
  have hitem := stageItem_mismatch C k iRole data ipre.length item
    (stagedBefore C k iRole pre data ipre w).world
    (stagedBefore C k iRole pre data ipre w).responses hkind hmore hbuilding hmismatch
  have hkeys := resolveKeys_trace C iRole data.action item
    (stagedBefore C k iRole pre data ipre w).world
  refine ⟨⟨?_, ?_, ?_⟩, ?_, ?_, ?_, ?_, ?_⟩
  · intro h
    simp only [resolveKeys, h, if_true]
  · intro h hr
    have hne : SyncMLCommand.SYNCML_REPLACE ≠ SyncMLCommand.SYNCML_ADD := by decide
    simp only [resolveKeys, h, hne, if_false, localKeyOf, hr, if_true]
  · intro h hr
    have hne : SyncMLCommand.SYNCML_REPLACE ≠ SyncMLCommand.SYNCML_ADD := by decide
    have hrole : Role.ROLE_SERVER ≠ Role.ROLE_CLIENT := by decide
    simp only [resolveKeys, h, hne, if_false, localKeyOf, hr, hrole]
  · simp only [stagedItem, hitem]
  · simp only [stagedItem, hitem, alerts, List.filterMap_append]
    have h1 := hkeys.1
    simp only [alerts] at h1
    rw [h1]
    rfl
  · simp only [stagedItem, hitem, List.all_append, hkeys.2]
    rfl
  · exact stagingPhase_trace_split C k iRole aSyncParams w pre post data ipre ipost item
      hactions hitems
  · apply handleSync_value_of_staged C k iRole aSyncParams aConflictResolver w pre post data
      ipre ipost item k.COMMAND_NOT_ALLOWED hactions hitems hunique
    simp only [stagedItem, hitem, QMap.insert, if_true]

/-- C8, witness: under Client role an ADD command whose first item opens the
large object "big" (size 1000, more data to come) and whose second item, with
source "other", is a last chunk: the second item ends with
`COMMAND_NOT_ALLOWED` (405). -/
theorem handleSync_final_chunk_mismatch_witness :
    (handleSync refStore syncmlCodes Role.ROLE_CLIENT
      ⟨1, false, [mkAction SyncMLCommand.SYNCML_ADD 2
        [mkItem "big" "" "part" 1000 true, mkItem "other" "" "data" 0 false]]⟩
      ⟨0⟩ (idleStore ConflictStatus.CONFLICT_NO_CONFLICT)).responses.value ⟨2, 1⟩ = 405 :=
  (handleSync_final_chunk_mismatch refStore syncmlCodes Role.ROLE_CLIENT
    ⟨1, false, [mkAction SyncMLCommand.SYNCML_ADD 2
      [mkItem "big" "" "part" 1000 true, mkItem "other" "" "data" 0 false]]⟩
    ⟨0⟩ (idleStore ConflictStatus.CONFLICT_NO_CONFLICT) [] []
    (mkAction SyncMLCommand.SYNCML_ADD 2
      [mkItem "big" "" "part" 1000 true, mkItem "other" "" "data" 0 false])
    [mkItem "big" "" "part" 1000 true] [] (mkItem "other" "" "data" 0 false)
    rfl rfl (fun d hd => absurd hd (List.not_mem_nil d)) (Or.inl rfl) rfl
    (by decide) (by decide)).2.2.2.2.2

/-! ## Status elements -/

section StatusElements

variable {W : Type}

/-- Staging calls write no item status element. -/
theorem itemStatuses_of_staging (trace : List Call)
    (h : trace.all Call.isStagingCall = true) : itemStatuses trace = [] := by
  induction trace with
  | nil => rfl
  | cons c rest ih =>
    simp only [List.all_cons, Bool.and_eq_true] at h
    cases c <;> simp_all [itemStatuses, Call.asItemStatus, Call.isStagingCall]

/-- Mapping-table updates write no item status element. -/
theorem itemStatuses_of_mapping (trace : List Call)
    (h : trace.all Call.isMappingUpdate = true) : itemStatuses trace = [] := by
  induction trace with
  | nil => rfl
  | cons c rest ih =>
    simp only [List.all_cons, Bool.and_eq_true] at h
    cases c <;> simp_all [itemStatuses, Call.asItemStatus, Call.isMappingUpdate]

/-- The item status elements of two traces in a row. -/
theorem itemStatuses_append (t1 t2 : List Call) :
    itemStatuses (t1 ++ t2) = itemStatuses t1 ++ itemStatuses t2 := by
  simp [itemStatuses, List.filterMap_append]

/-- The result mapper calls the mapping table only, for one commit result. -/
theorem mapResult_trace (C : Collaborators W) (k : StatusCodes) (iRole : Role)
    (item : ItemParams) (result : CommitResult) (w : W) :
    (mapResult C k iRole item result w).trace.all Call.isMappingUpdate = true := by
  obtain ⟨key, status, conflict⟩ := result
  cases status <;> cases conflict <;> cases iRole <;>
    simp [mapResult, addUIDMapping, removeUIDMapping, Call.isMappingUpdate]

/-- The result mapper calls the mapping table only, for one item. -/
theorem mapItem_trace (C : Collaborators W) (k : StatusCodes) (iRole : Role)
    (results : QMap ItemId CommitResult) (data : SyncActionData) (a : Nat) (item : ItemParams)
    (w : W) (responses : QMap ItemId ResponseStatusCode) :
    (mapItem C k iRole results data a item w responses).trace.all Call.isMappingUpdate =
      true := by
  simp only [mapItem]
  split_ifs <;> simp [mapResult_trace]

/-- The result mapper calls the mapping table only, for one action. -/
theorem mapItems_trace (C : Collaborators W) (k : StatusCodes) (iRole : Role)
    (results : QMap ItemId CommitResult) (data : SyncActionData) (items : List ItemParams) :
    ∀ (a : Nat) (w : W) (responses : QMap ItemId ResponseStatusCode),
      (mapItems C k iRole results data a items w responses).trace.all Call.isMappingUpdate =
        true := by
  induction items with
  | nil => intro a w responses; rfl
  | cons item rest ih =>
    intro a w responses
    simp only [mapItems, List.all_append, mapItem_trace, ih, Bool.and_self]

/-- The result mapper calls the mapping table only. -/
theorem mapActions_trace (C : Collaborators W) (k : StatusCodes) (iRole : Role)
    (results : QMap ItemId CommitResult) (actions : List SyncActionData) :
    ∀ (w : W) (responses : QMap ItemId ResponseStatusCode),
      (mapActions C k iRole results actions w responses).trace.all Call.isMappingUpdate =
        true := by
  induction actions with
  | nil => intro w responses; rfl
  | cons data rest ih =>
    intro w responses
    simp only [mapActions, List.all_append, mapItems_trace, ih, Bool.and_self]

/-- The inner writing loop writes what the action is due. -/
theorem writeItems_itemStatuses (responses : QMap ItemId ResponseStatusCode)
    (data : SyncActionData) (items : List ItemParams) :
    ∀ a : Nat, itemStatuses (writeItems responses data a items) =
      dueItemStatuses responses data a items := by
  induction items with
  | nil => intro a; simp [writeItems, dueItemStatuses, itemStatuses]
  | cons item rest ih =>
    intro a
    have h := ih (a + 1)
    simp only [dueItemStatuses] at h
    simp only [writeItems, itemStatuses_append, h, dueItemStatuses, List.enumFrom_cons,
      List.map_cons]
    cases hn : data.noResp <;> simp [itemStatuses, Call.asItemStatus]

/-- The writing loop writes what the batch is due. -/
theorem writeActions_itemStatuses (responses : QMap ItemId ResponseStatusCode)
    (actions : List SyncActionData) :
    itemStatuses (writeActions responses actions) = dueStatuses responses actions := by
  induction actions with
  | nil => rfl
  | cons data rest ih =>
    simp only [dueStatuses] at ih
    simp only [writeActions, itemStatuses_append, writeItems_itemStatuses, ih, dueStatuses,
      List.flatMap_cons]

end StatusElements

/-- C6: whatever the collaborators answer, the item status elements written by
`handleSync` are, in this order, one per item for every action that does not
suppress responses, actions in batch order and items in item order, each
carrying the final code of its ItemId; actions that suppress responses get
none. -/
theorem handleSync_item_statuses {W : Type} (C : Collaborators W) (k : StatusCodes)
    (iRole : Role) (aSyncParams : SyncParams) (aConflictResolver : ConflictResolver) (w : W) :
    itemStatuses (handleSync C k iRole aSyncParams aConflictResolver w).trace =
      aSyncParams.actionList.flatMap fun data =>
        if data.noResp then []
        else data.items.enum.map fun p =>
          (data.cmdID, p.2,
            (handleSync C k iRole aSyncParams aConflictResolver w).responses.value
              { iCmdId := data.cmdID, iItemIndex := (p.1 : Int) }) := by
  have hstage := itemStatuses_of_staging _
    (stageActions_trace C k iRole aSyncParams.actionList w QMap.empty)
  have hmap := itemStatuses_of_mapping _
    (mapActions_trace C k iRole
      (commitPhase C k iRole aSyncParams aConflictResolver w).results aSyncParams.actionList
      (commitPhase C k iRole aSyncParams aConflictResolver w).world
      (stagingPhase C k iRole aSyncParams w).responses)
  have hhead : itemStatuses
      (if (!aSyncParams.noResp) = true then [Call.addStatusSync aSyncParams.cmdID k.SUCCESS]
        else []) = [] := by
    split_ifs <;> rfl
  have hcommit : itemStatuses
      (commitPhase C k iRole aSyncParams aConflictResolver w).trace = [] := rfl
  simp only [handleSync, itemStatuses_append, hhead, hcommit, writeActions_itemStatuses,
    List.nil_append]
  simp only [stagingPhase] at hstage ⊢
  simp only [mappingPhase, stagingPhase] at hmap ⊢
  rw [hstage, hmap]
  simp only [List.nil_append, dueStatuses, dueItemStatuses, List.enum]

/-! ## ItemIds of a batch -/

section OrderLemmas

variable {W : Type}

/-- The ItemIds of the items of one action from index `a` on have an index
below `a` plus the number of items. -/
theorem mem_itemIdsFrom_lt (cmdID : Int) (items : List ItemParams) :
    ∀ (a : Nat) (j : ItemId), j ∈ itemIdsFrom cmdID a items →
      j.iItemIndex < ((a + items.length : Nat) : Int) := by
  induction items with
  | nil => intro a j hj; simp [itemIdsFrom] at hj
  | cons item rest ih =>
    intro a j hj
    simp only [itemIdsFrom, List.mem_cons] at hj
    rcases hj with hj | hj
    · subst hj
      simp only [List.length_cons]
      push_cast
      omega
    · have h := ih (a + 1) j hj
      simp only [List.length_cons]
      push_cast at h ⊢
      omega

/-- An ItemId of one action is the ItemId of the item at some position. -/
theorem mem_itemIdsFrom_split (cmdID : Int) (items : List ItemParams) :
    ∀ (a : Nat) (j : ItemId), j ∈ itemIdsFrom cmdID a items →
      ∃ ipre item ipost, items = ipre ++ item :: ipost ∧
        j = { iCmdId := cmdID, iItemIndex := ((a + ipre.length : Nat) : Int) } := by
  induction items with
  | nil => intro a j hj; simp [itemIdsFrom] at hj
  | cons item rest ih =>
    intro a j hj
    simp only [itemIdsFrom, List.mem_cons] at hj
    rcases hj with hj | hj
    · exact ⟨[], item, rest, rfl, by simpa using hj⟩
    · obtain ⟨ipre, it, ipost, h1, h2⟩ := ih (a + 1) j hj
      refine ⟨item :: ipre, it, ipost, by rw [h1]; rfl, ?_⟩
      rw [h2]
      simp only [List.length_cons]
      have e : a + 1 + ipre.length = a + (ipre.length + 1) := by omega
      rw [e]

/-- The ItemIds of a batch are the ItemIds of the items of its actions. -/
theorem mem_itemIds_iff (actions : List SyncActionData) (j : ItemId) :
    j ∈ itemIds actions ↔ ∃ data ∈ actions, j ∈ itemIdsFrom data.cmdID 0 data.items := by
  induction actions with
  | nil => simp [itemIds]
  | cons data rest ih =>
    simp only [itemIds, List.mem_append, ih, List.mem_cons, exists_eq_or_imp]

/-- Two orders of a batch have the same ItemIds. -/
theorem mem_itemIds_perm (l l' : List SyncActionData) (hperm : List.Perm l l') (j : ItemId) :
    j ∈ itemIds l ↔ j ∈ itemIds l' := by
  simp only [mem_itemIds_iff]
  constructor
  · rintro ⟨data, hdata, hm⟩
    exact ⟨data, hperm.mem_iff.mp hdata, hm⟩
  · rintro ⟨data, hdata, hm⟩
    exact ⟨data, hperm.mem_iff.mpr hdata, hm⟩

end OrderLemmas

/-! ## Mapping-table updates of one item inside a run -/

section MappingInRun

variable {W : Type}

/-- The calls of the result-mapping phase are those made before the item, then
the item's own, then the later ones. -/
theorem mappingPhase_trace_split (C : Collaborators W) (k : StatusCodes) (iRole : Role)
    (aSyncParams : SyncParams) (aConflictResolver : ConflictResolver) (w : W)
    (pre post : List SyncActionData) (data : SyncActionData)
    (ipre ipost : List ItemParams) (item : ItemParams)
    (hactions : aSyncParams.actionList = pre ++ data :: post)
    (hitems : data.items = ipre ++ item :: ipost) :
    ∃ later : List Call,
      (mappingPhase C k iRole aSyncParams aConflictResolver w).trace =
        (mappedBefore C k iRole (commitPhase C k iRole aSyncParams aConflictResolver w).results
          pre data ipre (commitPhase C k iRole aSyncParams aConflictResolver w).world
          (stagingPhase C k iRole aSyncParams w).responses).trace ++
        (mapItem C k iRole (commitPhase C k iRole aSyncParams aConflictResolver w).results
          data ipre.length item
          (mappedBefore C k iRole (commitPhase C k iRole aSyncParams aConflictResolver w).results
            pre data ipre (commitPhase C k iRole aSyncParams aConflictResolver w).world
            (stagingPhase C k iRole aSyncParams w).responses).world
          (mappedBefore C k iRole (commitPhase C k iRole aSyncParams aConflictResolver w).results
            pre data ipre (commitPhase C k iRole aSyncParams aConflictResolver w).world
            (stagingPhase C k iRole aSyncParams w).responses).responses).trace ++ later := by
  simp only [mappingPhase, hactions, mapActions_append, mapActions, hitems, mapItems_append,
    mapItems, mappedBefore, Nat.zero_add, List.append_assoc]
  exact ⟨_, rfl⟩

/-- The result mapper reaches an item with the entry staging left for it, when
no earlier action carries the command id of its action. -/
theorem mappedBefore_responses_at (C : Collaborators W) (k : StatusCodes) (iRole : Role)
    (results : QMap ItemId CommitResult) (pre : List SyncActionData) (data : SyncActionData)
    (ipre : List ItemParams) (w : W) (responses : QMap ItemId ResponseStatusCode)
    (hpre : ∀ d ∈ pre, d.cmdID ≠ data.cmdID) :
    (mappedBefore C k iRole results pre data ipre w responses).responses
        { iCmdId := data.cmdID, iItemIndex := (ipre.length : Int) } =
      responses { iCmdId := data.cmdID, iItemIndex := (ipre.length : Int) } := by
  have h1 : ({ iCmdId := data.cmdID, iItemIndex := (ipre.length : Int) } : ItemId) ∉
      itemIds pre := by
    intro hmem
    obtain ⟨d, hd, h⟩ := mem_itemIds _ _ hmem
    exact hpre d hd h.symm
  have h2 : ({ iCmdId := data.cmdID, iItemIndex := (ipre.length : Int) } : ItemId) ∉
      itemIdsFrom data.cmdID 0 ipre := by
    intro hmem
    have h := mem_itemIdsFrom_lt _ _ _ _ hmem
    simp only at h
    push_cast at h
    omega
  simp only [mappedBefore, mapItems_responses, mapActions_responses, h1, h2, if_false]
  cases responses { iCmdId := data.cmdID, iItemIndex := (ipre.length : Int) } <;> rfl

end MappingInRun

/-- C5: for the item after `ipre` in the action `data` of a batch in which no
earlier action carries the same command id, the calls the result mapper makes
for the item are exactly: none when staging gave the item a status or its
ItemId has no commit result; one `addUIDMapping` of the item's source to the
resulting key for Added; one `removeUIDMapping` of the resulting key for
Deleted with conflict None or RemoteWin, and for NotDeleted; none for any
other result. These calls stand in the trace of the phase between the calls
for the items before and the calls for the items after. -/
theorem handleSync_mapping_calls {W : Type} (C : Collaborators W) (k : StatusCodes)
    (iRole : Role) (aSyncParams : SyncParams) (aConflictResolver : ConflictResolver) (w : W)
    (pre post : List SyncActionData) (data : SyncActionData)
    (ipre ipost : List ItemParams) (item : ItemParams)
    (hactions : aSyncParams.actionList = pre ++ data :: post)
    (hitems : data.items = ipre ++ item :: ipost)
    (hpre : ∀ d ∈ pre, d.cmdID ≠ data.cmdID) :
    (∃ later : List Call,
      (mappingPhase C k iRole aSyncParams aConflictResolver w).trace =
        (mappedBefore C k iRole (commitPhase C k iRole aSyncParams aConflictResolver w).results
          pre data ipre (commitPhase C k iRole aSyncParams aConflictResolver w).world
          (stagingPhase C k iRole aSyncParams w).responses).trace ++
        (mapItem C k iRole (commitPhase C k iRole aSyncParams aConflictResolver w).results
          data ipre.length item
          (mappedBefore C k iRole (commitPhase C k iRole aSyncParams aConflictResolver w).results
            pre data ipre (commitPhase C k iRole aSyncParams aConflictResolver w).world
            (stagingPhase C k iRole aSyncParams w).responses).world
          (mappedBefore C k iRole (commitPhase C k iRole aSyncParams aConflictResolver w).results
            pre data ipre (commitPhase C k iRole aSyncParams aConflictResolver w).world
            (stagingPhase C k iRole aSyncParams w).responses).responses).trace ++ later) ∧
    (mapItem C k iRole (commitPhase C k iRole aSyncParams aConflictResolver w).results
        data ipre.length item
        (mappedBefore C k iRole (commitPhase C k iRole aSyncParams aConflictResolver w).results
          pre data ipre (commitPhase C k iRole aSyncParams aConflictResolver w).world
          (stagingPhase C k iRole aSyncParams w).responses).world
        (mappedBefore C k iRole (commitPhase C k iRole aSyncParams aConflictResolver w).results
          pre data ipre (commitPhase C k iRole aSyncParams aConflictResolver w).world
          (stagingPhase C k iRole aSyncParams w).responses).responses).trace =
      if ((stagingPhase C k iRole aSyncParams w).responses.contains
          { iCmdId := data.cmdID, iItemIndex := (ipre.length : Int) }) = true then []
      else
        match (commitPhase C k iRole aSyncParams aConflictResolver w).results
            { iCmdId := data.cmdID, iItemIndex := (ipre.length : Int) } with
        | none => []
        | some result =>
          if result.iStatus = CommitStatus.COMMIT_ADDED then
            [Call.addUIDMapping { iRemoteUID := item.source, iLocalUID := result.iItemKey }]
          else if result.iStatus = CommitStatus.COMMIT_DELETED ∧
              (result.iConflict = ConflictStatus.CONFLICT_NO_CONFLICT ∨
                result.iConflict = ConflictStatus.CONFLICT_REMOTE_WIN) then
            [Call.removeUIDMapping result.iItemKey]
          else if result.iStatus = CommitStatus.COMMIT_NOT_DELETED then
            [Call.removeUIDMapping result.iItemKey]
          else [] := by
  refine ⟨mappingPhase_trace_split C k iRole aSyncParams aConflictResolver w pre post data
    ipre ipost item hactions hitems, ?_⟩
  rw [mapItem_trace_eq]
  simp only [QMap.contains, mappedBefore_responses_at C k iRole _ pre data ipre _ _ hpre]

/-- C5, witness: one ADD item under Client role, committed as Added: the result
mapper registers the mapping of its source "r1" to the resulting key. -/
theorem handleSync_mapping_calls_witness :
    (mapItem refStore syncmlCodes Role.ROLE_CLIENT
        (commitPhase refStore syncmlCodes Role.ROLE_CLIENT
          ⟨1, false, [mkAction SyncMLCommand.SYNCML_ADD 2 [mkItem "r1" "" "data" 0 false]]⟩
          ⟨0⟩ (idleStore ConflictStatus.CONFLICT_NO_CONFLICT)).results
        (mkAction SyncMLCommand.SYNCML_ADD 2 [mkItem "r1" "" "data" 0 false]) 0
        (mkItem "r1" "" "data" 0 false)
        (commitPhase refStore syncmlCodes Role.ROLE_CLIENT
          ⟨1, false, [mkAction SyncMLCommand.SYNCML_ADD 2 [mkItem "r1" "" "data" 0 false]]⟩
          ⟨0⟩ (idleStore ConflictStatus.CONFLICT_NO_CONFLICT)).world
        (stagingPhase refStore syncmlCodes Role.ROLE_CLIENT
          ⟨1, false, [mkAction SyncMLCommand.SYNCML_ADD 2 [mkItem "r1" "" "data" 0 false]]⟩
          (idleStore ConflictStatus.CONFLICT_NO_CONFLICT)).responses).trace =
      [Call.addUIDMapping { iRemoteUID := "r1", iLocalUID := "local" }] :=
  (handleSync_mapping_calls refStore syncmlCodes Role.ROLE_CLIENT
    ⟨1, false, [mkAction SyncMLCommand.SYNCML_ADD 2 [mkItem "r1" "" "data" 0 false]]⟩
    ⟨0⟩ (idleStore ConflictStatus.CONFLICT_NO_CONFLICT) [] []
    (mkAction SyncMLCommand.SYNCML_ADD 2 [mkItem "r1" "" "data" 0 false]) [] []
    (mkItem "r1" "" "data" 0 false) rfl rfl
    (fun d hd => absurd hd (List.not_mem_nil d))).2

/-! ## Acknowledgements -/

/-- C11: whatever the code of an inbound status, `handleStatus` ends, after its
reaction to the class of the code (which holds no acknowledgement), with
exactly one item-acknowledged signal carrying (msgRef, cmdRef, sourceRef) when
the command is ADD, REPLACE or DELETE, exactly one mapping-acknowledged signal
carrying (msgRef, cmdRef) when the command is MAP, and no acknowledgement for
any other command; the element name of MAP is assumed to differ from those of
ADD, REPLACE and DELETE. -/
theorem handleStatus_acknowledgement (k : StatusCodes) (e : ElementNames) (p : StatusParams)
    (hmap : e.SYNCML_ELEMENT_MAP ≠ e.SYNCML_ELEMENT_ADD ∧
      e.SYNCML_ELEMENT_MAP ≠ e.SYNCML_ELEMENT_REPLACE ∧
      e.SYNCML_ELEMENT_MAP ≠ e.SYNCML_ELEMENT_DELETE) :
    ∃ reaction : List StatusEffect,
      reaction.all (fun x => !x.isAcknowledgement) = true ∧
      ((p.cmd = e.SYNCML_ELEMENT_ADD ∨ p.cmd = e.SYNCML_ELEMENT_REPLACE ∨
          p.cmd = e.SYNCML_ELEMENT_DELETE) →
        handleStatus k e p =
          reaction ++ [StatusEffect.itemAcknowledged p.msgRef p.cmdRef p.sourceRef]) ∧
      (p.cmd = e.SYNCML_ELEMENT_MAP →
        handleStatus k e p = reaction ++ [StatusEffect.mappingAcknowledged p.msgRef p.cmdRef]) ∧
      (p.cmd ≠ e.SYNCML_ELEMENT_ADD → p.cmd ≠ e.SYNCML_ELEMENT_REPLACE →
        p.cmd ≠ e.SYNCML_ELEMENT_DELETE → p.cmd ≠ e.SYNCML_ELEMENT_MAP →
        handleStatus k e p = reaction) := by
  refine ⟨match getStatusType p.data with
    | StatusCodeType.INFORMATIONAL => []
    | StatusCodeType.SUCCESSFUL => []
    | StatusCodeType.REDIRECTION =>
        [StatusEffect.redirectionHandled p.data (handleRedirection k p.data)]
    | StatusCodeType.ORIGINATOR_EXCEPTION => handleError k p.data
    | StatusCodeType.RECIPIENT_EXCEPTION => handleError k p.data
    | StatusCodeType.UNKNOWN => [StatusEffect.unknownLogged p.data], ?_, ?_, ?_, ?_⟩
  · cases getStatusType p.data <;>
      first
        | rfl
        | (simp only [handleError]; split_ifs <;> rfl)
  · intro h
    simp only [handleStatus, h, if_true]
  · intro h
    have h1 : ¬ (p.cmd = e.SYNCML_ELEMENT_ADD ∨ p.cmd = e.SYNCML_ELEMENT_REPLACE ∨
        p.cmd = e.SYNCML_ELEMENT_DELETE) := by
      rw [h]
      rintro (h' | h' | h')
      · exact hmap.1 h'
      · exact hmap.2.1 h'
      · exact hmap.2.2 h'
    simp only [handleStatus, h, hmap.1, hmap.2.1, hmap.2.2, or_self, if_false, if_true]
  · intro h1 h2 h3 h4
    simp only [handleStatus, h1, h2, h3, h4, or_self, if_false, List.append_nil]

/-- C11, witness: the protocol's element names and a status with the aborting
code 404 on a Replace command. -/
theorem handleStatus_acknowledgement_witness :
    ∃ reaction : List StatusEffect,
      reaction.all (fun x => !x.isAcknowledgement) = true ∧
      handleStatus syncmlCodes syncmlElements ⟨404, "Replace", 3, 7, "src"⟩ =
        reaction ++ [StatusEffect.itemAcknowledged 3 7 "src"] :=
  match handleStatus_acknowledgement syncmlCodes syncmlElements ⟨404, "Replace", 3, 7, "src"⟩
    (by decide) with
  | ⟨reaction, h1, h2, _, _⟩ => ⟨reaction, h1, h2 (Or.inr (Or.inl rfl))⟩

/-! ## `rejectSync` -/

/-- C12, counterexample: on a package that suppresses responses and holds one
action that suppresses responses, `rejectSync` writes no status at all. -/
theorem rejectSync_suppressed_writes_nothing :
    rejectSync ⟨1, true, [⟨SyncMLCommand.SYNCML_ADD, 2, true, ⟨"", "", 0⟩, []⟩]⟩ 500 = [] := by
  decide

/-- C12, amended: for a batch in which neither the package nor any action
suppresses responses, `rejectSync` writes one status for the package and then
one status for every action, in action order, all carrying the code handed in;
and for every batch, whatever the flags, it makes no staging call, no commit
call and no update of the mapping table. -/
theorem rejectSync_writes_all (aSyncParams : SyncParams) (aResponseCode : ResponseStatusCode)
    (hpackage : aSyncParams.noResp = false)
    (hactions : ∀ data ∈ aSyncParams.actionList, data.noResp = false) :
    rejectSync aSyncParams aResponseCode =
      Call.addStatusSync aSyncParams.cmdID aResponseCode ::
        aSyncParams.actionList.map (fun data => Call.addStatusAction data.cmdID aResponseCode) ∧
    ∀ q : SyncParams, (rejectSync q aResponseCode).all
      (fun c => !c.isStagingCall && !c.isCommitCall && !c.isMappingUpdate) = true := by
  constructor
  · have hfilter : aSyncParams.actionList.filter (fun actionData => !actionData.noResp) =
        aSyncParams.actionList := by
      apply List.filter_eq_self.mpr
      intro d hd
      simp [hactions d hd]
    simp [rejectSync, hpackage, hfilter]
  · intro q
    simp only [rejectSync, List.all_append, Bool.and_eq_true]
    constructor
    · split_ifs <;> rfl
    · apply List.all_eq_true.mpr
      intro c hc
      obtain ⟨d, _, hd⟩ := List.mem_map.mp hc
      rw [← hd]
      rfl

/-- C12, witness of the amended claim: a package with two actions, none of
which suppresses responses, rejected with code 500. -/
theorem rejectSync_writes_all_witness :
    rejectSync ⟨1, false, [mkAction SyncMLCommand.SYNCML_ADD 2 [],
        mkAction SyncMLCommand.SYNCML_DELETE 3 []]⟩ 500 =
      [Call.addStatusSync 1 500, Call.addStatusAction 2 500, Call.addStatusAction 3 500] :=
  (rejectSync_writes_all ⟨1, false, [mkAction SyncMLCommand.SYNCML_ADD 2 [],
    mkAction SyncMLCommand.SYNCML_DELETE 3 []]⟩ 500 rfl (by decide)).1

/-! ## The order of the calls of `handleSync` -/

section CallOrder

variable {W : Type}

/-- The writing loop of one action writes item statuses only. -/
theorem writeItems_trace (responses : QMap ItemId ResponseStatusCode) (data : SyncActionData)
    (items : List ItemParams) :
    ∀ a : Nat, (writeItems responses data a items).all Call.isItemStatus = true := by
  induction items with
  | nil => intro a; rfl
  | cons item rest ih =>
    intro a
    simp only [writeItems, List.all_append, ih, Bool.and_true]
    split_ifs <;> rfl

/-- The writing loop writes item statuses only. -/
theorem writeActions_trace (responses : QMap ItemId ResponseStatusCode)
    (actions : List SyncActionData) :
    (writeActions responses actions).all Call.isItemStatus = true := by
  induction actions with
  | nil => rfl
  | cons data rest ih =>
    simp only [writeActions, List.all_append, writeItems_trace, ih, Bool.and_self]

/-- A property of calls that holds of every call of a list with another
property holds of the whole list. -/
theorem all_of_all (trace : List Call) (p q : Call → Bool) (h : trace.all p = true)
    (hpq : ∀ c, p c = true → q c = true) : trace.all q = true := by
  rw [List.all_eq_true] at h ⊢
  intro c hc
  exact hpq c (h c hc)

/-- The three commit calls as `commitBatches` makes them, for each role. -/
theorem commitBatches_eq (C : Collaborators W) (aConflictResolver : ConflictResolver) (w : W) :
    commitBatches C Role.ROLE_SERVER aConflictResolver w =
      { world := (C.commitDeletedItems
          (C.commitReplacedItems (C.commitAddedItems w).2 (some aConflictResolver)).2
          (some aConflictResolver)).2,
        results := ((QMap.empty.unite (C.commitAddedItems w).1).unite
          (C.commitReplacedItems (C.commitAddedItems w).2 (some aConflictResolver)).1).unite
          (C.commitDeletedItems
            (C.commitReplacedItems (C.commitAddedItems w).2 (some aConflictResolver)).2
            (some aConflictResolver)).1,
        trace := [Call.commitAddedItems, Call.commitReplacedItems (some aConflictResolver),
          Call.commitDeletedItems (some aConflictResolver)] } ∧
    commitBatches C Role.ROLE_CLIENT aConflictResolver w =
      { world := (C.commitDeletedItems
          (C.commitReplacedItems (C.commitAddedItems w).2 none).2 none).2,
        results := ((QMap.empty.unite (C.commitAddedItems w).1).unite
          (C.commitReplacedItems (C.commitAddedItems w).2 none).1).unite
          (C.commitDeletedItems
            (C.commitReplacedItems (C.commitAddedItems w).2 none).2 none).1,
        trace := [Call.commitAddedItems, Call.commitReplacedItems none,
          Call.commitDeletedItems none] } := by
  constructor <;> rfl

end CallOrder

/-- C17: the trace of `handleSync` starts with the status of the Sync package,
carrying `SUCCESS`, exactly when the package does not suppress responses; no
other call of the run writes a package status, whatever the outcomes of the
items. -/
theorem handleSync_package_status {W : Type} (C : Collaborators W) (k : StatusCodes)
    (iRole : Role) (aSyncParams : SyncParams) (aConflictResolver : ConflictResolver) (w : W) :
    ∃ rest : List Call,
      (handleSync C k iRole aSyncParams aConflictResolver w).trace =
        (if aSyncParams.noResp = false then [Call.addStatusSync aSyncParams.cmdID k.SUCCESS]
          else []) ++ rest ∧
      rest.all (fun c => !c.isSyncStatus) = true := by
  refine ⟨(stagingPhase C k iRole aSyncParams w).trace ++
    (commitPhase C k iRole aSyncParams aConflictResolver w).trace ++
    (mappingPhase C k iRole aSyncParams aConflictResolver w).trace ++
    writeActions (mappingPhase C k iRole aSyncParams aConflictResolver w).responses
      aSyncParams.actionList, ?_, ?_⟩
  · simp only [handleSync, Bool.not_eq_true', List.append_assoc]
  · simp only [List.all_append, Bool.and_eq_true]
    refine ⟨⟨⟨?_, ?_⟩, ?_⟩, ?_⟩
    · exact all_of_all _ _ _ (stageActions_trace C k iRole aSyncParams.actionList w QMap.empty)
        (fun c hc => by cases c <;> simp_all [Call.isStagingCall, Call.isSyncStatus])
    · cases iRole <;> rfl
    · exact all_of_all _ _ _ (mapActions_trace C k iRole _ aSyncParams.actionList _ _)
        (fun c hc => by cases c <;> simp_all [Call.isMappingUpdate, Call.isSyncStatus])
    · exact all_of_all _ _ _ (writeActions_trace _ aSyncParams.actionList)
        (fun c hc => by cases c <;> simp_all [Call.isItemStatus, Call.isSyncStatus])

/-- C18: the calls of `handleSync` are, in this order: the package status if
any, the calls of the staging loop over the whole batch (staging calls only),
`commitAddedItems`, `commitReplacedItems`, `commitDeletedItems` once each, then
calls that are neither staging calls nor commit calls. -/
theorem handleSync_call_order {W : Type} (C : Collaborators W) (k : StatusCodes)
    (iRole : Role) (aSyncParams : SyncParams) (aConflictResolver : ConflictResolver) (w : W) :
    ∃ (head after : List Call) (resolver : Option ConflictResolver),
      (handleSync C k iRole aSyncParams aConflictResolver w).trace =
        head ++ (stageActions C k iRole aSyncParams.actionList w QMap.empty).trace ++
          [Call.commitAddedItems, Call.commitReplacedItems resolver,
            Call.commitDeletedItems resolver] ++ after ∧
      head.all (fun c => !c.isStagingCall && !c.isCommitCall) = true ∧
      (stageActions C k iRole aSyncParams.actionList w QMap.empty).trace.all
        Call.isStagingCall = true ∧
      after.all (fun c => !c.isStagingCall && !c.isCommitCall) = true := by
  refine ⟨if (!aSyncParams.noResp) = true then
      [Call.addStatusSync aSyncParams.cmdID k.SUCCESS] else [],
    (mappingPhase C k iRole aSyncParams aConflictResolver w).trace ++
      writeActions (mappingPhase C k iRole aSyncParams aConflictResolver w).responses
        aSyncParams.actionList,
    if resolveConflicts iRole = true then some aConflictResolver else none, ?_, ?_, ?_, ?_⟩
  · simp only [handleSync, stagingPhase, commitPhase, commitBatches, List.append_assoc]
  · split_ifs <;> rfl
  · exact stageActions_trace C k iRole aSyncParams.actionList w QMap.empty
  · simp only [List.all_append, Bool.and_eq_true]
    constructor
    · exact all_of_all _ _ _ (mapActions_trace C k iRole _ aSyncParams.actionList _ _)
        (fun c hc => by
          cases c <;> simp_all [Call.isMappingUpdate, Call.isStagingCall, Call.isCommitCall])
    · exact all_of_all _ _ _ (writeActions_trace _ aSyncParams.actionList)
        (fun c hc => by
          cases c <;> simp_all [Call.isItemStatus, Call.isStagingCall, Call.isCommitCall])

/-- C19: under Server role `commitReplacedItems` and `commitDeletedItems` are
called with the resolver handed to `handleSync`, under Client role with none;
`commitAddedItems` takes no resolver under either role. -/
theorem commitPhase_resolver {W : Type} (C : Collaborators W) (k : StatusCodes)
    (aSyncParams : SyncParams) (aConflictResolver : ConflictResolver) (w : W) :
    (commitPhase C k Role.ROLE_SERVER aSyncParams aConflictResolver w).trace =
      [Call.commitAddedItems, Call.commitReplacedItems (some aConflictResolver),
        Call.commitDeletedItems (some aConflictResolver)] ∧
    (commitPhase C k Role.ROLE_CLIENT aSyncParams aConflictResolver w).trace =
      [Call.commitAddedItems, Call.commitReplacedItems none, Call.commitDeletedItems none] ∧
    (∀ w0 : W, (commitBatches C Role.ROLE_SERVER aConflictResolver w0).results =
      ((QMap.empty.unite (C.commitAddedItems w0).1).unite
        (C.commitReplacedItems (C.commitAddedItems w0).2 (some aConflictResolver)).1).unite
        (C.commitDeletedItems
          (C.commitReplacedItems (C.commitAddedItems w0).2 (some aConflictResolver)).2
          (some aConflictResolver)).1) ∧
    (∀ w0 : W, (commitBatches C Role.ROLE_CLIENT aConflictResolver w0).results =
      ((QMap.empty.unite (C.commitAddedItems w0).1).unite
        (C.commitReplacedItems (C.commitAddedItems w0).2 none).1).unite
        (C.commitDeletedItems
          (C.commitReplacedItems (C.commitAddedItems w0).2 none).2 none).1) := by
  refine ⟨rfl, rfl, fun w0 => ?_, fun w0 => ?_⟩
  · rw [(commitBatches_eq C aConflictResolver w0).1]
  · rw [(commitBatches_eq C aConflictResolver w0).2]

/-! ## Items without a commit result, items with a staging status -/

section StagedFinal

variable {W : Type}

/-- The result mapper reaches an item with every entry staging left. -/
theorem mappedBefore_responses_of_some (C : Collaborators W) (k : StatusCodes) (iRole : Role)
    (results : QMap ItemId CommitResult) (pre : List SyncActionData) (data : SyncActionData)
    (ipre : List ItemParams) (w : W) (responses : QMap ItemId ResponseStatusCode) (j : ItemId)
    (c : ResponseStatusCode) (h : responses j = some c) :
    (mappedBefore C k iRole results pre data ipre w responses).responses j = some c := by
  simp only [mappedBefore, mapItems_responses, mapActions_responses, h]

/-- Inserting one of the codes of a list keeps every new entry in the list. -/
theorem insert_within (codes : List ResponseStatusCode)
    (r r' : QMap ItemId ResponseStatusCode) (id : ItemId) (c0 : ResponseStatusCode)
    (h : ∀ j c, r' j = some c → r j = some c ∨ c ∈ codes) (hc : c0 ∈ codes) :
    ∀ j c, (r'.insert id c0) j = some c → r j = some c ∨ c ∈ codes := by
  intro j c hj
  simp only [QMap.insert] at hj
  split_ifs at hj with hid
  · right
    simp only [Option.some.injEq] at hj
    rw [← hj]
    exact hc
  · exact h j c hj

/-- The codes the ADD branch can record. -/
theorem stageAddBody_within (C : Collaborators W) (k : StatusCodes) (id : ItemId)
    (remoteKey parentKey type format : String) (item : ItemParams) (w : W)
    (r : QMap ItemId ResponseStatusCode) :
    ∀ j c, (stageAddBody C k id remoteKey parentKey type format item w r).responses j =
        some c →
      r j = some c ∨ c ∈ [k.SIZE_REQUIRED, k.COMMAND_FAILED, k.COMMAND_NOT_ALLOWED,
        k.NOT_SUPPORTED, k.CHUNKED_ITEM_ACCEPTED] := by
  have h0 : ∀ j c, r j = some c → r j = some c ∨ c ∈ [k.SIZE_REQUIRED, k.COMMAND_FAILED,
      k.COMMAND_NOT_ALLOWED, k.NOT_SUPPORTED, k.CHUNKED_ITEM_ACCEPTED] :=
    fun _ _ h => Or.inl h
  simp only [stageAddBody]
  split_ifs <;>
    first
      | exact h0
      | exact insert_within _ r _ id _ h0 (by simp)
      | exact insert_within _ r _ id _ (insert_within _ r _ id _ h0 (by simp)) (by simp)

/-- The codes the REPLACE branch can record. -/
theorem stageReplaceBody_within (C : Collaborators W) (k : StatusCodes) (id : ItemId)
    (localKey parentKey type format : String) (item : ItemParams) (w : W)
    (r : QMap ItemId ResponseStatusCode) :
    ∀ j c, (stageReplaceBody C k id localKey parentKey type format item w r).responses j =
        some c →
      r j = some c ∨ c ∈ [k.SIZE_REQUIRED, k.COMMAND_FAILED, k.COMMAND_NOT_ALLOWED,
        k.NOT_SUPPORTED, k.CHUNKED_ITEM_ACCEPTED] := by
  have h0 : ∀ j c, r j = some c → r j = some c ∨ c ∈ [k.SIZE_REQUIRED, k.COMMAND_FAILED,
      k.COMMAND_NOT_ALLOWED, k.NOT_SUPPORTED, k.CHUNKED_ITEM_ACCEPTED] :=
    fun _ _ h => Or.inl h
  simp only [stageReplaceBody]
  split_ifs <;>
    first
      | exact h0
      | exact insert_within _ r _ id _ h0 (by simp)
      | exact insert_within _ r _ id _ (insert_within _ r _ id _ h0 (by simp)) (by simp)

/-- The codes the staging of one item can record. -/
theorem stageItem_within (C : Collaborators W) (k : StatusCodes) (iRole : Role)
    (data : SyncActionData) (a : Nat) (item : ItemParams) (w : W)
    (r : QMap ItemId ResponseStatusCode) :
    ∀ j c, (stageItem C k iRole data a item w r).responses j = some c →
      r j = some c ∨ c ∈ [k.SIZE_REQUIRED, k.COMMAND_FAILED, k.COMMAND_NOT_ALLOWED,
        k.NOT_SUPPORTED, k.CHUNKED_ITEM_ACCEPTED] := by
  have h0 : ∀ j c, r j = some c → r j = some c ∨ c ∈ [k.SIZE_REQUIRED, k.COMMAND_FAILED,
      k.COMMAND_NOT_ALLOWED, k.NOT_SUPPORTED, k.CHUNKED_ITEM_ACCEPTED] :=
    fun _ _ h => Or.inl h
  by_cases hadd : data.action = SyncMLCommand.SYNCML_ADD
  · simp only [stageItem, hadd, if_true]
    exact stageAddBody_within C k _ _ _ _ _ item _ r
  · by_cases hrep : data.action = SyncMLCommand.SYNCML_REPLACE
    · simp only [stageItem, hadd, hrep, if_false, if_true]
      exact stageReplaceBody_within C k _ _ _ _ _ item _ r
    · by_cases hdel : data.action = SyncMLCommand.SYNCML_DELETE
      · have n1 : SyncMLCommand.SYNCML_DELETE ≠ SyncMLCommand.SYNCML_ADD := by decide
        have n2 : SyncMLCommand.SYNCML_DELETE ≠ SyncMLCommand.SYNCML_REPLACE := by decide
        simp only [stageItem, hdel, n1, n2, if_false, if_true]
        split_ifs
        · exact insert_within _ r _ _ _ h0 (by simp)
        · exact h0
      · simp only [stageItem, hadd, hrep, hdel, if_false]
        exact insert_within _ r _ _ _ h0 (by simp)

/-- The codes the inner staging loop can record. -/
theorem stageItems_within (C : Collaborators W) (k : StatusCodes) (iRole : Role)
    (data : SyncActionData) (items : List ItemParams) :
    ∀ (a : Nat) (w : W) (r : QMap ItemId ResponseStatusCode) (j : ItemId)
      (c : ResponseStatusCode),
      (stageItems C k iRole data a items w r).responses j = some c →
      r j = some c ∨ c ∈ [k.SIZE_REQUIRED, k.COMMAND_FAILED, k.COMMAND_NOT_ALLOWED,
        k.NOT_SUPPORTED, k.CHUNKED_ITEM_ACCEPTED] := by
  induction items with
  | nil => intro a w r j c h; exact Or.inl h
  | cons item rest ih =>
    intro a w r j c h
    simp only [stageItems] at h
    rcases ih _ _ _ j c h with h1 | h1
    · exact stageItem_within C k iRole data a item w r j c h1
    · exact Or.inr h1

/-- The codes the staging loop can record. -/
theorem stageActions_within (C : Collaborators W) (k : StatusCodes) (iRole : Role)
    (actions : List SyncActionData) :
    ∀ (w : W) (r : QMap ItemId ResponseStatusCode) (j : ItemId) (c : ResponseStatusCode),
      (stageActions C k iRole actions w r).responses j = some c →
      r j = some c ∨ c ∈ [k.SIZE_REQUIRED, k.COMMAND_FAILED, k.COMMAND_NOT_ALLOWED,
        k.NOT_SUPPORTED, k.CHUNKED_ITEM_ACCEPTED] := by
  induction actions with
  | nil => intro w r j c h; exact Or.inl h
  | cons data rest ih =>
    intro w r j c h
    simp only [stageActions] at h
    rcases ih _ _ j c h with h1 | h1
    · exact stageItems_within C k iRole data data.items 0 w r j c h1
    · exact Or.inr h1

end StagedFinal

/-- C13: an item of the batch that staging left without a status and whose
ItemId is absent from the merged commit results ends with `COMMAND_FAILED`,
and the result mapper makes no call for it. -/
theorem handleSync_missing_result {W : Type} (C : Collaborators W) (k : StatusCodes)
    (iRole : Role) (aSyncParams : SyncParams) (aConflictResolver : ConflictResolver) (w : W)
    (pre post : List SyncActionData) (data : SyncActionData)
    (ipre ipost : List ItemParams) (item : ItemParams)
    (hactions : aSyncParams.actionList = pre ++ data :: post)
    (hitems : data.items = ipre ++ item :: ipost)
    (hstaged : (stagingPhase C k iRole aSyncParams w).responses
      { iCmdId := data.cmdID, iItemIndex := (ipre.length : Int) } = none)
    (hmissing : (commitPhase C k iRole aSyncParams aConflictResolver w).results
      { iCmdId := data.cmdID, iItemIndex := (ipre.length : Int) } = none) :
    (handleSync C k iRole aSyncParams aConflictResolver w).responses.value
      { iCmdId := data.cmdID, iItemIndex := (ipre.length : Int) } = k.COMMAND_FAILED ∧
    (mapItem C k iRole (commitPhase C k iRole aSyncParams aConflictResolver w).results
        data ipre.length item
        (mappedBefore C k iRole (commitPhase C k iRole aSyncParams aConflictResolver w).results
          pre data ipre (commitPhase C k iRole aSyncParams aConflictResolver w).world
          (stagingPhase C k iRole aSyncParams w).responses).world
        (mappedBefore C k iRole (commitPhase C k iRole aSyncParams aConflictResolver w).results
          pre data ipre (commitPhase C k iRole aSyncParams aConflictResolver w).world
          (stagingPhase C k iRole aSyncParams w).responses).responses).trace = [] ∧
    (∃ later : List Call,
      (mappingPhase C k iRole aSyncParams aConflictResolver w).trace =
        (mappedBefore C k iRole (commitPhase C k iRole aSyncParams aConflictResolver w).results
          pre data ipre (commitPhase C k iRole aSyncParams aConflictResolver w).world
          (stagingPhase C k iRole aSyncParams w).responses).trace ++
        (mapItem C k iRole (commitPhase C k iRole aSyncParams aConflictResolver w).results
          data ipre.length item
          (mappedBefore C k iRole (commitPhase C k iRole aSyncParams aConflictResolver w).results
            pre data ipre (commitPhase C k iRole aSyncParams aConflictResolver w).world
            (stagingPhase C k iRole aSyncParams w).responses).world
          (mappedBefore C k iRole (commitPhase C k iRole aSyncParams aConflictResolver w).results
            pre data ipre (commitPhase C k iRole aSyncParams aConflictResolver w).world
            (stagingPhase C k iRole aSyncParams w).responses).responses).trace ++ later) := by
  have hmem := mem_itemIds_at pre post data ipre ipost item hitems
  rw [← hactions] at hmem
  refine ⟨?_, ?_, mappingPhase_trace_split C k iRole aSyncParams aConflictResolver w pre post
    data ipre ipost item hactions hitems⟩
  · simp [QMap.value, handleSync_responses, hstaged, hmem, mappedCode, hmissing]
  · rw [mapItem_trace_eq]
    simp only [hmissing]
    split_ifs <;> rfl

/-- C13, witness: an ADD item on collaborators that accept every item and
whose commits return nothing ends with `COMMAND_FAILED` (500). -/
theorem handleSync_missing_result_witness :
    (handleSync (answering acceptAll QMap.empty QMap.empty QMap.empty) syncmlCodes
      Role.ROLE_CLIENT
      ⟨1, false, [mkAction SyncMLCommand.SYNCML_ADD 2 [mkItem "r1" "" "data" 0 false]]⟩
      ⟨0⟩ ()).responses.value ⟨2, 0⟩ = 500 :=
  (handleSync_missing_result (answering acceptAll QMap.empty QMap.empty QMap.empty)
    syncmlCodes Role.ROLE_CLIENT
    ⟨1, false, [mkAction SyncMLCommand.SYNCML_ADD 2 [mkItem "r1" "" "data" 0 false]]⟩
    ⟨0⟩ () [] [] (mkAction SyncMLCommand.SYNCML_ADD 2 [mkItem "r1" "" "data" 0 false]) [] []
    (mkItem "r1" "" "data" 0 false) rfl rfl (by decide) (by decide)).1

/-- C16: an ItemId that the staging phase leaves with a status ends with that
status, whatever the commits return for it; the status is one of
`SIZE_REQUIRED`, `COMMAND_FAILED`, `COMMAND_NOT_ALLOWED`, `NOT_SUPPORTED` and
`CHUNKED_ITEM_ACCEPTED`; and for an item with that ItemId the result mapper
makes no call. -/
theorem handleSync_staged_status_final {W : Type} (C : Collaborators W) (k : StatusCodes)
    (iRole : Role) (aSyncParams : SyncParams) (aConflictResolver : ConflictResolver) (w : W)
    (pre post : List SyncActionData) (data : SyncActionData)
    (ipre ipost : List ItemParams) (item : ItemParams) (c : ResponseStatusCode)
    (hactions : aSyncParams.actionList = pre ++ data :: post)
    (hitems : data.items = ipre ++ item :: ipost)
    (hstaged : (stagingPhase C k iRole aSyncParams w).responses
      { iCmdId := data.cmdID, iItemIndex := (ipre.length : Int) } = some c) :
    (handleSync C k iRole aSyncParams aConflictResolver w).responses.value
      { iCmdId := data.cmdID, iItemIndex := (ipre.length : Int) } = c ∧
    c ∈ [k.SIZE_REQUIRED, k.COMMAND_FAILED, k.COMMAND_NOT_ALLOWED, k.NOT_SUPPORTED,
      k.CHUNKED_ITEM_ACCEPTED] ∧
    (mapItem C k iRole (commitPhase C k iRole aSyncParams aConflictResolver w).results
        data ipre.length item
        (mappedBefore C k iRole (commitPhase C k iRole aSyncParams aConflictResolver w).results
          pre data ipre (commitPhase C k iRole aSyncParams aConflictResolver w).world
          (stagingPhase C k iRole aSyncParams w).responses).world
        (mappedBefore C k iRole (commitPhase C k iRole aSyncParams aConflictResolver w).results
          pre data ipre (commitPhase C k iRole aSyncParams aConflictResolver w).world
          (stagingPhase C k iRole aSyncParams w).responses).responses).trace = [] ∧
    (∃ later : List Call,
      (mappingPhase C k iRole aSyncParams aConflictResolver w).trace =
        (mappedBefore C k iRole (commitPhase C k iRole aSyncParams aConflictResolver w).results
          pre data ipre (commitPhase C k iRole aSyncParams aConflictResolver w).world
          (stagingPhase C k iRole aSyncParams w).responses).trace ++
        (mapItem C k iRole (commitPhase C k iRole aSyncParams aConflictResolver w).results
          data ipre.length item
          (mappedBefore C k iRole (commitPhase C k iRole aSyncParams aConflictResolver w).results
            pre data ipre (commitPhase C k iRole aSyncParams aConflictResolver w).world
            (stagingPhase C k iRole aSyncParams w).responses).world
          (mappedBefore C k iRole (commitPhase C k iRole aSyncParams aConflictResolver w).results
            pre data ipre (commitPhase C k iRole aSyncParams aConflictResolver w).world
            (stagingPhase C k iRole aSyncParams w).responses).responses).trace ++ later) := by
  refine ⟨?_, ?_, ?_, mappingPhase_trace_split C k iRole aSyncParams aConflictResolver w pre
    post data ipre ipost item hactions hitems⟩
  · simp [QMap.value, handleSync_responses, hstaged]
  · rcases stageActions_within C k iRole aSyncParams.actionList w QMap.empty _ c hstaged
      with h | h
    · simp [QMap.empty] at h
    · exact h
  · rw [mapItem_trace_eq]
    simp only [QMap.contains, mappedBefore_responses_of_some C k iRole _ pre data ipre _ _ _ c
      hstaged, Option.isSome_some, if_true]

/-- C16, witness: an ADD item announcing more data without a size is given
`SIZE_REQUIRED` (411) by staging and ends with it. -/
theorem handleSync_staged_status_final_witness :
    (handleSync refStore syncmlCodes Role.ROLE_CLIENT
      ⟨1, false, [mkAction SyncMLCommand.SYNCML_ADD 2 [mkItem "big" "" "part" 0 true]]⟩
      ⟨0⟩ (idleStore ConflictStatus.CONFLICT_NO_CONFLICT)).responses.value ⟨2, 0⟩ = 411 :=
  (handleSync_staged_status_final refStore syncmlCodes Role.ROLE_CLIENT
    ⟨1, false, [mkAction SyncMLCommand.SYNCML_ADD 2 [mkItem "big" "" "part" 0 true]]⟩
    ⟨0⟩ (idleStore ConflictStatus.CONFLICT_NO_CONFLICT) [] []
    (mkAction SyncMLCommand.SYNCML_ADD 2 [mkItem "big" "" "part" 0 true]) [] []
    (mkItem "big" "" "part" 0 true) 411 rfl rfl (by decide)).1

/-! ## Large objects: first chunk, last chunk -/

section Chunks

variable {W : Type}

/-- Staging an ADD or REPLACE item is resolving its keys and then running its
branch with the resolved keys, the resolved parent and the item's type and
format. -/
theorem stageItem_eq_body (C : Collaborators W) (k : StatusCodes) (iRole : Role)
    (data : SyncActionData) (a : Nat) (item : ItemParams) (w : W)
    (responses : QMap ItemId ResponseStatusCode)
    (hkind : data.action = SyncMLCommand.SYNCML_ADD ∨
      data.action = SyncMLCommand.SYNCML_REPLACE) :
    stageItem C k iRole data a item w responses =
      { world := (stageBody C k data.action { iCmdId := data.cmdID, iItemIndex := (a : Int) }
          (resolveKeys C iRole data.action item w).key
          (resolveParent C iRole data.action item w) (itemType data item)
          (itemFormat data item) item (resolveKeys C iRole data.action item w).world
          responses).world,
        responses := (stageBody C k data.action
          { iCmdId := data.cmdID, iItemIndex := (a : Int) }
          (resolveKeys C iRole data.action item w).key
          (resolveParent C iRole data.action item w) (itemType data item)
          (itemFormat data item) item (resolveKeys C iRole data.action item w).world
          responses).responses,
        trace := (resolveKeys C iRole data.action item w).trace ++
          (stageBody C k data.action { iCmdId := data.cmdID, iItemIndex := (a : Int) }
            (resolveKeys C iRole data.action item w).key
            (resolveParent C iRole data.action item w) (itemType data item)
            (itemFormat data item) item (resolveKeys C iRole data.action item w).world
            responses).trace } := by
  rcases hkind with h | h
  · simp only [stageItem, stageBody, resolveKeys, resolveParent, itemType, itemFormat, h,
      if_true]
  · have hne : SyncMLCommand.SYNCML_REPLACE ≠ SyncMLCommand.SYNCML_ADD := by decide
    simp only [stageItem, stageBody, resolveKeys, resolveParent, itemType, itemFormat, h, hne,
      if_false, if_true, List.append_assoc]

/-- The branch of an ADD or REPLACE item on an accepted first chunk. -/
theorem stageBody_first_chunk (C : Collaborators W) (k : StatusCodes)
    (action : SyncMLCommand) (id : ItemId) (key parentKey type format : String)
    (item : ItemParams) (w w1 w2 w3 w4 : W) (responses : QMap ItemId ResponseStatusCode)
    (hkind : action = SyncMLCommand.SYNCML_ADD ∨ action = SyncMLCommand.SYNCML_REPLACE)
    (hmore : item.moreData = true)
    (hsize : item.meta.size ≠ 0)
    (hidle : C.buildingLargeObject w = (false, w1))
    (hstart : startLargeObject C action w1 key parentKey type format item.meta.size =
      (true, w2))
    (hbuilding : C.buildingLargeObject w2 = (true, w3))
    (happend : C.appendLargeObjectData w3 (chunkPayload C action item) = (true, w4)) :
    stageBody C k action id key parentKey type format item w responses =
      { world := w4, responses := responses.insert id k.CHUNKED_ITEM_ACCEPTED,
        trace := [Call.buildingLargeObject false,
          startCall action key parentKey type format item.meta.size true,
          Call.buildingLargeObject true,
          Call.appendLargeObjectData (chunkPayload C action item) true,
          Call.addPackage (alertPackage C AlertType.NEXT_MESSAGE w4)] } := by
  rcases hkind with h | h
  · simp only [startLargeObject, chunkPayload, h, if_true] at hstart happend
    simp [stageBody, startCall, chunkPayload, h, stageAddBody, hmore, hsize, hidle, hstart,
      hbuilding, happend]
  · have hne : SyncMLCommand.SYNCML_REPLACE ≠ SyncMLCommand.SYNCML_ADD := by decide
    simp only [startLargeObject, chunkPayload, h, hne, if_false] at hstart happend
    simp [stageBody, startCall, chunkPayload, h, hne, stageReplaceBody, hmore, hsize, hidle,
      hstart, hbuilding, happend]

/-- The ADD branch on a last chunk that matches the large object and is
appended and finished. -/
theorem stageAddBody_last_chunk (C : Collaborators W) (k : StatusCodes) (id : ItemId)
    (remoteKey parentKey type format : String) (item : ItemParams) (w w1 w2 w3 w4 : W)
    (responses : QMap ItemId ResponseStatusCode)
    (hmore : item.moreData = false)
    (hbuilding : C.buildingLargeObject w = (true, w1))
    (hmatch : C.matchesLargeObject w1 remoteKey = (true, w2))
    (happend : C.appendLargeObjectData w2 item.Data = (true, w3))
    (hfinish : C.finishLargeObject w3 id = (true, w4)) :
    stageAddBody C k id remoteKey parentKey type format item w responses =
      { world := w4, responses := responses,
        trace := [Call.buildingLargeObject true, Call.matchesLargeObject remoteKey true,
          Call.appendLargeObjectData item.Data true, Call.finishLargeObject id true] } := by
  simp [stageAddBody, hmore, hbuilding, hmatch, happend, hfinish]

/-- Every parent key the ADD branch hands to the storage is its `parentKey`. -/
theorem stageAddBody_parent (C : Collaborators W) (k : StatusCodes) (id : ItemId)
    (remoteKey parentKey type format : String) (item : ItemParams) (w : W)
    (responses : QMap ItemId ResponseStatusCode) :
    ∀ c ∈ (stageAddBody C k id remoteKey parentKey type format item w responses).trace,
      ∀ p, c.parentArg = some p → p = parentKey := by
  simp only [stageAddBody]
  split_ifs <;> simp [Call.parentArg]

/-- Every parent key the REPLACE branch hands to the storage is its
`parentKey`. -/
theorem stageReplaceBody_parent (C : Collaborators W) (k : StatusCodes) (id : ItemId)
    (localKey parentKey type format : String) (item : ItemParams) (w : W)
    (responses : QMap ItemId ResponseStatusCode) :
    ∀ c ∈ (stageReplaceBody C k id localKey parentKey type format item w responses).trace,
      ∀ p, c.parentArg = some p → p = parentKey := by
  simp only [stageReplaceBody]
  split_ifs <;> simp [Call.parentArg]

/-- Key lookups hand no parent key to the storage. -/
theorem resolveKeys_parent (C : Collaborators W) (iRole : Role) (action : SyncMLCommand)
    (item : ItemParams) (w : W) :
    ∀ c ∈ (resolveKeys C iRole action item w).trace, c.parentArg = none := by
  simp only [resolveKeys, addParentKey, localKeyOf, replaceParentKey]
  split_ifs <;> simp [Call.parentArg]

end Chunks

/-- C14: an ADD or REPLACE item with `moreData = true` and a declared size other
than 0, reached while no large object is building: if the start call succeeds,
the storage then reports a large object building and the append succeeds, the
calls made for the item are its key lookups, `buildingLargeObject`, the start
call, `buildingLargeObject`, `appendLargeObjectData` and one `NEXT_MESSAGE`
alert, so no `finishLargeObject`; the item ends with `CHUNKED_ITEM_ACCEPTED`
(no later action of the batch repeating its command id); and the result mapper
makes no call for it. The append in question is the one the code makes: of
`item.Data` for an ADD item (line 160), of `item.Data.toUtf8()` for a REPLACE
item (line 258). -/
theorem handleSync_first_chunk_accepted {W : Type} (C : Collaborators W) (k : StatusCodes)
    (iRole : Role) (aSyncParams : SyncParams) (aConflictResolver : ConflictResolver) (w : W)
    (pre post : List SyncActionData) (data : SyncActionData)
    (ipre ipost : List ItemParams) (item : ItemParams) (w1 w2 w3 w4 : W)
    (hactions : aSyncParams.actionList = pre ++ data :: post)
    (hitems : data.items = ipre ++ item :: ipost)
    (hunique : ∀ d ∈ post, d.cmdID ≠ data.cmdID)
    (hkind : data.action = SyncMLCommand.SYNCML_ADD ∨
      data.action = SyncMLCommand.SYNCML_REPLACE)
    (hmore : item.moreData = true)
    (hsize : item.meta.size ≠ 0)
    (hidle : C.buildingLargeObject (resolveKeys C iRole data.action item
      (stagedBefore C k iRole pre data ipre w).world).world = (false, w1))
    (hstart : startLargeObject C data.action w1
      (resolveKeys C iRole data.action item (stagedBefore C k iRole pre data ipre w).world).key
      (resolveParent C iRole data.action item (stagedBefore C k iRole pre data ipre w).world)
      (itemType data item) (itemFormat data item) item.meta.size = (true, w2))
    (hbuilding : C.buildingLargeObject w2 = (true, w3))
    (happend : C.appendLargeObjectData w3 (chunkPayload C data.action item) = (true, w4)) :
    (stagedItem C k iRole pre data ipre item w).trace =
      (resolveKeys C iRole data.action item
        (stagedBefore C k iRole pre data ipre w).world).trace ++
      [Call.buildingLargeObject false,
        startCall data.action
          (resolveKeys C iRole data.action item
            (stagedBefore C k iRole pre data ipre w).world).key
          (resolveParent C iRole data.action item
            (stagedBefore C k iRole pre data ipre w).world)
          (itemType data item) (itemFormat data item) item.meta.size true,
        Call.buildingLargeObject true,
        Call.appendLargeObjectData (chunkPayload C data.action item) true,
        Call.addPackage (alertPackage C AlertType.NEXT_MESSAGE w4)] ∧
    alerts (stagedItem C k iRole pre data ipre item w).trace = [AlertType.NEXT_MESSAGE] ∧
    (stagedItem C k iRole pre data ipre item w).trace.all (fun c => !c.isFinishCall) = true ∧
    (∃ later : List Call, (stagingPhase C k iRole aSyncParams w).trace =
      (stagedBefore C k iRole pre data ipre w).trace ++
        (stagedItem C k iRole pre data ipre item w).trace ++ later) ∧
    (handleSync C k iRole aSyncParams aConflictResolver w).responses.value
      { iCmdId := data.cmdID, iItemIndex := (ipre.length : Int) } =
        k.CHUNKED_ITEM_ACCEPTED ∧
    (mapItem C k iRole (commitPhase C k iRole aSyncParams aConflictResolver w).results
        data ipre.length item
        (mappedBefore C k iRole (commitPhase C k iRole aSyncParams aConflictResolver w).results
          pre data ipre (commitPhase C k iRole aSyncParams aConflictResolver w).world
          (stagingPhase C k iRole aSyncParams w).responses).world
        (mappedBefore C k iRole (commitPhase C k iRole aSyncParams aConflictResolver w).results
          pre data ipre (commitPhase C k iRole aSyncParams aConflictResolver w).world
          (stagingPhase C k iRole aSyncParams w).responses).responses).trace = [] := by
  have hbody := stageBody_first_chunk C k data.action
    { iCmdId := data.cmdID, iItemIndex := (ipre.length : Int) } _ _ _ _ item _ w1 w2 w3 w4
    (stagedBefore C k iRole pre data ipre w).responses hkind hmore hsize hidle hstart
    hbuilding happend
  have hitem := stageItem_eq_body C k iRole data ipre.length item
    (stagedBefore C k iRole pre data ipre w).world
    (stagedBefore C k iRole pre data ipre w).responses hkind
  rw [hbody] at hitem
  have hkeys := resolveKeys_trace C iRole data.action item
    (stagedBefore C k iRole pre data ipre w).world
  have hstaged : (stagedItem C k iRole pre data ipre item w).responses
      { iCmdId := data.cmdID, iItemIndex := (ipre.length : Int) } =
      some k.CHUNKED_ITEM_ACCEPTED := by
    simp only [stagedItem, hitem, QMap.insert, if_true]
  have hphase := stagingPhase_responses_at C k iRole aSyncParams w pre post data ipre ipost
    item hactions hitems hunique
  rw [hstaged] at hphase
  have hfin : ∀ t : List Call, t.all (fun c => !c.isPayloadCall) = true →
      t.all (fun c => !c.isFinishCall) = true := by
    intro t ht
    rw [List.all_eq_true] at ht ⊢
    intro c hc
    have h := ht c hc
    cases c <;> simp_all [Call.isPayloadCall, Call.isFinishCall]
  refine ⟨?_, ?_, ?_, ?_, ?_, ?_⟩
  · simp only [stagedItem, hitem]
  · simp only [stagedItem, hitem, alerts, List.filterMap_append]
    have h1 := hkeys.1
    simp only [alerts] at h1
    rw [h1]
    rcases hkind with h | h
    · simp [startCall, h, Call.asAlert, alertPackage]
    · have hne : SyncMLCommand.SYNCML_REPLACE ≠ SyncMLCommand.SYNCML_ADD := by decide
      simp [startCall, h, hne, Call.asAlert, alertPackage]
  · simp only [stagedItem, hitem, List.all_append, hfin _ hkeys.2, Bool.true_and]
    rcases hkind with h | h
    · simp [startCall, h, Call.isFinishCall]
    · have hne : SyncMLCommand.SYNCML_REPLACE ≠ SyncMLCommand.SYNCML_ADD := by decide
      simp [startCall, h, hne, Call.isFinishCall]
  · exact stagingPhase_trace_split C k iRole aSyncParams w pre post data ipre ipost item
      hactions hitems
  · simp [QMap.value, handleSync_responses, hphase]
  · rw [mapItem_trace_eq]
    simp only [QMap.contains, mappedBefore_responses_of_some C k iRole _ pre data ipre _ _ _ _
      hphase, Option.isSome_some, if_true]

/-- C14, witness: under Client role one ADD item with declared size 1000 and
more data to come, on the idle reference storage, ends with
`CHUNKED_ITEM_ACCEPTED` (213); so does one REPLACE item with the payload "é". -/
theorem handleSync_first_chunk_accepted_witness :
    (handleSync refStore syncmlCodes Role.ROLE_CLIENT
      ⟨1, false, [mkAction SyncMLCommand.SYNCML_ADD 2 [mkItem "big" "" "part" 1000 true]]⟩
      ⟨0⟩ (idleStore ConflictStatus.CONFLICT_NO_CONFLICT)).responses.value ⟨2, 0⟩ = 213 ∧
    (handleSync refStore syncmlCodes Role.ROLE_CLIENT
      ⟨1, false, [mkAction SyncMLCommand.SYNCML_REPLACE 2 [mkItem "r" "big" "é" 1000 true]]⟩
      ⟨0⟩ (idleStore ConflictStatus.CONFLICT_NO_CONFLICT)).responses.value ⟨2, 0⟩ = 213 :=
  ⟨(handleSync_first_chunk_accepted refStore syncmlCodes Role.ROLE_CLIENT
    ⟨1, false, [mkAction SyncMLCommand.SYNCML_ADD 2 [mkItem "big" "" "part" 1000 true]]⟩
    ⟨0⟩ (idleStore ConflictStatus.CONFLICT_NO_CONFLICT) [] []
    (mkAction SyncMLCommand.SYNCML_ADD 2 [mkItem "big" "" "part" 1000 true]) [] []
    (mkItem "big" "" "part" 1000 true)
    (idleStore ConflictStatus.CONFLICT_NO_CONFLICT)
    { idleStore ConflictStatus.CONFLICT_NO_CONFLICT with largeObject := some "big" }
    { idleStore ConflictStatus.CONFLICT_NO_CONFLICT with largeObject := some "big" }
    { idleStore ConflictStatus.CONFLICT_NO_CONFLICT with largeObject := some "big" }
    rfl rfl (fun d hd => absurd hd (List.not_mem_nil d)) (Or.inl rfl) rfl (by decide)
    (by decide) (by decide) (by decide) (by decide)).2.2.2.2.1,
   (handleSync_first_chunk_accepted refStore syncmlCodes Role.ROLE_CLIENT
    ⟨1, false, [mkAction SyncMLCommand.SYNCML_REPLACE 2 [mkItem "r" "big" "é" 1000 true]]⟩
    ⟨0⟩ (idleStore ConflictStatus.CONFLICT_NO_CONFLICT) [] []
    (mkAction SyncMLCommand.SYNCML_REPLACE 2 [mkItem "r" "big" "é" 1000 true]) [] []
    (mkItem "r" "big" "é" 1000 true)
    (idleStore ConflictStatus.CONFLICT_NO_CONFLICT)
    { idleStore ConflictStatus.CONFLICT_NO_CONFLICT with largeObject := some "big" }
    { idleStore ConflictStatus.CONFLICT_NO_CONFLICT with largeObject := some "big" }
    { idleStore ConflictStatus.CONFLICT_NO_CONFLICT with largeObject := some "big" }
    rfl rfl (fun d hd => absurd hd (List.not_mem_nil d)) (Or.inr rfl) rfl (by decide)
    (by decide) (by decide) (by decide) (by decide)).2.2.2.2.1⟩

/-- C15: an ADD item with `moreData = false`, reached while a large object is
building that matches `item.source`: if the append and the finish succeed, the
calls made for the item are its key lookups, `buildingLargeObject`,
`matchesLargeObject`, one `appendLargeObjectData` of its payload and one
`finishLargeObject` with its ItemId, with no `addItem`; and if the commits
return Added for the ItemId, the item ends with `ITEM_ADDED` and the result
mapper registers exactly the mapping of `item.source` to the resulting key (no
other action of the batch carrying the command id of its action). -/
theorem handleSync_last_chunk_completed {W : Type} (C : Collaborators W) (k : StatusCodes)
    (iRole : Role) (aSyncParams : SyncParams) (aConflictResolver : ConflictResolver) (w : W)
    (pre post : List SyncActionData) (data : SyncActionData)
    (ipre ipost : List ItemParams) (item : ItemParams) (w1 w2 w3 w4 : W)
    (result : CommitResult)
    (hactions : aSyncParams.actionList = pre ++ data :: post)
    (hitems : data.items = ipre ++ item :: ipost)
    (hpre : ∀ d ∈ pre, d.cmdID ≠ data.cmdID)
    (hunique : ∀ d ∈ post, d.cmdID ≠ data.cmdID)
    (hkind : data.action = SyncMLCommand.SYNCML_ADD)
    (hmore : item.moreData = false)
    (hbuilding : C.buildingLargeObject (addParentKey C iRole item
      (stagedBefore C k iRole pre data ipre w).world).world = (true, w1))
    (hmatch : C.matchesLargeObject w1 item.source = (true, w2))
    (happend : C.appendLargeObjectData w2 item.Data = (true, w3))
    (hfinish : C.finishLargeObject w3
      { iCmdId := data.cmdID, iItemIndex := (ipre.length : Int) } = (true, w4))
    (hresult : (commitPhase C k iRole aSyncParams aConflictResolver w).results
      { iCmdId := data.cmdID, iItemIndex := (ipre.length : Int) } = some result)
    (hadded : result.iStatus = CommitStatus.COMMIT_ADDED) :
    (stagedItem C k iRole pre data ipre item w).trace =
      (addParentKey C iRole item (stagedBefore C k iRole pre data ipre w).world).trace ++
      [Call.buildingLargeObject true, Call.matchesLargeObject item.source true,
        Call.appendLargeObjectData item.Data true,
        Call.finishLargeObject { iCmdId := data.cmdID, iItemIndex := (ipre.length : Int) }
          true] ∧
    (addParentKey C iRole item (stagedBefore C k iRole pre data ipre w).world).trace.all
      (fun c => !c.isPayloadCall) = true ∧
    (∃ later : List Call, (stagingPhase C k iRole aSyncParams w).trace =
      (stagedBefore C k iRole pre data ipre w).trace ++
        (stagedItem C k iRole pre data ipre item w).trace ++ later) ∧
    (handleSync C k iRole aSyncParams aConflictResolver w).responses.value
      { iCmdId := data.cmdID, iItemIndex := (ipre.length : Int) } = k.ITEM_ADDED ∧
    (mapItem C k iRole (commitPhase C k iRole aSyncParams aConflictResolver w).results
        data ipre.length item
        (mappedBefore C k iRole (commitPhase C k iRole aSyncParams aConflictResolver w).results
          pre data ipre (commitPhase C k iRole aSyncParams aConflictResolver w).world
          (stagingPhase C k iRole aSyncParams w).responses).world
        (mappedBefore C k iRole (commitPhase C k iRole aSyncParams aConflictResolver w).results
          pre data ipre (commitPhase C k iRole aSyncParams aConflictResolver w).world
          (stagingPhase C k iRole aSyncParams w).responses).responses).trace =
      [Call.addUIDMapping { iRemoteUID := item.source, iLocalUID := result.iItemKey }] := by
  have hbody := stageAddBody_last_chunk C k
    { iCmdId := data.cmdID, iItemIndex := (ipre.length : Int) } item.source
    (addParentKey C iRole item (stagedBefore C k iRole pre data ipre w).world).key
    (itemType data item) (itemFormat data item) item _ w1 w2 w3 w4
    (stagedBefore C k iRole pre data ipre w).responses hmore hbuilding hmatch happend hfinish
  have hitem : stagedItem C k iRole pre data ipre item w =
      { world := w4, responses := (stagedBefore C k iRole pre data ipre w).responses,
        trace := (addParentKey C iRole item
            (stagedBefore C k iRole pre data ipre w).world).trace ++
          [Call.buildingLargeObject true, Call.matchesLargeObject item.source true,
            Call.appendLargeObjectData item.Data true,
            Call.finishLargeObject
              { iCmdId := data.cmdID, iItemIndex := (ipre.length : Int) } true] } := by
    simp only [itemType, itemFormat] at hbody
    simp only [stagedItem, stageItem, hkind, if_true, hbody]
  have hnone : (stagedBefore C k iRole pre data ipre w).responses
      { iCmdId := data.cmdID, iItemIndex := (ipre.length : Int) } = none := by
    simp only [stagedBefore]
    rw [stageItems_responses_other, stageActions_responses_other]
    · rfl
    · intro hmem
      obtain ⟨d, hd, h⟩ := mem_itemIds _ _ hmem
      exact hpre d hd h.symm
    · intro hmem
      have h := mem_itemIdsFrom_lt _ _ _ _ hmem
      simp only at h
      push_cast at h
      omega
  have hphase := stagingPhase_responses_at C k iRole aSyncParams w pre post data ipre ipost
    item hactions hitems hunique
  rw [hitem] at hphase
  simp only [hnone] at hphase
  have hmem := mem_itemIds_at pre post data ipre ipost item hitems
  rw [← hactions] at hmem
  have hpar := (resolveKeys_trace C iRole SyncMLCommand.SYNCML_ADD item
    (stagedBefore C k iRole pre data ipre w).world).2
  simp only [resolveKeys, if_true] at hpar
  refine ⟨?_, hpar, ?_, ?_, ?_⟩
  · rw [hitem]
  · exact stagingPhase_trace_split C k iRole aSyncParams w pre post data ipre ipost item
      hactions hitems
  · obtain ⟨key, status, conflict⟩ := result
    simp only at hadded
    subst hadded
    simp [QMap.value, handleSync_responses, hphase, hmem, mappedCode, hresult, resultCode]
  · rw [mapItem_trace_eq]
    simp only [QMap.contains, mappedBefore_responses_at C k iRole _ pre data ipre _ _ hpre,
      hphase, hresult, hadded, Option.isSome_none, Bool.false_eq_true, if_false, if_true]

/-- C15, witness: under Client role an ADD command whose first item opens the
large object "big" and whose second item, with the same source, closes it: the
second item ends with `ITEM_ADDED` (201). -/
theorem handleSync_last_chunk_completed_witness :
    (handleSync refStore syncmlCodes Role.ROLE_CLIENT
      ⟨1, false, [mkAction SyncMLCommand.SYNCML_ADD 2
        [mkItem "big" "" "part" 1000 true, mkItem "big" "" "rest" 0 false]]⟩
      ⟨0⟩ (idleStore ConflictStatus.CONFLICT_NO_CONFLICT)).responses.value ⟨2, 1⟩ = 201 :=
  (handleSync_last_chunk_completed refStore syncmlCodes Role.ROLE_CLIENT
    ⟨1, false, [mkAction SyncMLCommand.SYNCML_ADD 2
      [mkItem "big" "" "part" 1000 true, mkItem "big" "" "rest" 0 false]]⟩
    ⟨0⟩ (idleStore ConflictStatus.CONFLICT_NO_CONFLICT) [] []
    (mkAction SyncMLCommand.SYNCML_ADD 2
      [mkItem "big" "" "part" 1000 true, mkItem "big" "" "rest" 0 false])
    [mkItem "big" "" "part" 1000 true] [] (mkItem "big" "" "rest" 0 false)
    { idleStore ConflictStatus.CONFLICT_NO_CONFLICT with largeObject := some "big" }
    { idleStore ConflictStatus.CONFLICT_NO_CONFLICT with largeObject := some "big" }
    { idleStore ConflictStatus.CONFLICT_NO_CONFLICT with largeObject := some "big" }
    { idleStore ConflictStatus.CONFLICT_NO_CONFLICT with added := [⟨2, 1⟩] }
    ⟨"local", CommitStatus.COMMIT_ADDED, ConflictStatus.CONFLICT_NO_CONFLICT⟩
    rfl rfl (fun d hd => absurd hd (List.not_mem_nil d))
    (fun d hd => absurd hd (List.not_mem_nil d)) rfl rfl
    (by decide) (by decide) (by decide) (by decide) (by decide) rfl).2.2.2.1

/-! ## Parent keys -/

/-- C20: every parent key that the staging of an item hands to the storage (in
a start call of a large object, `addItem` or `replaceItem`) is the resolved
parent of the item, and the resolved parent is: under Client role, for ADD and
REPLACE alike, `mapToLocalUID(sourceParent)` if `sourceParent` is not empty,
else `targetParent`; under Server role for ADD `mapToLocalUID(sourceParent)` if
`sourceParent` is not empty, else the empty key with no lookup; under Server
role for REPLACE `mapToLocalUID(sourceParent)` whether `sourceParent` is empty or
not, looked up after the local key of the item. -/
theorem stageItem_parent_key {W : Type} (C : Collaborators W) (k : StatusCodes) (iRole : Role)
    (data : SyncActionData) (a : Nat) (item : ItemParams) (w : W)
    (responses : QMap ItemId ResponseStatusCode) :
    (∀ c ∈ (stageItem C k iRole data a item w responses).trace, ∀ p : String,
      c.parentArg = some p → p = resolveParent C iRole data.action item w) ∧
    resolveParent C Role.ROLE_CLIENT SyncMLCommand.SYNCML_ADD item w =
      (if item.sourceParent ≠ "" then (C.mapToLocalUID w item.sourceParent).1
        else item.targetParent) ∧
    resolveParent C Role.ROLE_CLIENT SyncMLCommand.SYNCML_REPLACE item w =
      (if item.sourceParent ≠ "" then (C.mapToLocalUID w item.sourceParent).1
        else item.targetParent) ∧
    resolveParent C Role.ROLE_SERVER SyncMLCommand.SYNCML_ADD item w =
      (if item.sourceParent ≠ "" then (C.mapToLocalUID w item.sourceParent).1 else "") ∧
    (addParentKey C Role.ROLE_SERVER item w).trace =
      (if item.sourceParent ≠ "" then
        [Call.mapToLocalUID item.sourceParent (C.mapToLocalUID w item.sourceParent).1]
        else []) ∧
    resolveParent C Role.ROLE_SERVER SyncMLCommand.SYNCML_REPLACE item w =
      (C.mapToLocalUID (C.mapToLocalUID w item.source).2 item.sourceParent).1 ∧
    (replaceParentKey C Role.ROLE_SERVER item (C.mapToLocalUID w item.source).2).trace =
      [Call.mapToLocalUID item.sourceParent
        (C.mapToLocalUID (C.mapToLocalUID w item.source).2 item.sourceParent).1] := by
  refine ⟨?_, ?_, ?_, ?_, ?_, ?_, ?_⟩
  · by_cases hadd : data.action = SyncMLCommand.SYNCML_ADD
    · rw [stageItem_eq_body C k iRole data a item w responses (Or.inl hadd)]
      intro c hc p hp
      simp only [List.mem_append] at hc
      rcases hc with hc | hc
      · rw [resolveKeys_parent C iRole data.action item w c hc] at hp
        exact absurd hp (by simp)
      · simp only [stageBody, hadd, if_true] at hc
        rw [hadd]
        exact stageAddBody_parent C k _ _ _ _ _ item _ responses c hc p hp
    · by_cases hrep : data.action = SyncMLCommand.SYNCML_REPLACE
      · rw [stageItem_eq_body C k iRole data a item w responses (Or.inr hrep)]
        intro c hc p hp
        simp only [List.mem_append] at hc
        rcases hc with hc | hc
        · rw [resolveKeys_parent C iRole data.action item w c hc] at hp
          exact absurd hp (by simp)
        · have hne : SyncMLCommand.SYNCML_REPLACE ≠ SyncMLCommand.SYNCML_ADD := by decide
          simp only [stageBody, hrep, hne, if_false] at hc
          rw [hrep]
          exact stageReplaceBody_parent C k _ _ _ _ _ item _ responses c hc p hp
      · have hnone : (stageItem C k iRole data a item w responses).trace.filterMap
            Call.parentArg = [] := by
          simp only [stageItem, hadd, hrep, if_false, localKeyOf]
          split_ifs <;> rfl
        intro c hc p hp
        have hmem : p ∈ (stageItem C k iRole data a item w responses).trace.filterMap
            Call.parentArg := List.mem_filterMap.mpr ⟨c, hc, hp⟩
        rw [hnone] at hmem
        exact absurd hmem (List.not_mem_nil p)
  · by_cases h : item.sourceParent = "" <;> simp [resolveParent, addParentKey, h]
  · by_cases h : item.sourceParent = "" <;>
      simp [resolveParent, replaceParentKey, localKeyOf, h]
  · by_cases h : item.sourceParent = "" <;> simp [resolveParent, addParentKey, h]
  · by_cases h : item.sourceParent = "" <;> simp [addParentKey, h]
  · simp [resolveParent, replaceParentKey, localKeyOf]
  · simp [replaceParentKey]

/-- C20, witness: under Server role a REPLACE item without `sourceParent` on the
reference storage: the parent handed to `replaceItem` is the answer of the
mapping table for the empty key. -/
theorem stageItem_parent_key_witness :
    resolveParent refStore Role.ROLE_SERVER SyncMLCommand.SYNCML_REPLACE
        (mkItem "r1" "" "data" 0 false) (idleStore ConflictStatus.CONFLICT_NO_CONFLICT) =
      (refStore.mapToLocalUID
        (refStore.mapToLocalUID (idleStore ConflictStatus.CONFLICT_NO_CONFLICT) "r1").2 "").1 :=
  (stageItem_parent_key refStore syncmlCodes Role.ROLE_SERVER
    (mkAction SyncMLCommand.SYNCML_REPLACE 2 [mkItem "r1" "" "data" 0 false]) 0
    (mkItem "r1" "" "data" 0 false) (idleStore ConflictStatus.CONFLICT_NO_CONFLICT)
    QMap.empty).2.2.2.2.2.1

/-! ## `rejectSync` and `handleMap`: the calls they make -/

/-- C27: `rejectSync` writes the package status exactly when the package does
not suppress responses, then one action status for exactly the actions that do
not suppress responses, in action order; every status carries the code handed
in, and no item status is written. -/
theorem rejectSync_honours_flags (aSyncParams : SyncParams)
    (aResponseCode : ResponseStatusCode) :
    rejectSync aSyncParams aResponseCode =
      (if aSyncParams.noResp = false then
        [Call.addStatusSync aSyncParams.cmdID aResponseCode] else []) ++
      aSyncParams.actionList.filterMap (fun data =>
        if data.noResp = false then some (Call.addStatusAction data.cmdID aResponseCode)
        else none) ∧
    (rejectSync aSyncParams aResponseCode).all (fun c => !c.isItemStatus) = true := by
  have hlist : ∀ l : List SyncActionData,
      (l.filter (fun actionData => !actionData.noResp)).map
          (fun actionData => Call.addStatusAction actionData.cmdID aResponseCode) =
        l.filterMap (fun data =>
          if data.noResp = false then some (Call.addStatusAction data.cmdID aResponseCode)
          else none) := by
    intro l
    induction l with
    | nil => rfl
    | cons d rest ih =>
      cases hd : d.noResp <;> simp [List.filter_cons, List.filterMap_cons, hd, ih]
  constructor
  · simp only [rejectSync, hlist]
    cases aSyncParams.noResp <;> rfl
  · simp only [rejectSync, List.all_append, Bool.and_eq_true]
    constructor
    · split_ifs <;> rfl
    · apply List.all_eq_true.mpr
      intro c hc
      obtain ⟨d, _, hd⟩ := List.mem_map.mp hc
      rw [← hd]
      rfl

/-- The loop of `handleMap` registers the mapping of each map item, in list
order. -/
theorem handleMapItems_eq {W : Type} (C : Collaborators W) (items : List MapItem) :
    ∀ w : W, handleMapItems C items w =
      (items.foldl (fun v m => C.addUIDMapping v
          { iRemoteUID := m.source, iLocalUID := m.target }) w,
        items.map (fun m => Call.addUIDMapping
          { iRemoteUID := m.source, iLocalUID := m.target })) := by
  induction items with
  | nil => intro w; rfl
  | cons m rest ih =>
    intro w
    simp only [handleMapItems, addUIDMapping, ih, List.foldl_cons, List.map_cons,
      List.singleton_append]

/-- C28: `handleMap` returns `SUCCESS` on every input; the calls it makes are
one `addUIDMapping` per map item, with the item's source as remote key and its
target as local key, in list order, so none on an empty list and never a
`removeUIDMapping`; the world it leaves is the one these registrations
produce. -/
theorem handleMap_registers_each {W : Type} (C : Collaborators W) (k : StatusCodes)
    (aMapParams : MapParams) (w : W) :
    (handleMap C k aMapParams w).1 = k.SUCCESS ∧
    (handleMap C k aMapParams w).2.2 =
      aMapParams.mapItemList.map (fun m => Call.addUIDMapping
        { iRemoteUID := m.source, iLocalUID := m.target }) ∧
    (handleMap C k aMapParams w).2.1 =
      aMapParams.mapItemList.foldl (fun v m => C.addUIDMapping v
        { iRemoteUID := m.source, iLocalUID := m.target }) w ∧
    (handleMap C k ⟨[]⟩ w) = (k.SUCCESS, w, []) := by
  refine ⟨rfl, ?_, ?_, rfl⟩
  · simp only [handleMap, handleMapItems_eq]
  · simp only [handleMap, handleMapItems_eq]

/-! ## Merging the commit phases -/

/-- C24, counterexample: the add phase returns Added and the replace phase
returns Replaced for the same ItemId (2, 0): the merged result the mapper
consults is the one of the replace phase, and the item ends with `SUCCESS`
(200), not `ITEM_ADDED` (201). -/
theorem commitPhase_later_phase_wins :
    (commitPhase
      (answering acceptAll
        (fun id => if id = ⟨2, 0⟩ then
          some ⟨"a", CommitStatus.COMMIT_ADDED, ConflictStatus.CONFLICT_NO_CONFLICT⟩
          else none)
        (fun id => if id = ⟨2, 0⟩ then
          some ⟨"r", CommitStatus.COMMIT_REPLACED, ConflictStatus.CONFLICT_NO_CONFLICT⟩
          else none)
        QMap.empty)
      syncmlCodes Role.ROLE_CLIENT
      ⟨1, false, [mkAction SyncMLCommand.SYNCML_ADD 2 [mkItem "r1" "" "data" 0 false]]⟩
      ⟨0⟩ ()).results ⟨2, 0⟩ =
      some ⟨"r", CommitStatus.COMMIT_REPLACED, ConflictStatus.CONFLICT_NO_CONFLICT⟩ ∧
    (handleSync
      (answering acceptAll
        (fun id => if id = ⟨2, 0⟩ then
          some ⟨"a", CommitStatus.COMMIT_ADDED, ConflictStatus.CONFLICT_NO_CONFLICT⟩
          else none)
        (fun id => if id = ⟨2, 0⟩ then
          some ⟨"r", CommitStatus.COMMIT_REPLACED, ConflictStatus.CONFLICT_NO_CONFLICT⟩
          else none)
        QMap.empty)
      syncmlCodes Role.ROLE_CLIENT
      ⟨1, false, [mkAction SyncMLCommand.SYNCML_ADD 2 [mkItem "r1" "" "data" 0 false]]⟩
      ⟨0⟩ ()).responses.value ⟨2, 0⟩ = 200 := by
  constructor <;> decide

/-- C24, amended: the merged result the mapper consults for an ItemId is the
result of the delete phase when that phase returns one, else the result of
the replace phase when that phase returns one, else the result of the add
phase; so a result of the add phase is consulted unchanged exactly when neither
later phase returns one for the same ItemId. -/
theorem commitBatches_merge {W : Type} (C : Collaborators W) (iRole : Role)
    (aConflictResolver : ConflictResolver) (w : W) (id : ItemId) :
    (commitBatches C iRole aConflictResolver w).results id =
      match (C.commitDeletedItems
          (C.commitReplacedItems (C.commitAddedItems w).2
            (if resolveConflicts iRole = true then some aConflictResolver else none)).2
          (if resolveConflicts iRole = true then some aConflictResolver else none)).1 id with
      | some result => some result
      | none =>
        match (C.commitReplacedItems (C.commitAddedItems w).2
            (if resolveConflicts iRole = true then some aConflictResolver else none)).1 id with
        | some result => some result
        | none => (C.commitAddedItems w).1 id := by
  simp only [commitBatches, QMap.unite, QMap.empty]
  cases (C.commitDeletedItems
      (C.commitReplacedItems (C.commitAddedItems w).2
        (if resolveConflicts iRole = true then some aConflictResolver else none)).2
      (if resolveConflicts iRole = true then some aConflictResolver else none)).1 id <;>
    cases (C.commitReplacedItems (C.commitAddedItems w).2
      (if resolveConflicts iRole = true then some aConflictResolver else none)).1 id <;>
    cases (C.commitAddedItems w).1 id <;> rfl

/-! ## Unsupported kinds, type and format -/

/-- C23: an item of an action that is neither ADD, REPLACE nor DELETE makes no
call at all (no staging call of the storage, no lookup in the mapping table),
whatever the state of the large-object slot, and staging records
`NOT_SUPPORTED` for it, which is its final status when no later action of the
batch repeats the command id. -/
theorem handleSync_unsupported_kind {W : Type} (C : Collaborators W) (k : StatusCodes)
    (iRole : Role) (aSyncParams : SyncParams) (aConflictResolver : ConflictResolver) (w : W)
    (pre post : List SyncActionData) (data : SyncActionData)
    (ipre ipost : List ItemParams) (item : ItemParams)
    (hactions : aSyncParams.actionList = pre ++ data :: post)
    (hitems : data.items = ipre ++ item :: ipost)
    (hunique : ∀ d ∈ post, d.cmdID ≠ data.cmdID)
    (hadd : data.action ≠ SyncMLCommand.SYNCML_ADD)
    (hreplace : data.action ≠ SyncMLCommand.SYNCML_REPLACE)
    (hdelete : data.action ≠ SyncMLCommand.SYNCML_DELETE) :
    (stagedItem C k iRole pre data ipre item w).trace = [] ∧
    (stagedItem C k iRole pre data ipre item w).world =
      (stagedBefore C k iRole pre data ipre w).world ∧
    (∃ later : List Call, (stagingPhase C k iRole aSyncParams w).trace =
      (stagedBefore C k iRole pre data ipre w).trace ++
        (stagedItem C k iRole pre data ipre item w).trace ++ later) ∧
    (handleSync C k iRole aSyncParams aConflictResolver w).responses.value
      { iCmdId := data.cmdID, iItemIndex := (ipre.length : Int) } = k.NOT_SUPPORTED := by
  have hitem : stagedItem C k iRole pre data ipre item w =
      { world := (stagedBefore C k iRole pre data ipre w).world,
        responses := (stagedBefore C k iRole pre data ipre w).responses.insert
          { iCmdId := data.cmdID, iItemIndex := (ipre.length : Int) } k.NOT_SUPPORTED,
        trace := [] } := by
    simp only [stagedItem, stageItem, hadd, hreplace, hdelete, if_false]
  refine ⟨?_, ?_, ?_, ?_⟩
  · rw [hitem]
  · rw [hitem]
  · exact stagingPhase_trace_split C k iRole aSyncParams w pre post data ipre ipost item
      hactions hitems
  · apply handleSync_value_of_staged C k iRole aSyncParams aConflictResolver w pre post data
      ipre ipost item k.NOT_SUPPORTED hactions hitems hunique
    simp only [hitem, QMap.insert, if_true]

/-- C23, witness: an item of an action of another kind, reached while the
reference storage is building a large object, ends with `NOT_SUPPORTED` (406). -/
theorem handleSync_unsupported_kind_witness :
    (handleSync refStore syncmlCodes Role.ROLE_SERVER
      ⟨1, false, [mkAction (SyncMLCommand.SYNCML_OTHER 0) 2 [mkItem "r1" "" "data" 0 false]]⟩
      ⟨0⟩ { idleStore ConflictStatus.CONFLICT_NO_CONFLICT with largeObject := some "big" }
      ).responses.value ⟨2, 0⟩ = 406 :=
  (handleSync_unsupported_kind refStore syncmlCodes Role.ROLE_SERVER
    ⟨1, false, [mkAction (SyncMLCommand.SYNCML_OTHER 0) 2 [mkItem "r1" "" "data" 0 false]]⟩
    ⟨0⟩ { idleStore ConflictStatus.CONFLICT_NO_CONFLICT with largeObject := some "big" } [] []
    (mkAction (SyncMLCommand.SYNCML_OTHER 0) 2 [mkItem "r1" "" "data" 0 false]) [] []
    (mkItem "r1" "" "data" 0 false) rfl rfl (fun d hd => absurd hd (List.not_mem_nil d))
    (by decide) (by decide) (by decide)).2.2.2

section TypeFormat

variable {W : Type}

/-- Every type and format the ADD branch hands to the storage are its `type` and
`format`. -/
theorem stageAddBody_typeFormat (C : Collaborators W) (k : StatusCodes) (id : ItemId)
    (remoteKey parentKey type format : String) (item : ItemParams) (w : W)
    (responses : QMap ItemId ResponseStatusCode) :
    ∀ c ∈ (stageAddBody C k id remoteKey parentKey type format item w responses).trace,
      ∀ t f, c.typeFormatArg = some (t, f) → t = type ∧ f = format := by
  simp only [stageAddBody]
  split_ifs <;> simp [Call.typeFormatArg]

/-- Every type and format the REPLACE branch hands to the storage are its `type`
and `format`. -/
theorem stageReplaceBody_typeFormat (C : Collaborators W) (k : StatusCodes) (id : ItemId)
    (localKey parentKey type format : String) (item : ItemParams) (w : W)
    (responses : QMap ItemId ResponseStatusCode) :
    ∀ c ∈ (stageReplaceBody C k id localKey parentKey type format item w responses).trace,
      ∀ t f, c.typeFormatArg = some (t, f) → t = type ∧ f = format := by
  simp only [stageReplaceBody]
  split_ifs <;> simp [Call.typeFormatArg]

/-- Key lookups hand no type or format to the storage. -/
theorem resolveKeys_typeFormat (C : Collaborators W) (iRole : Role) (action : SyncMLCommand)
    (item : ItemParams) (w : W) :
    ∀ c ∈ (resolveKeys C iRole action item w).trace, c.typeFormatArg = none := by
  simp only [resolveKeys, addParentKey, localKeyOf, replaceParentKey]
  split_ifs <;> simp [Call.typeFormatArg]

end TypeFormat

/-- C25: every type and format that the staging of an ADD or REPLACE item hands
to the storage (in a start call of a large object, `addItem` or `replaceItem`)
are the item's own type when that is not empty and the default type of its
action otherwise, and, on its own, the item's own format when that is not empty
and the default format of its action otherwise. -/
theorem stageItem_type_format {W : Type} (C : Collaborators W) (k : StatusCodes) (iRole : Role)
    (data : SyncActionData) (a : Nat) (item : ItemParams) (w : W)
    (responses : QMap ItemId ResponseStatusCode)
    (hkind : data.action = SyncMLCommand.SYNCML_ADD ∨
      data.action = SyncMLCommand.SYNCML_REPLACE) :
    ∀ c ∈ (stageItem C k iRole data a item w responses).trace, ∀ t f : String,
      c.typeFormatArg = some (t, f) →
      t = (if item.meta.type ≠ "" then item.meta.type else data.meta.type) ∧
      f = (if item.meta.format ≠ "" then item.meta.format else data.meta.format) := by
  rw [stageItem_eq_body C k iRole data a item w responses hkind]
  intro c hc t f h
  simp only [List.mem_append] at hc
  rcases hc with hc | hc
  · rw [resolveKeys_typeFormat C iRole data.action item w c hc] at h
    exact absurd h (by simp)
  · rcases hkind with hk | hk
    · simp only [stageBody, hk, if_true] at hc
      exact stageAddBody_typeFormat C k _ _ _ _ _ item _ responses c hc t f h
    · have hne : SyncMLCommand.SYNCML_REPLACE ≠ SyncMLCommand.SYNCML_ADD := by decide
      simp only [stageBody, hk, hne, if_false] at hc
      exact stageReplaceBody_typeFormat C k _ _ _ _ _ item _ responses c hc t f h

/-- C25, witness: an ADD item whose own type is "text/plain" and whose format
is empty, in an action with default type "text/x-vcard" and default format
"b64": `addItem` receives the item's type and the action's format. -/
theorem stageItem_type_format_witness :
    "text/plain" = (if (⟨"r1", "", "", "", ⟨"text/plain", "", 0⟩, "data", false⟩ :
        ItemParams).meta.type ≠ "" then "text/plain" else "text/x-vcard") ∧
    "b64" = (if (⟨"r1", "", "", "", ⟨"text/plain", "", 0⟩, "data", false⟩ :
        ItemParams).meta.format ≠ "" then "" else "b64") :=
  stageItem_type_format refStore syncmlCodes Role.ROLE_CLIENT
    ⟨SyncMLCommand.SYNCML_ADD, 2, false, ⟨"text/x-vcard", "b64", 0⟩,
      [⟨"r1", "", "", "", ⟨"text/plain", "", 0⟩, "data", false⟩]⟩ 0
    ⟨"r1", "", "", "", ⟨"text/plain", "", 0⟩, "data", false⟩
    (idleStore ConflictStatus.CONFLICT_NO_CONFLICT) QMap.empty (Or.inl rfl)
    (Call.addItem ⟨2, 0⟩ "" "text/plain" "b64" "data" true) (by decide) "text/plain" "b64" rfl

/-! ## Chunks that open nothing, chunks that continue -/

section MoreChunks

variable {W : Type}

/-- Key lookups start, append to, match and finish nothing. -/
theorem resolveKeys_lookups (C : Collaborators W) (iRole : Role) (action : SyncMLCommand)
    (item : ItemParams) (w : W) :
    (resolveKeys C iRole action item w).trace.all (fun c => !c.isStartAppendFinish) = true ∧
    (resolveKeys C iRole action item w).trace.all (fun c => !c.isStartMatchFinish) = true ∧
    ∀ c ∈ (resolveKeys C iRole action item w).trace, c.keyArg = none := by
  simp only [resolveKeys, addParentKey, localKeyOf, replaceParentKey]
  split_ifs <;> simp [Call.isStartAppendFinish, Call.isStartMatchFinish, Call.keyArg]

/-- The branch of an ADD or REPLACE item on a first chunk without a declared
size. -/
theorem stageBody_size_required (C : Collaborators W) (k : StatusCodes)
    (action : SyncMLCommand) (id : ItemId) (key parentKey type format : String)
    (item : ItemParams) (w w1 w2 : W) (responses : QMap ItemId ResponseStatusCode)
    (hkind : action = SyncMLCommand.SYNCML_ADD ∨ action = SyncMLCommand.SYNCML_REPLACE)
    (hmore : item.moreData = true)
    (hsize : item.meta.size = 0)
    (hidle : C.buildingLargeObject w = (false, w1))
    (hidle2 : C.buildingLargeObject w1 = (false, w2)) :
    stageBody C k action id key parentKey type format item w responses =
      { world := w2, responses := responses.insert id k.SIZE_REQUIRED,
        trace := [Call.buildingLargeObject false, Call.buildingLargeObject false] } := by
  rcases hkind with h | h
  · simp [stageBody, h, stageAddBody, hmore, hsize, hidle, hidle2]
  · have hne : SyncMLCommand.SYNCML_REPLACE ≠ SyncMLCommand.SYNCML_ADD := by decide
    simp [stageBody, h, hne, stageReplaceBody, hmore, hsize, hidle, hidle2]

/-- Every item key the REPLACE branch hands to the storage is its `localKey`. -/
theorem stageReplaceBody_key (C : Collaborators W) (k : StatusCodes) (id : ItemId)
    (localKey parentKey type format : String) (item : ItemParams) (w : W)
    (responses : QMap ItemId ResponseStatusCode) :
    ∀ c ∈ (stageReplaceBody C k id localKey parentKey type format item w responses).trace,
      ∀ p, c.keyArg = some p → p = localKey := by
  simp only [stageReplaceBody]
  split_ifs <;> simp [Call.keyArg]

/-- Staging a DELETE item: the local key, then one `deleteItem`. -/
theorem stageItem_delete (C : Collaborators W) (k : StatusCodes) (iRole : Role)
    (data : SyncActionData) (a : Nat) (item : ItemParams) (w : W)
    (responses : QMap ItemId ResponseStatusCode)
    (hkind : data.action = SyncMLCommand.SYNCML_DELETE) :
    stageItem C k iRole data a item w responses =
      { world := (C.deleteItem (localKeyOf C iRole item w).world
          { iCmdId := data.cmdID, iItemIndex := (a : Int) } (localKeyOf C iRole item w).key).2,
        responses :=
          if (C.deleteItem (localKeyOf C iRole item w).world
              { iCmdId := data.cmdID, iItemIndex := (a : Int) }
              (localKeyOf C iRole item w).key).1 = true then responses
          else responses.insert { iCmdId := data.cmdID, iItemIndex := (a : Int) }
            k.COMMAND_FAILED,
        trace := (localKeyOf C iRole item w).trace ++
          [Call.deleteItem { iCmdId := data.cmdID, iItemIndex := (a : Int) }
            (localKeyOf C iRole item w).key
            (C.deleteItem (localKeyOf C iRole item w).world
              { iCmdId := data.cmdID, iItemIndex := (a : Int) }
              (localKeyOf C iRole item w).key).1] } := by
  have n1 : SyncMLCommand.SYNCML_DELETE ≠ SyncMLCommand.SYNCML_ADD := by decide
  have n2 : SyncMLCommand.SYNCML_DELETE ≠ SyncMLCommand.SYNCML_REPLACE := by decide
  simp only [stageItem, hkind, n1, n2, if_false, if_true]
  cases (C.deleteItem (localKeyOf C iRole item w).world
    { iCmdId := data.cmdID, iItemIndex := (a : Int) } (localKeyOf C iRole item w).key).1 <;>
    simp

end MoreChunks

/-- C22: an ADD or REPLACE item with `moreData = true` and declared size 0,
reached while no large object is building (the storage answers so both times
it is asked): the calls made for the item are its key lookups and the two
`buildingLargeObject` queries, so no start, append or finish call and no
alert; staging records `SIZE_REQUIRED`, which is the item's final status when
no later action of the batch repeats the command id. -/
theorem handleSync_size_required {W : Type} (C : Collaborators W) (k : StatusCodes)
    (iRole : Role) (aSyncParams : SyncParams) (aConflictResolver : ConflictResolver) (w : W)
    (pre post : List SyncActionData) (data : SyncActionData)
    (ipre ipost : List ItemParams) (item : ItemParams) (w1 w2 : W)
    (hactions : aSyncParams.actionList = pre ++ data :: post)
    (hitems : data.items = ipre ++ item :: ipost)
    (hunique : ∀ d ∈ post, d.cmdID ≠ data.cmdID)
    (hkind : data.action = SyncMLCommand.SYNCML_ADD ∨
      data.action = SyncMLCommand.SYNCML_REPLACE)
    (hmore : item.moreData = true)
    (hsize : item.meta.size = 0)
    (hidle : C.buildingLargeObject (resolveKeys C iRole data.action item
      (stagedBefore C k iRole pre data ipre w).world).world = (false, w1))
    (hidle2 : C.buildingLargeObject w1 = (false, w2)) :
    (stagedItem C k iRole pre data ipre item w).trace =
      (resolveKeys C iRole data.action item
        (stagedBefore C k iRole pre data ipre w).world).trace ++
      [Call.buildingLargeObject false, Call.buildingLargeObject false] ∧
    (stagedItem C k iRole pre data ipre item w).trace.all
      (fun c => !c.isStartAppendFinish) = true ∧
    alerts (stagedItem C k iRole pre data ipre item w).trace = [] ∧
    (∃ later : List Call, (stagingPhase C k iRole aSyncParams w).trace =
      (stagedBefore C k iRole pre data ipre w).trace ++
        (stagedItem C k iRole pre data ipre item w).trace ++ later) ∧
    (handleSync C k iRole aSyncParams aConflictResolver w).responses.value
      { iCmdId := data.cmdID, iItemIndex := (ipre.length : Int) } = k.SIZE_REQUIRED := by
  have hbody := stageBody_size_required C k data.action
    { iCmdId := data.cmdID, iItemIndex := (ipre.length : Int) }
    (resolveKeys C iRole data.action item (stagedBefore C k iRole pre data ipre w).world).key
    (resolveParent C iRole data.action item (stagedBefore C k iRole pre data ipre w).world)
    (itemType data item) (itemFormat data item) item _ w1 w2
    (stagedBefore C k iRole pre data ipre w).responses hkind hmore hsize hidle hidle2
  have hitem := stageItem_eq_body C k iRole data ipre.length item
    (stagedBefore C k iRole pre data ipre w).world
    (stagedBefore C k iRole pre data ipre w).responses hkind
  rw [hbody] at hitem
  have hkeys := resolveKeys_trace C iRole data.action item
    (stagedBefore C k iRole pre data ipre w).world
  have hlook := resolveKeys_lookups C iRole data.action item
    (stagedBefore C k iRole pre data ipre w).world
  refine ⟨?_, ?_, ?_, ?_, ?_⟩
  · simp only [stagedItem, hitem]
  · simp only [stagedItem, hitem, List.all_append, hlook.1, Bool.true_and]
    rfl
  · simp only [stagedItem, hitem, alerts, List.filterMap_append]
    have h1 := hkeys.1
    simp only [alerts] at h1
    rw [h1]
    rfl
  · exact stagingPhase_trace_split C k iRole aSyncParams w pre post data ipre ipost item
      hactions hitems
  · apply handleSync_value_of_staged C k iRole aSyncParams aConflictResolver w pre post data
      ipre ipost item k.SIZE_REQUIRED hactions hitems hunique
    simp only [stagedItem, hitem, QMap.insert, if_true]

/-- C22, witness: under Server role one REPLACE item announcing more data with
declared size 0, on the idle reference storage, ends with `SIZE_REQUIRED`
(411). -/
theorem handleSync_size_required_witness :
    (handleSync refStore syncmlCodes Role.ROLE_SERVER
      ⟨1, false, [mkAction SyncMLCommand.SYNCML_REPLACE 2 [mkItem "big" "" "part" 0 true]]⟩
      ⟨0⟩ (idleStore ConflictStatus.CONFLICT_NO_CONFLICT)).responses.value ⟨2, 0⟩ = 411 :=
  (handleSync_size_required refStore syncmlCodes Role.ROLE_SERVER
    ⟨1, false, [mkAction SyncMLCommand.SYNCML_REPLACE 2 [mkItem "big" "" "part" 0 true]]⟩
    ⟨0⟩ (idleStore ConflictStatus.CONFLICT_NO_CONFLICT) [] []
    (mkAction SyncMLCommand.SYNCML_REPLACE 2 [mkItem "big" "" "part" 0 true]) [] []
    (mkItem "big" "" "part" 0 true)
    (idleStore ConflictStatus.CONFLICT_NO_CONFLICT)
    (idleStore ConflictStatus.CONFLICT_NO_CONFLICT)
    rfl rfl (fun d hd => absurd hd (List.not_mem_nil d)) (Or.inr rfl) rfl rfl
    (by decide) (by decide)).2.2.2.2

/-- C21: the local key of a DELETE or REPLACE item is `item.target` under Client
role, with no lookup, and the answer of `mapToLocalUID(item.source)` under
Server role; every item key the staging of a REPLACE item hands to the storage
is that key; the staging of a DELETE item makes, after the lookup, exactly one
`deleteItem` with the ItemId and that key, and when `deleteItem` reports
failure the item ends with `COMMAND_FAILED` (no later action of the batch
repeating the command id). -/
theorem handleSync_delete_item {W : Type} (C : Collaborators W) (k : StatusCodes)
    (iRole : Role) (aSyncParams : SyncParams) (aConflictResolver : ConflictResolver) (w : W)
    (pre post : List SyncActionData) (data : SyncActionData)
    (ipre ipost : List ItemParams) (item : ItemParams)
    (hactions : aSyncParams.actionList = pre ++ data :: post)
    (hitems : data.items = ipre ++ item :: ipost)
    (hunique : ∀ d ∈ post, d.cmdID ≠ data.cmdID) :
    (∀ v : W, localKeyOf C Role.ROLE_CLIENT item v =
      { key := item.target, world := v, trace := [] }) ∧
    (∀ v : W, localKeyOf C Role.ROLE_SERVER item v =
      { key := (C.mapToLocalUID v item.source).1, world := (C.mapToLocalUID v item.source).2,
        trace := [Call.mapToLocalUID item.source (C.mapToLocalUID v item.source).1] }) ∧
    (data.action = SyncMLCommand.SYNCML_REPLACE →
      ∀ c ∈ (stagedItem C k iRole pre data ipre item w).trace, ∀ p : String,
        c.keyArg = some p →
        p = (localKeyOf C iRole item (stagedBefore C k iRole pre data ipre w).world).key) ∧
    (data.action = SyncMLCommand.SYNCML_DELETE →
      (stagedItem C k iRole pre data ipre item w).trace =
        (localKeyOf C iRole item (stagedBefore C k iRole pre data ipre w).world).trace ++
        [Call.deleteItem { iCmdId := data.cmdID, iItemIndex := (ipre.length : Int) }
          (localKeyOf C iRole item (stagedBefore C k iRole pre data ipre w).world).key
          (C.deleteItem
            (localKeyOf C iRole item (stagedBefore C k iRole pre data ipre w).world).world
            { iCmdId := data.cmdID, iItemIndex := (ipre.length : Int) }
            (localKeyOf C iRole item
              (stagedBefore C k iRole pre data ipre w).world).key).1]) ∧
    (data.action = SyncMLCommand.SYNCML_DELETE →
      (C.deleteItem
        (localKeyOf C iRole item (stagedBefore C k iRole pre data ipre w).world).world
        { iCmdId := data.cmdID, iItemIndex := (ipre.length : Int) }
        (localKeyOf C iRole item (stagedBefore C k iRole pre data ipre w).world).key).1 =
        false →
      (handleSync C k iRole aSyncParams aConflictResolver w).responses.value
        { iCmdId := data.cmdID, iItemIndex := (ipre.length : Int) } = k.COMMAND_FAILED) ∧
    (∃ later : List Call, (stagingPhase C k iRole aSyncParams w).trace =
      (stagedBefore C k iRole pre data ipre w).trace ++
        (stagedItem C k iRole pre data ipre item w).trace ++ later) := by
  refine ⟨fun v => ?_, fun v => ?_, ?_, ?_, ?_, ?_⟩
  · simp [localKeyOf]
  · simp [localKeyOf]
  · intro hkind c hc p hp
    have hitem := stageItem_eq_body C k iRole data ipre.length item
      (stagedBefore C k iRole pre data ipre w).world
      (stagedBefore C k iRole pre data ipre w).responses (Or.inr hkind)
    simp only [stagedItem, hitem, List.mem_append] at hc
    have hne : SyncMLCommand.SYNCML_REPLACE ≠ SyncMLCommand.SYNCML_ADD := by decide
    rcases hc with hc | hc
    · rw [(resolveKeys_lookups C iRole data.action item
        (stagedBefore C k iRole pre data ipre w).world).2.2 c hc] at hp
      exact absurd hp (by simp)
    · simp only [stageBody, hkind, hne, if_false, resolveKeys] at hc
      exact stageReplaceBody_key C k _ _ _ _ _ item _ _ c hc p hp
  · intro hkind
    simp only [stagedItem, stageItem_delete C k iRole data ipre.length item _ _ hkind]
  · intro hkind hfail
    apply handleSync_value_of_staged C k iRole aSyncParams aConflictResolver w pre post data
      ipre ipost item k.COMMAND_FAILED hactions hitems hunique
    simp only [stagedItem, stageItem_delete C k iRole data ipre.length item _ _ hkind, hfail,
      Bool.false_eq_true, if_false, QMap.insert, if_true]
  · exact stagingPhase_trace_split C k iRole aSyncParams w pre post data ipre ipost item
      hactions hitems

/-- C21, witness: under Client role a DELETE item with target "l1" on
collaborators that refuse every delete ends with `COMMAND_FAILED` (500). -/
theorem handleSync_delete_item_witness :
    (handleSync (answering refuseDelete QMap.empty QMap.empty QMap.empty) syncmlCodes
      Role.ROLE_CLIENT
      ⟨1, false, [mkAction SyncMLCommand.SYNCML_DELETE 2 [mkItem "r1" "l1" "" 0 false]]⟩
      ⟨0⟩ ()).responses.value ⟨2, 0⟩ = 500 :=
  (handleSync_delete_item (answering refuseDelete QMap.empty QMap.empty QMap.empty)
    syncmlCodes Role.ROLE_CLIENT
    ⟨1, false, [mkAction SyncMLCommand.SYNCML_DELETE 2 [mkItem "r1" "l1" "" 0 false]]⟩
    ⟨0⟩ () [] [] (mkAction SyncMLCommand.SYNCML_DELETE 2 [mkItem "r1" "l1" "" 0 false]) [] []
    (mkItem "r1" "l1" "" 0 false) rfl rfl
    (fun d hd => absurd hd (List.not_mem_nil d))).2.2.2.2.1 rfl rfl

/-! ## Order of the actions -/

/-- C7, counterexample: under Client role, on the idle reference storage, an
ADD command 2 whose item opens a large object and an ADD command 3 with an
ordinary item. In the order 2, 3 the item of command 3 is taken for a last
chunk with the wrong key and ends with `COMMAND_NOT_ALLOWED` (405); in the
order 3, 2 it is added and ends with `ITEM_ADDED` (201). -/
theorem handleSync_order_changes_status :
    List.Perm
      [mkAction SyncMLCommand.SYNCML_ADD 2 [mkItem "big" "" "part" 1000 true],
        mkAction SyncMLCommand.SYNCML_ADD 3 [mkItem "other" "" "data" 0 false]]
      [mkAction SyncMLCommand.SYNCML_ADD 3 [mkItem "other" "" "data" 0 false],
        mkAction SyncMLCommand.SYNCML_ADD 2 [mkItem "big" "" "part" 1000 true]] ∧
    (handleSync refStore syncmlCodes Role.ROLE_CLIENT
      ⟨1, false, [mkAction SyncMLCommand.SYNCML_ADD 2 [mkItem "big" "" "part" 1000 true],
        mkAction SyncMLCommand.SYNCML_ADD 3 [mkItem "other" "" "data" 0 false]]⟩
      ⟨0⟩ (idleStore ConflictStatus.CONFLICT_NO_CONFLICT)).responses.value ⟨3, 0⟩ = 405 ∧
    (handleSync refStore syncmlCodes Role.ROLE_CLIENT
      ⟨1, false, [mkAction SyncMLCommand.SYNCML_ADD 3 [mkItem "other" "" "data" 0 false],
        mkAction SyncMLCommand.SYNCML_ADD 2 [mkItem "big" "" "part" 1000 true]]⟩
      ⟨0⟩ (idleStore ConflictStatus.CONFLICT_NO_CONFLICT)).responses.value ⟨3, 0⟩ = 201 := by
  refine ⟨List.Perm.swap _ _ _, ?_, ?_⟩ <;> decide

section PlainOrder

variable {W : Type}

/-- Replaying two traces one after the other. -/
theorem replay_append (C : Collaborators W) (t u : List Call) (w : W) :
    replay C (t ++ u) w = replay C u (replay C t w) := by
  simp only [replay, List.foldl_append]

/-- The world after a parent key of an ADD item is resolved is the world its
calls leave. -/
theorem addParentKey_replay (C : Collaborators W) (iRole : Role) (item : ItemParams) (w : W) :
    (addParentKey C iRole item w).world = replay C (addParentKey C iRole item w).trace w := by
  simp only [addParentKey]
  split_ifs <;> rfl

/-- The same for the local key. -/
theorem localKeyOf_replay (C : Collaborators W) (iRole : Role) (item : ItemParams) (w : W) :
    (localKeyOf C iRole item w).world = replay C (localKeyOf C iRole item w).trace w := by
  simp only [localKeyOf]
  split_ifs <;> rfl

/-- The same for the parent key of a REPLACE item. -/
theorem replaceParentKey_replay (C : Collaborators W) (iRole : Role) (item : ItemParams)
    (w : W) :
    (replaceParentKey C iRole item w).world =
      replay C (replaceParentKey C iRole item w).trace w := by
  simp only [replaceParentKey]
  split_ifs <;> rfl

/-- The world the ADD branch leaves is the world its calls leave. -/
theorem stageAddBody_replay (C : Collaborators W) (k : StatusCodes) (id : ItemId)
    (remoteKey parentKey type format : String) (item : ItemParams) (w : W)
    (responses : QMap ItemId ResponseStatusCode) :
    (stageAddBody C k id remoteKey parentKey type format item w responses).world =
      replay C (stageAddBody C k id remoteKey parentKey type format item w responses).trace
        w := by
  simp only [stageAddBody]
  split_ifs <;> simp [replay, applyCall]

/-- The world the REPLACE branch leaves is the world its calls leave. -/
theorem stageReplaceBody_replay (C : Collaborators W) (k : StatusCodes) (id : ItemId)
    (localKey parentKey type format : String) (item : ItemParams) (w : W)
    (responses : QMap ItemId ResponseStatusCode) :
    (stageReplaceBody C k id localKey parentKey type format item w responses).world =
      replay C (stageReplaceBody C k id localKey parentKey type format item w responses).trace
        w := by
  simp only [stageReplaceBody]
  split_ifs <;> simp [replay, applyCall]

/-- The world the staging of one item leaves is the world its calls leave. -/
theorem stageItem_replay (C : Collaborators W) (k : StatusCodes) (iRole : Role)
    (data : SyncActionData) (a : Nat) (item : ItemParams) (w : W)
    (responses : QMap ItemId ResponseStatusCode) :
    (stageItem C k iRole data a item w responses).world =
      replay C (stageItem C k iRole data a item w responses).trace w := by
  by_cases hadd : data.action = SyncMLCommand.SYNCML_ADD
  · simp only [stageItem, if_pos hadd, replay_append]
    rw [← addParentKey_replay, ← stageAddBody_replay]
  · by_cases hrep : data.action = SyncMLCommand.SYNCML_REPLACE
    · simp only [stageItem, if_neg hadd, if_pos hrep, replay_append]
      rw [← localKeyOf_replay, ← replaceParentKey_replay, ← stageReplaceBody_replay]
    · by_cases hdel : data.action = SyncMLCommand.SYNCML_DELETE
      · simp only [stageItem, if_neg hadd, if_neg hrep, if_pos hdel]
        split_ifs <;> simp only [replay_append, ← localKeyOf_replay] <;> rfl
      · simp only [stageItem, if_neg hadd, if_neg hrep, if_neg hdel]
        rfl

/-- The world the inner staging loop leaves is the world its calls leave. -/
theorem stageItems_replay (C : Collaborators W) (k : StatusCodes) (iRole : Role)
    (data : SyncActionData) (items : List ItemParams) :
    ∀ (a : Nat) (w : W) (responses : QMap ItemId ResponseStatusCode),
      (stageItems C k iRole data a items w responses).world =
        replay C (stageItems C k iRole data a items w responses).trace w := by
  induction items with
  | nil => intro a w responses; rfl
  | cons item rest ih =>
    intro a w responses
    simp only [stageItems, replay_append, ← stageItem_replay, ← ih]

/-- The world the staging loop leaves is the world its calls leave. -/
theorem stageActions_replay (C : Collaborators W) (k : StatusCodes) (iRole : Role)
    (actions : List SyncActionData) :
    ∀ (w : W) (responses : QMap ItemId ResponseStatusCode),
      (stageActions C k iRole actions w responses).world =
        replay C (stageActions C k iRole actions w responses).trace w := by
  induction actions with
  | nil => intro w responses; rfl
  | cons data rest ih =>
    intro w responses
    simp only [stageActions, replay_append, ← stageItems_replay, ← ih]

end PlainOrder

section PlainStagingLemmas

variable {W : Type} {C : Collaborators W} {I : W → Prop} {E : W → W → Prop}

/-- Plain staging calls keep the world in the region. -/
theorem replay_closed (P : PlainStaging C I E) (t : List Call) :
    ∀ w, (∀ c ∈ t, c.isPlainStaging = true) → I w → I (replay C t w) := by
  induction t with
  | nil => intro w _ hw; exact hw
  | cons c rest ih =>
    intro w ht hw
    exact ih _ (fun d hd => ht d (List.mem_cons_of_mem _ hd))
      (P.closed w c (ht c (List.mem_cons_self _ _)) hw)

/-- Plain staging calls send related worlds to related worlds. -/
theorem replay_cong (P : PlainStaging C I E) (t : List Call) :
    ∀ w w', (∀ c ∈ t, c.isPlainStaging = true) → I w → I w' → E w w' →
      E (replay C t w) (replay C t w') := by
  induction t with
  | nil => intro w w' _ _ _ h; exact h
  | cons c rest ih =>
    intro w w' ht hw hw' h
    have hc := ht c (List.mem_cons_self _ _)
    exact ih _ _ (fun d hd => ht d (List.mem_cons_of_mem _ hd)) (P.closed w c hc hw)
      (P.closed w' c hc hw') (P.cong w w' c hc hw hw' h)

/-- Plain staging calls made in two orders leave related worlds. -/
theorem replay_perm (P : PlainStaging C I E) {t t' : List Call} (h : List.Perm t t') :
    (∀ c ∈ t, c.isPlainStaging = true) → ∀ w, I w → E (replay C t w) (replay C t' w) := by
  induction h with
  | nil => intro _ w _; exact P.refl w
  | cons c _ ih =>
    intro ht w hw
    exact ih (fun d hd => ht d (List.mem_cons_of_mem _ hd)) _
      (P.closed w c (ht c (List.mem_cons_self _ _)) hw)
  | swap c d l =>
    intro ht w hw
    have hd := ht d (List.mem_cons_self _ _)
    have hc := ht c (List.mem_cons_of_mem _ (List.mem_cons_self _ _))
    have hl : ∀ x ∈ l, x.isPlainStaging = true := fun x hx =>
      ht x (List.mem_cons_of_mem _ (List.mem_cons_of_mem _ hx))
    exact replay_cong P l _ _ hl (P.closed _ c hc (P.closed w d hd hw))
      (P.closed _ d hd (P.closed w c hc hw)) (P.comm w d c hd hc hw)
  | trans h1 _ ih1 ih2 =>
    intro ht w hw
    exact P.trans _ _ _ (ih1 ht w hw) (ih2 (fun c hc => ht c (h1.mem_iff.mpr hc)) w hw)

/-- In the region the parent key resolved for an ADD item and the calls made
for it do not depend on the world. -/
theorem addParentKey_plain (P : PlainStaging C I E) (iRole : Role) (item : ItemParams)
    (w w' : W) (hw : I w) (hw' : I w') :
    (∀ c ∈ (addParentKey C iRole item w).trace, c.isPlainStaging = true) ∧
    (addParentKey C iRole item w).key = (addParentKey C iRole item w').key ∧
    (addParentKey C iRole item w).trace = (addParentKey C iRole item w').trace := by
  have h := P.mapToLocalUID w w' item.sourceParent hw hw'
  simp only [addParentKey]
  split_ifs <;> simp [Call.isPlainStaging, h]

/-- The same for the local key. -/
theorem localKeyOf_plain (P : PlainStaging C I E) (iRole : Role) (item : ItemParams)
    (w w' : W) (hw : I w) (hw' : I w') :
    (∀ c ∈ (localKeyOf C iRole item w).trace, c.isPlainStaging = true) ∧
    (localKeyOf C iRole item w).key = (localKeyOf C iRole item w').key ∧
    (localKeyOf C iRole item w).trace = (localKeyOf C iRole item w').trace := by
  have h := P.mapToLocalUID w w' item.source hw hw'
  simp only [localKeyOf]
  split_ifs <;> simp [Call.isPlainStaging, h]

/-- The same for the parent key of a REPLACE item. -/
theorem replaceParentKey_plain (P : PlainStaging C I E) (iRole : Role) (item : ItemParams)
    (w w' : W) (hw : I w) (hw' : I w') :
    (∀ c ∈ (replaceParentKey C iRole item w).trace, c.isPlainStaging = true) ∧
    (replaceParentKey C iRole item w).key = (replaceParentKey C iRole item w').key ∧
    (replaceParentKey C iRole item w).trace = (replaceParentKey C iRole item w').trace := by
  have h := P.mapToLocalUID w w' item.sourceParent hw hw'
  simp only [replaceParentKey]
  split_ifs <;> simp [Call.isPlainStaging, h]

/-- The ADD branch for an item that is no chunk while nothing is building:
the query, then one `addItem`. -/
theorem stageAddBody_plain (C : Collaborators W) (k : StatusCodes) (id : ItemId)
    (remoteKey parentKey type format : String) (item : ItemParams) (w : W)
    (responses : QMap ItemId ResponseStatusCode)
    (hmore : item.moreData = false) (hidle : (C.buildingLargeObject w).1 = false) :
    (stageAddBody C k id remoteKey parentKey type format item w responses).trace =
      [Call.buildingLargeObject false,
        Call.addItem id parentKey type format item.Data
          (C.addItem (C.buildingLargeObject w).2 id parentKey type format item.Data).1] ∧
    (stageAddBody C k id remoteKey parentKey type format item w responses).responses =
      if (C.addItem (C.buildingLargeObject w).2 id parentKey type format item.Data).1 = true
      then responses else responses.insert id k.COMMAND_FAILED := by
  simp only [stageAddBody, hmore, hidle]
  cases (C.addItem (C.buildingLargeObject w).2 id parentKey type format item.Data).1 <;> simp

/-- The REPLACE branch for an item that is no chunk while nothing is building:
the query, then one `replaceItem`. -/
theorem stageReplaceBody_plain (C : Collaborators W) (k : StatusCodes) (id : ItemId)
    (localKey parentKey type format : String) (item : ItemParams) (w : W)
    (responses : QMap ItemId ResponseStatusCode)
    (hmore : item.moreData = false) (hidle : (C.buildingLargeObject w).1 = false) :
    (stageReplaceBody C k id localKey parentKey type format item w responses).trace =
      [Call.buildingLargeObject false,
        Call.replaceItem id localKey parentKey type format item.Data
          (C.replaceItem (C.buildingLargeObject w).2 id localKey parentKey type format
            item.Data).1] ∧
    (stageReplaceBody C k id localKey parentKey type format item w responses).responses =
      if (C.replaceItem (C.buildingLargeObject w).2 id localKey parentKey type format
        item.Data).1 = true
      then responses else responses.insert id k.COMMAND_FAILED := by
  simp only [stageReplaceBody, hmore, hidle]
  cases (C.replaceItem (C.buildingLargeObject w).2 id localKey parentKey type format
    item.Data).1 <;> simp

end PlainStagingLemmas

section PlainItems

variable {W : Type} {C : Collaborators W} {I : W → Prop} {E : W → W → Prop}

/-- Staging an item that is no chunk from a world of the region: the calls are
plain staging calls, they are the same from every world of the region, and so
is the entry left for the item when the entry found is the same. -/
theorem stageItem_plain (P : PlainStaging C I E) (k : StatusCodes) (iRole : Role)
    (data : SyncActionData) (a : Nat) (item : ItemParams) (hmore : item.moreData = false)
    (w w' : W) (hw : I w) (hw' : I w') (responses responses' : QMap ItemId ResponseStatusCode) :
    (∀ c ∈ (stageItem C k iRole data a item w responses).trace, c.isPlainStaging = true) ∧
    (stageItem C k iRole data a item w responses).trace =
      (stageItem C k iRole data a item w' responses').trace ∧
    (responses { iCmdId := data.cmdID, iItemIndex := (a : Int) } =
        responses' { iCmdId := data.cmdID, iItemIndex := (a : Int) } →
      (stageItem C k iRole data a item w responses).responses
          { iCmdId := data.cmdID, iItemIndex := (a : Int) } =
        (stageItem C k iRole data a item w' responses').responses
          { iCmdId := data.cmdID, iItemIndex := (a : Int) }) := by
  by_cases hadd : data.action = SyncMLCommand.SYNCML_ADD
  · have hp := addParentKey_plain P iRole item w w' hw hw'
    have hp' := addParentKey_plain P iRole item w' w hw' hw
    have hIp : I (addParentKey C iRole item w).world := by
      rw [addParentKey_replay]; exact replay_closed P _ _ hp.1 hw
    have hIp' : I (addParentKey C iRole item w').world := by
      rw [addParentKey_replay]; exact replay_closed P _ _ hp'.1 hw'
    have e := stageAddBody_plain C k { iCmdId := data.cmdID, iItemIndex := (a : Int) }
      item.source (addParentKey C iRole item w).key (itemType data item) (itemFormat data item)
      item _ responses hmore (P.idle _ hIp)
    have e' := stageAddBody_plain C k { iCmdId := data.cmdID, iItemIndex := (a : Int) }
      item.source (addParentKey C iRole item w').key (itemType data item)
      (itemFormat data item) item _ responses' hmore (P.idle _ hIp')
    have hans := P.addItem _ _ { iCmdId := data.cmdID, iItemIndex := (a : Int) }
      (addParentKey C iRole item w).key (itemType data item) (itemFormat data item) item.Data
      (P.closed _ (Call.buildingLargeObject false) rfl hIp)
      (P.closed _ (Call.buildingLargeObject false) rfl hIp')
    simp only [applyCall] at hans
    rw [← hp.2.1] at e'
    rw [← hans] at e'
    simp only [itemType, itemFormat] at e e'
    refine ⟨?_, ?_, ?_⟩
    · simp only [stageItem, if_pos hadd, e.1]
      intro c hc
      simp only [List.mem_append, List.mem_cons, List.mem_singleton, List.not_mem_nil,
        or_false] at hc
      rcases hc with hc | hc | hc
      · exact hp.1 c hc
      · rw [hc]; rfl
      · rw [hc]; rfl
    · simp only [stageItem, if_pos hadd, hp'.2.1, hp'.2.2, e.1, e'.1]
    · simp only [stageItem, if_pos hadd, hp'.2.1, e.2, e'.2]
      intro h
      split_ifs <;> simp [QMap.insert, h]
  · by_cases hrep : data.action = SyncMLCommand.SYNCML_REPLACE
    · have hl := localKeyOf_plain P iRole item w w' hw hw'
      have hl' := localKeyOf_plain P iRole item w' w hw' hw
      have hIl : I (localKeyOf C iRole item w).world := by
        rw [localKeyOf_replay]; exact replay_closed P _ _ hl.1 hw
      have hIl' : I (localKeyOf C iRole item w').world := by
        rw [localKeyOf_replay]; exact replay_closed P _ _ hl'.1 hw'
      have hq := replaceParentKey_plain P iRole item _ _ hIl hIl'
      have hq' := replaceParentKey_plain P iRole item _ _ hIl' hIl
      have hIq : I (replaceParentKey C iRole item (localKeyOf C iRole item w).world).world := by
        rw [replaceParentKey_replay]; exact replay_closed P _ _ hq.1 hIl
      have hIq' : I (replaceParentKey C iRole item (localKeyOf C iRole item w').world).world := by
        rw [replaceParentKey_replay]; exact replay_closed P _ _ hq'.1 hIl'
      have e := stageReplaceBody_plain C k { iCmdId := data.cmdID, iItemIndex := (a : Int) }
        (localKeyOf C iRole item w).key
        (replaceParentKey C iRole item (localKeyOf C iRole item w).world).key
        (itemType data item) (itemFormat data item) item _ responses hmore (P.idle _ hIq)
      have e' := stageReplaceBody_plain C k { iCmdId := data.cmdID, iItemIndex := (a : Int) }
        (localKeyOf C iRole item w).key
        (replaceParentKey C iRole item (localKeyOf C iRole item w).world).key
        (itemType data item) (itemFormat data item) item _ responses' hmore (P.idle _ hIq')
      have hans := P.replaceItem _ _ { iCmdId := data.cmdID, iItemIndex := (a : Int) }
        (localKeyOf C iRole item w).key
        (replaceParentKey C iRole item (localKeyOf C iRole item w).world).key
        (itemType data item) (itemFormat data item) item.Data
        (P.closed _ (Call.buildingLargeObject false) rfl hIq)
        (P.closed _ (Call.buildingLargeObject false) rfl hIq')
      simp only [applyCall] at hans
      rw [← hans] at e'
      simp only [itemType, itemFormat] at e e'
      refine ⟨?_, ?_, ?_⟩
      · simp only [stageItem, if_neg hadd, if_pos hrep, e.1]
        intro c hc
        simp only [List.mem_append, List.mem_cons, List.mem_singleton, List.not_mem_nil,
          or_false] at hc
        rcases hc with (hc | hc) | hc | hc
        · exact hl.1 c hc
        · exact hq.1 c hc
        · rw [hc]; rfl
        · rw [hc]; rfl
      · simp only [stageItem, if_neg hadd, if_pos hrep, hl'.2.1, hl'.2.2, hq'.2.1, hq'.2.2,
          e.1, e'.1]
      · simp only [stageItem, if_neg hadd, if_pos hrep, hl'.2.1, hq'.2.1, e.2, e'.2]
        intro h
        split_ifs <;> simp [QMap.insert, h]
    · by_cases hdel : data.action = SyncMLCommand.SYNCML_DELETE
      · have hl := localKeyOf_plain P iRole item w w' hw hw'
        have hl' := localKeyOf_plain P iRole item w' w hw' hw
        have hIl : I (localKeyOf C iRole item w).world := by
          rw [localKeyOf_replay]; exact replay_closed P _ _ hl.1 hw
        have hIl' : I (localKeyOf C iRole item w').world := by
          rw [localKeyOf_replay]; exact replay_closed P _ _ hl'.1 hw'
        have hans := P.deleteItem _ _ { iCmdId := data.cmdID, iItemIndex := (a : Int) }
          (localKeyOf C iRole item w).key hIl hIl'
        rw [stageItem_delete C k iRole data a item w responses hdel,
          stageItem_delete C k iRole data a item w' responses' hdel]
        refine ⟨?_, ?_, ?_⟩
        · intro c hc
          simp only [List.mem_append, List.mem_singleton] at hc
          rcases hc with hc | hc
          · exact hl.1 c hc
          · rw [hc]; rfl
        · simp only [hl'.2.1, hl'.2.2, hans]
        · simp only [hl'.2.1, hans]
          intro h
          split_ifs <;> simp [QMap.insert, h]
      · simp only [stageItem, if_neg hadd, if_neg hrep, if_neg hdel]
        refine ⟨?_, trivial, ?_⟩
        · intro c hc
          exact absurd hc (List.not_mem_nil c)
        · intro _
          simp [QMap.insert]

end PlainItems

section PlainBatches

variable {W : Type} {C : Collaborators W} {I : W → Prop} {E : W → W → Prop}

/-- A batch without chunks: no item of any action announces more data. -/
theorem noChunks_iff (actions : List SyncActionData) :
    noChunks actions = true ↔
      ∀ data ∈ actions, ∀ item ∈ data.items, item.moreData = false := by
  simp [noChunks, List.all_eq_true]

/-- The inner staging loop over items that are no chunks, from a world of the
region: plain staging calls, the same from every world of the region. -/
theorem stageItems_plain (P : PlainStaging C I E) (k : StatusCodes) (iRole : Role)
    (data : SyncActionData) (items : List ItemParams) :
    ∀ (a : Nat) (w w' : W) (responses responses' : QMap ItemId ResponseStatusCode),
      (∀ item ∈ items, item.moreData = false) → I w → I w' →
      (∀ c ∈ (stageItems C k iRole data a items w responses).trace, c.isPlainStaging = true) ∧
      (stageItems C k iRole data a items w responses).trace =
        (stageItems C k iRole data a items w' responses').trace := by
  induction items with
  | nil =>
    intro a w w' responses responses' _ _ _
    exact ⟨fun c hc => absurd hc (List.not_mem_nil c), rfl⟩
  | cons item rest ih =>
    intro a w w' responses responses' hitems hw hw'
    have hmore := hitems item (List.mem_cons_self _ _)
    have hrest : ∀ it ∈ rest, it.moreData = false := fun it hit =>
      hitems it (List.mem_cons_of_mem _ hit)
    have h := stageItem_plain P k iRole data a item hmore w w' hw hw' responses responses'
    have h' := stageItem_plain P k iRole data a item hmore w' w hw' hw responses' responses
    have hI : I (stageItem C k iRole data a item w responses).world := by
      rw [stageItem_replay]; exact replay_closed P _ _ h.1 hw
    have hI' : I (stageItem C k iRole data a item w' responses').world := by
      rw [stageItem_replay]; exact replay_closed P _ _ h'.1 hw'
    have hr := ih (a + 1) _ _ (stageItem C k iRole data a item w responses).responses
      (stageItem C k iRole data a item w' responses').responses hrest hI hI'
    simp only [stageItems]
    refine ⟨?_, ?_⟩
    · intro c hc
      rcases List.mem_append.mp hc with hc | hc
      · exact h.1 c hc
      · exact hr.1 c hc
    · rw [h.2.1, hr.2]

/-- The inner staging loop over items that are no chunks leaves a world of the
region. -/
theorem stageItems_closed (P : PlainStaging C I E) (k : StatusCodes) (iRole : Role)
    (data : SyncActionData) (items : List ItemParams) (a : Nat) (w : W)
    (responses : QMap ItemId ResponseStatusCode)
    (hitems : ∀ item ∈ items, item.moreData = false) (hw : I w) :
    I (stageItems C k iRole data a items w responses).world := by
  rw [stageItems_replay]
  exact replay_closed P _ _
    (stageItems_plain P k iRole data items a w w responses responses hitems hw hw).1 hw

/-- The staging loop over a batch without chunks, from a world of the region:
plain staging calls, the same from every world of the region. -/
theorem stageActions_plain (P : PlainStaging C I E) (k : StatusCodes) (iRole : Role)
    (actions : List SyncActionData) :
    ∀ (w w' : W) (responses responses' : QMap ItemId ResponseStatusCode),
      noChunks actions = true → I w → I w' →
      (∀ c ∈ (stageActions C k iRole actions w responses).trace, c.isPlainStaging = true) ∧
      (stageActions C k iRole actions w responses).trace =
        (stageActions C k iRole actions w' responses').trace := by
  induction actions with
  | nil =>
    intro w w' responses responses' _ _ _
    exact ⟨fun c hc => absurd hc (List.not_mem_nil c), rfl⟩
  | cons data rest ih =>
    intro w w' responses responses' hplain hw hw'
    have hall := (noChunks_iff _).mp hplain
    have hitems := hall data (List.mem_cons_self _ _)
    have hrest : noChunks rest = true :=
      (noChunks_iff _).mpr fun d hd => hall d (List.mem_cons_of_mem _ hd)
    have h := stageItems_plain P k iRole data data.items 0 w w' responses responses' hitems
      hw hw'
    have hr := ih _ _ (stageItems C k iRole data 0 data.items w responses).responses
      (stageItems C k iRole data 0 data.items w' responses').responses hrest
      (stageItems_closed P k iRole data data.items 0 w responses hitems hw)
      (stageItems_closed P k iRole data data.items 0 w' responses' hitems hw')
    simp only [stageActions]
    refine ⟨?_, ?_⟩
    · intro c hc
      rcases List.mem_append.mp hc with hc | hc
      · exact h.1 c hc
      · exact hr.1 c hc
    · rw [h.2, hr.2]

/-- The staging loop over a batch without chunks leaves a world of the
region. -/
theorem stageActions_closed (P : PlainStaging C I E) (k : StatusCodes) (iRole : Role)
    (actions : List SyncActionData) (w : W) (responses : QMap ItemId ResponseStatusCode)
    (hplain : noChunks actions = true) (hw : I w) :
    I (stageActions C k iRole actions w responses).world := by
  rw [stageActions_replay]
  exact replay_closed P _ _
    (stageActions_plain P k iRole actions w w responses responses hplain hw hw).1 hw

/-- The calls of the staging loop over a batch without chunks are, action by
action, the calls the staging of that action alone makes from the world `w0`. -/
theorem stageActions_trace_flat (P : PlainStaging C I E) (k : StatusCodes) (iRole : Role)
    (w0 : W) (hw0 : I w0) (actions : List SyncActionData) :
    ∀ (w : W) (responses : QMap ItemId ResponseStatusCode),
      noChunks actions = true → I w →
      (stageActions C k iRole actions w responses).trace =
        actions.flatMap fun data =>
          (stageItems C k iRole data 0 data.items w0 QMap.empty).trace := by
  induction actions with
  | nil => intro w responses _ _; rfl
  | cons data rest ih =>
    intro w responses hplain hw
    have hall := (noChunks_iff _).mp hplain
    have hitems := hall data (List.mem_cons_self _ _)
    have hrest : noChunks rest = true :=
      (noChunks_iff _).mpr fun d hd => hall d (List.mem_cons_of_mem _ hd)
    simp only [stageActions, List.flatMap_cons]
    rw [ih _ _ hrest (stageItems_closed P k iRole data data.items 0 w responses hitems hw),
      (stageItems_plain P k iRole data data.items 0 w w0 responses QMap.empty hitems hw
        hw0).2]

/-- Two orders of a batch without chunks, staged from the same world of the
region, leave worlds of the region related by `E`. -/
theorem stagingPhase_world_perm (P : PlainStaging C I E) (k : StatusCodes) (iRole : Role)
    (p p' : SyncParams) (w : W) (hperm : List.Perm p.actionList p'.actionList)
    (hplain : noChunks p.actionList = true) (hw : I w) :
    I (stagingPhase C k iRole p w).world ∧ I (stagingPhase C k iRole p' w).world ∧
    E (stagingPhase C k iRole p w).world (stagingPhase C k iRole p' w).world := by
  have hplain' : noChunks p'.actionList = true :=
    (noChunks_iff _).mpr fun d hd => (noChunks_iff _).mp hplain d (hperm.mem_iff.mpr hd)
  refine ⟨stageActions_closed P k iRole _ w _ hplain hw,
    stageActions_closed P k iRole _ w _ hplain' hw, ?_⟩
  have ht := (stageActions_plain P k iRole p.actionList w w QMap.empty QMap.empty hplain hw
    hw).1
  simp only [stagingPhase]
  rw [stageActions_replay C k iRole p.actionList, stageActions_replay C k iRole p'.actionList]
  rw [stageActions_trace_flat P k iRole w hw p.actionList w QMap.empty hplain hw] at ht ⊢
  rw [stageActions_trace_flat P k iRole w hw p'.actionList w QMap.empty hplain' hw]
  exact replay_perm P (List.Perm.flatMap_right _ hperm) ht w hw

/-- In two worlds of the region related by `E` the commits report the same
results. -/
theorem commitBatches_results_equiv (P : PlainStaging C I E) (iRole : Role)
    (aConflictResolver : ConflictResolver) (w w' : W) (hw : I w) (hw' : I w')
    (h : E w w') (id : ItemId) :
    (commitBatches C iRole aConflictResolver w).results id =
      (commitBatches C iRole aConflictResolver w').results id := by
  obtain ⟨h1, hI1, hI1', hE1⟩ := P.commitAddedItems w w' hw hw' h
  obtain ⟨h2, hI2, hI2', hE2⟩ := P.commitReplacedItems _ _
    (if resolveConflicts iRole = true then some aConflictResolver else none) hI1 hI1' hE1
  have h3 := P.commitDeletedItems _ _
    (if resolveConflicts iRole = true then some aConflictResolver else none) hI2 hI2' hE2
  simp only [commitBatches, QMap.unite, h1 id, h2 id, h3 id]

end PlainBatches

section PlainResponses

variable {W : Type} {C : Collaborators W} {I : W → Prop} {E : W → W → Prop}

/-- In a batch without chunks staged from a world of the region, with a command
id that no other action of the batch carries, the staging phase leaves for an
item the entry its own staging leaves when run first. -/
theorem stagingPhase_responses_plain (P : PlainStaging C I E) (k : StatusCodes) (iRole : Role)
    (aSyncParams : SyncParams) (w : W)
    (pre post : List SyncActionData) (data : SyncActionData)
    (ipre ipost : List ItemParams) (item : ItemParams)
    (hactions : aSyncParams.actionList = pre ++ data :: post)
    (hitems : data.items = ipre ++ item :: ipost)
    (hpre : ∀ d ∈ pre, d.cmdID ≠ data.cmdID)
    (hpost : ∀ d ∈ post, d.cmdID ≠ data.cmdID)
    (hplain : noChunks aSyncParams.actionList = true) (hw : I w) :
    (stagingPhase C k iRole aSyncParams w).responses
        { iCmdId := data.cmdID, iItemIndex := (ipre.length : Int) } =
      (stageItem C k iRole data ipre.length item w QMap.empty).responses
        { iCmdId := data.cmdID, iItemIndex := (ipre.length : Int) } := by
  have hall := (noChunks_iff _).mp hplain
  have hdata : data ∈ aSyncParams.actionList := by
    rw [hactions]
    exact List.mem_append_right _ (List.mem_cons_self _ _)
  have hmore : item.moreData = false :=
    hall data hdata item (by rw [hitems]; exact List.mem_append_right _ (List.mem_cons_self _ _))
  have hprePlain : noChunks pre = true :=
    (noChunks_iff _).mpr fun d hd =>
      hall d (by rw [hactions]; exact List.mem_append_left _ hd)
  have hipre : ∀ it ∈ ipre, it.moreData = false := fun it hit =>
    hall data hdata it (by rw [hitems]; exact List.mem_append_left _ hit)
  have hI : I (stagedBefore C k iRole pre data ipre w).world := by
    simp only [stagedBefore]
    exact stageItems_closed P k iRole data ipre 0 _ _ hipre
      (stageActions_closed P k iRole pre w _ hprePlain hw)
  rw [stagingPhase_responses_at C k iRole aSyncParams w pre post data ipre ipost item
    hactions hitems hpost]
  simp only [stagedItem]
  apply (stageItem_plain P k iRole data ipre.length item hmore _ w hI hw _ _).2.2
  simp only [stagedBefore]
  rw [stageItems_responses_other, stageActions_responses_other]
  · intro hmem
    obtain ⟨d, hd, h⟩ := mem_itemIds _ _ hmem
    exact hpre d hd h.symm
  · intro hmem
    have h := mem_itemIdsFrom_lt _ _ _ _ hmem
    simp only at h
    push_cast at h
    omega

/-- The accumulator the staging phase leaves is the same for two orders of a
batch without chunks whose actions carry pairwise distinct command ids, staged
from a world of the region. -/
theorem stagingPhase_responses_perm (P : PlainStaging C I E) (k : StatusCodes) (iRole : Role)
    (p p' : SyncParams) (w : W) (hperm : List.Perm p.actionList p'.actionList)
    (hnodup : (p.actionList.map SyncActionData.cmdID).Nodup)
    (hplain : noChunks p.actionList = true) (hw : I w) (j : ItemId) :
    (stagingPhase C k iRole p w).responses j = (stagingPhase C k iRole p' w).responses j := by
  have hnodup' : (p'.actionList.map SyncActionData.cmdID).Nodup :=
    (List.Perm.nodup_iff (List.Perm.map _ hperm)).mp hnodup
  have hplain' : noChunks p'.actionList = true :=
    (noChunks_iff _).mpr fun d hd => (noChunks_iff _).mp hplain d (hperm.mem_iff.mpr hd)
  have hsplit : ∀ (q : SyncParams), (q.actionList.map SyncActionData.cmdID).Nodup →
      noChunks q.actionList = true →
      ∀ data ∈ q.actionList, ∀ ipre item ipost, data.items = ipre ++ item :: ipost →
      (stagingPhase C k iRole q w).responses
          { iCmdId := data.cmdID, iItemIndex := (ipre.length : Int) } =
        (stageItem C k iRole data ipre.length item w QMap.empty).responses
          { iCmdId := data.cmdID, iItemIndex := (ipre.length : Int) } := by
    intro q hq hqplain data hdata ipre item ipost hitems
    obtain ⟨pre, post, hactions⟩ := List.append_of_mem hdata
    rw [hactions] at hq
    simp only [List.map_append, List.map_cons, List.nodup_append, List.nodup_cons,
      List.mem_map, not_exists, not_and, List.Disjoint, List.mem_cons] at hq
    obtain ⟨_, ⟨hpostn, _⟩, hdisj⟩ := hq
    apply stagingPhase_responses_plain P k iRole q w pre post data ipre ipost item
      hactions hitems _ _ hqplain hw
    · intro d hd heq
      exact hdisj ⟨d, hd, rfl⟩ (Or.inl heq)
    · intro d hd heq
      exact hpostn d hd heq
  by_cases hj : j ∈ itemIds p.actionList
  · obtain ⟨data, hdata, hmem⟩ := (mem_itemIds_iff _ _).mp hj
    obtain ⟨ipre, item, ipost, hitems, hjeq⟩ := mem_itemIdsFrom_split _ _ _ _ hmem
    simp only [Nat.zero_add] at hjeq
    subst hjeq
    rw [hsplit p hnodup hplain data hdata ipre item ipost hitems,
      hsplit p' hnodup' hplain' data (hperm.mem_iff.mp hdata) ipre item ipost hitems]
  · have hj' : j ∉ itemIds p'.actionList := by
      intro hmem
      apply hj
      obtain ⟨data, hdata, hm⟩ := (mem_itemIds_iff _ _).mp hmem
      exact (mem_itemIds_iff _ _).mpr ⟨data, hperm.mem_iff.mpr hdata, hm⟩
    simp only [stagingPhase]
    rw [stageActions_responses_other _ _ _ _ _ _ _ hj,
      stageActions_responses_other _ _ _ _ _ _ _ hj']

/-- The reference storage behaves the same in whatever order plain items are
staged: on the worlds with no large object in progress and a given mapping
table, up to the order of the staged ItemIds. -/
theorem refStore_plainStaging (mappings : List UIDMapping) :
    PlainStaging refStore (refRegion mappings) refEquiv where
  refl := fun w => ⟨rfl, rfl, rfl, List.Perm.refl _, List.Perm.refl _, List.Perm.refl _⟩
  trans := fun u v w h1 h2 =>
    ⟨h1.1.trans h2.1, h1.2.1.trans h2.2.1, h1.2.2.1.trans h2.2.2.1,
      h1.2.2.2.1.trans h2.2.2.2.1, h1.2.2.2.2.1.trans h2.2.2.2.2.1,
      h1.2.2.2.2.2.trans h2.2.2.2.2.2⟩
  idle := fun w hw => by simp [refStore, hw.1]
  mapToLocalUID := fun w w' remote hw hw' => by
    simp [refStore, Store.localOf, hw.2, hw'.2]
  addItem := fun _ _ _ _ _ _ _ _ _ => rfl
  replaceItem := fun _ _ _ _ _ _ _ _ _ _ => rfl
  deleteItem := fun _ _ _ _ _ _ => rfl
  closed := fun w c hc hw => by
    cases c <;> simp [Call.isPlainStaging] at hc <;>
      simpa [applyCall, refStore, refRegion] using hw
  cong := fun w w' c hc _ _ h => by
    obtain ⟨h1, h2, h3, h4, h5, h6⟩ := h
    cases c <;> simp [Call.isPlainStaging] at hc <;>
      simp [applyCall, refStore, refEquiv, h1, h2, h3, h4, h5, h6] <;>
      first
        | exact List.Perm.append_right _ h4
        | exact List.Perm.append_right _ h5
        | exact List.Perm.append_right _ h6
  comm := fun w c d hc hd _ => by
    cases c <;> simp [Call.isPlainStaging] at hc <;>
      cases d <;> simp [Call.isPlainStaging] at hd <;>
      simp [applyCall, refStore, refEquiv] <;>
      exact List.Perm.append_left _ (List.Perm.swap _ _ _)
  commitAddedItems := fun w w' hw hw' h => by
    obtain ⟨h1, h2, h3, h4, h5, h6⟩ := h
    refine ⟨fun id => ?_, ?_, ?_, ?_⟩
    · simp [refStore, h4.mem_iff]
    · simpa [refStore, refRegion] using hw
    · simpa [refStore, refRegion] using hw'
    · simp [refStore, refEquiv, h1, h2, h3, h5, h6]
  commitReplacedItems := fun w w' _ hw hw' h => by
    obtain ⟨h1, h2, h3, h4, h5, h6⟩ := h
    refine ⟨fun id => ?_, ?_, ?_, ?_⟩
    · simp [refStore, h5.mem_iff, h3]
    · simpa [refStore, refRegion] using hw
    · simpa [refStore, refRegion] using hw'
    · simp [refStore, refEquiv, h1, h2, h3, h4, h6]
  commitDeletedItems := fun w w' _ _ _ h id => by
    obtain ⟨_, _, h3, _, _, h6⟩ := h
    simp [refStore, h6.mem_iff, h3]

end PlainResponses

/-- C7, amended: a batch none of whose items announces more data, whose
actions carry pairwise distinct command ids, run from a world in which no
large object is building, and any permutation of its action list end with the
same status for every ItemId, on collaborators that behave the same in
whatever order plain items are staged (`PlainStaging`): the answers to the
lookups and to the direct add, replace and delete depend on the arguments of
the call, these calls made in either order leave storage states that differ at
most in a way `E` the commits cannot tell apart. Nothing is asked of the
large-object calls; that the commits report the same results in the two runs
follows from these conditions. -/
theorem handleSync_order_invariant {W : Type} (C : Collaborators W) (I : W → Prop)
    (E : W → W → Prop) (P : PlainStaging C I E) (k : StatusCodes) (iRole : Role)
    (p p' : SyncParams) (aConflictResolver : ConflictResolver) (w : W) (hw : I w)
    (hperm : List.Perm p.actionList p'.actionList)
    (hnodup : (p.actionList.map SyncActionData.cmdID).Nodup)
    (hplain : noChunks p.actionList = true) (id : ItemId) :
    (handleSync C k iRole p aConflictResolver w).responses id =
      (handleSync C k iRole p' aConflictResolver w).responses id := by
  obtain ⟨hI, hI', hE⟩ := stagingPhase_world_perm P k iRole p p' w hperm hplain hw
  have hcommit : ∀ j : ItemId, (commitPhase C k iRole p aConflictResolver w).results j =
      (commitPhase C k iRole p' aConflictResolver w).results j := fun j =>
    commitBatches_results_equiv P iRole aConflictResolver _ _ hI hI' hE j
  rw [handleSync_responses, handleSync_responses,
    stagingPhase_responses_perm P k iRole p p' w hperm hnodup hplain hw id]
  have hmem : (id ∈ itemIds p.actionList) = (id ∈ itemIds p'.actionList) :=
    propext (mem_itemIds_perm _ _ hperm id)
  simp only [hmem, mappedCode, hcommit]

/-- C7, witness of the amended claim: on the reference storage, idle, under
Client role, an ADD command 2 and a DELETE command 3 end with the same statuses
in both orders. -/
theorem handleSync_order_invariant_witness :
    (handleSync refStore syncmlCodes Role.ROLE_CLIENT
      ⟨1, false, [mkAction SyncMLCommand.SYNCML_ADD 2 [mkItem "r1" "" "data" 0 false],
        mkAction SyncMLCommand.SYNCML_DELETE 3 [mkItem "r2" "l2" "" 0 false]]⟩
      ⟨0⟩ (idleStore ConflictStatus.CONFLICT_NO_CONFLICT)).responses ⟨2, 0⟩ =
    (handleSync refStore syncmlCodes Role.ROLE_CLIENT
      ⟨1, false, [mkAction SyncMLCommand.SYNCML_DELETE 3 [mkItem "r2" "l2" "" 0 false],
        mkAction SyncMLCommand.SYNCML_ADD 2 [mkItem "r1" "" "data" 0 false]]⟩
      ⟨0⟩ (idleStore ConflictStatus.CONFLICT_NO_CONFLICT)).responses ⟨2, 0⟩ ∧
    (handleSync refStore syncmlCodes Role.ROLE_CLIENT
      ⟨1, false, [mkAction SyncMLCommand.SYNCML_ADD 2 [mkItem "r1" "" "data" 0 false],
        mkAction SyncMLCommand.SYNCML_DELETE 3 [mkItem "r2" "l2" "" 0 false]]⟩
      ⟨0⟩ (idleStore ConflictStatus.CONFLICT_NO_CONFLICT)).responses ⟨3, 0⟩ =
    (handleSync refStore syncmlCodes Role.ROLE_CLIENT
      ⟨1, false, [mkAction SyncMLCommand.SYNCML_DELETE 3 [mkItem "r2" "l2" "" 0 false],
        mkAction SyncMLCommand.SYNCML_ADD 2 [mkItem "r1" "" "data" 0 false]]⟩
      ⟨0⟩ (idleStore ConflictStatus.CONFLICT_NO_CONFLICT)).responses ⟨3, 0⟩ :=
  ⟨handleSync_order_invariant refStore (refRegion []) refEquiv (refStore_plainStaging [])
    syncmlCodes Role.ROLE_CLIENT
    ⟨1, false, [mkAction SyncMLCommand.SYNCML_ADD 2 [mkItem "r1" "" "data" 0 false],
      mkAction SyncMLCommand.SYNCML_DELETE 3 [mkItem "r2" "l2" "" 0 false]]⟩
    ⟨1, false, [mkAction SyncMLCommand.SYNCML_DELETE 3 [mkItem "r2" "l2" "" 0 false],
      mkAction SyncMLCommand.SYNCML_ADD 2 [mkItem "r1" "" "data" 0 false]]⟩
    ⟨0⟩ (idleStore ConflictStatus.CONFLICT_NO_CONFLICT) ⟨rfl, rfl⟩
    (List.Perm.swap _ _ _) (by decide) (by decide) ⟨2, 0⟩,
   handleSync_order_invariant refStore (refRegion []) refEquiv (refStore_plainStaging [])
    syncmlCodes Role.ROLE_CLIENT
    ⟨1, false, [mkAction SyncMLCommand.SYNCML_ADD 2 [mkItem "r1" "" "data" 0 false],
      mkAction SyncMLCommand.SYNCML_DELETE 3 [mkItem "r2" "l2" "" 0 false]]⟩
    ⟨1, false, [mkAction SyncMLCommand.SYNCML_DELETE 3 [mkItem "r2" "l2" "" 0 false],
      mkAction SyncMLCommand.SYNCML_ADD 2 [mkItem "r1" "" "data" 0 false]]⟩
    ⟨0⟩ (idleStore ConflictStatus.CONFLICT_NO_CONFLICT) ⟨rfl, rfl⟩
    (List.Perm.swap _ _ _) (by decide) (by decide) ⟨3, 0⟩⟩
